import Mathlib

/-!
# SilverMonitor: telemetry store and connection diff engine

A shallow embedding of `src/database.js` (class `Database`), of
`src/network-monitor-windows.js` (class `NetworkMonitorWindows`), of the DNS
cache of `src/network-monitor.js` (class `NetworkMonitor`) and of the mode
control and listeners of `src/web-server.js` (class `WebServer`), followed by
theorems about them.

Conventions of the embedding.

* A JavaScript array is a `List` (index 0 is the head), so `unshift` is `::`
  and `slice(0, n)` is `List.take n`.
* A JavaScript `Map` and a plain object used as a dictionary are association
  lists in the order in which the keys were first written: writing an existing
  key keeps its position, writing a new key appends at the end. The order in which
  `Object.entries` enumerates a plain object differs from it for array-index
  keys and is modelled by `objectEntries` and `objectEntriesNat`.
* A plain object holds its own properties only; a read of a key it does not
  hold goes on to `Object.prototype`. This matters for `statistics.protocols`,
  whose keys are arbitrary strings (`incremented`, `objectSet`); the keys of
  `statistics.ports` are decimal numbers, which `Object.prototype` does not
  hold.
* Counters are JavaScript numbers holding non-negative integers; they are
  modelled as `Nat` (exact below 2^53, far beyond any count a run can reach).
* Ports and process ids are the results of `parseInt` on netstat columns and
  are modelled as `Nat`.
* An `async` method whose body awaits nothing external is a pure state
  transformer; `emit` on the `Database` has no listener in the repository and
  changes no field, so it is left out of the store transformers.
* The fields `id` and `timestamp` of an event are read from the clock and the
  random source; they appear in no branch condition and are not modelled.
-/

namespace SilverMonitor

/-! ## Records -/

/-- A connection-table row as built by `getNetworkConnections`; `domain` is
the property that `monitorConnections` adds later to active rows. -/
structure Conn where
  protocol : String
  localAddress : String
  localPort : Nat
  remoteAddress : String
  remotePort : Nat
  state : String
  pid : Nat
  domain : Option String
deriving DecidableEq, Repr

/-- The `rawData` object nested in a packet event. -/
structure RawData where
  protocol : String
  localAddress : String
  localPort : Nat
  remoteAddress : String
  remotePort : Nat
  state : String
  pid : Nat
  direction : String
  activityType : Option String
  domain : Option String
deriving DecidableEq, Repr

/-- The `packetInfo` object of a packet event. A property that the source
does not write is `none`. -/
structure PacketInfo where
  protocol : String
  source : String
  destination : String
  size : Nat
  details : String
  flags : String
  pid : Nat
  connection : Conn
  isActivity : Option Bool
  direction : String
  rawData : RawData
  domain : Option String
deriving DecidableEq, Repr

/-- A process record as built by `getActiveProcesses`. -/
structure ProcessInfo where
  pid : Nat
  name : String
  cpu : Nat
  memory : Nat
  connections : Nat
  timestamp : Nat
deriving DecidableEq, Repr

/-! ## Dictionaries in insertion order -/

/-- Read a counter: `dict[k] || 0`, `map.get(k) || 0`. -/
def dictGet {κ : Type} [DecidableEq κ] : List (κ × Nat) → κ → Nat
  | [], _ => 0
  | (k', v) :: rest, k => if k' = k then v else dictGet rest k

/-- Write a key (`dict[k] = v`, `map.set(k, v)`): an existing key keeps its
place, a new key goes last. -/
def mapSet {κ β : Type} [DecidableEq κ] : List (κ × β) → κ → β → List (κ × β)
  | [], k, v => [(k, v)]
  | (k', v') :: rest, k, v =>
    if k' = k then (k', v) :: rest else (k', v') :: mapSet rest k v

/-- The test `map.has(k)`. -/
def mapHas {κ β : Type} [DecidableEq κ] : List (κ × β) → κ → Bool
  | [], _ => false
  | (k', _) :: rest, k => if k' = k then true else mapHas rest k

/-- The read `map.get(k)`, `none` for `undefined`. -/
def mapGet {κ β : Type} [DecidableEq κ] : List (κ × β) → κ → Option β
  | [], _ => none
  | (k', v) :: rest, k => if k' = k then some v else mapGet rest k

/-! ## Plain objects with string keys -/

/-- The names of the properties that a plain object inherits from
`Object.prototype`: eleven methods and the accessor `__proto__`. -/
def objectPrototypeNames : List String :=
  ["constructor", "__defineGetter__", "__defineSetter__", "hasOwnProperty",
    "__lookupGetter__", "__lookupSetter__", "isPrototypeOf", "propertyIsEnumerable",
    "toString", "valueOf", "__proto__", "toLocaleString"]

/-- The string that the value of `Object.prototype[name]` converts to when it
is an operand of `+`: the object `Object.prototype` itself for `__proto__`,
and for a method its source text as `Function.prototype.toString` of Node.js
prints it (the method `constructor` is the function `Object`). -/
def inheritedText (name : String) : String :=
  if name = "__proto__" then "[object Object]"
  else "function " ++ (if name = "constructor" then "Object" else name) ++
    "() \x7b [native code] \x7d"

/-- A value held under a key of `statistics.protocols`: a number, or the
string that `(value || 0) + 1` builds when the value read is the inherited
`Object.prototype[name]`, namely `inheritedText name` followed by `ones`
characters `1`. Such a string is not the text of a number. -/
inductive JsCount where
  | num (n : Nat)
  | text (name : String) (ones : Nat)
deriving DecidableEq, Repr

/-- The string a count prints as. -/
def JsCount.render : JsCount → String
  | .num n => toString n
  | .text name ones => inheritedText name ++ String.mk (List.replicate ones '1')

/-- The value of `(dict[key] || 0) + 1` on a plain object: an own number `n`
gives `n + 1` (also for 0, which is falsy); an own string is truthy and `+`
appends `1` to it; a key the object does not hold is read from
`Object.prototype`, which gives `undefined`, hence 1, unless the key names
one of its properties, whose value is truthy and converts to a string. -/
def incremented (dict : List (String × JsCount)) (key : String) : JsCount :=
  match mapGet dict key with
  | some (.num n) => .num (n + 1)
  | some (.text name ones) => .text name (ones + 1)
  | none => if key ∈ objectPrototypeNames then .text key 1 else .num 1

/-- The assignment `dict[key] = value` on a plain object, the value being a
number or a string: when the object does not hold `__proto__` the assignment
to that key runs the inherited setter, which ignores a value that is neither
an object nor `null`; any other assignment writes an own property. -/
def objectSet (dict : List (String × JsCount)) (key : String) (value : JsCount) :
    List (String × JsCount) :=
  if key = "__proto__" ∧ mapHas dict key = false then dict else mapSet dict key value

/-! ## The store (`database.js`) -/

/-- The `statistics` object of the store. -/
structure Statistics where
  totalPackets : Nat
  totalConnections : Nat
  activeProcesses : Nat
  uniqueDomains : Nat
  protocols : List (String × JsCount)
  ports : List (Nat × Nat)
deriving DecidableEq, Repr

/-- The fields of a `Database` instance. -/
structure Database where
  packets : List PacketInfo
  connections : List Conn
  processes : List ProcessInfo
  domains : List (String × Nat)
  statistics : Statistics
  maxItems : Nat
deriving DecidableEq, Repr

namespace Database

/-- The object literal assigned to `statistics` in the constructor and in
`clear`. -/
def emptyStatistics : Statistics :=
  { totalPackets := 0, totalConnections := 0, activeProcesses := 0,
    uniqueDomains := 0, protocols := [], ports := [] }

/-- The constructor. -/
def new : Database :=
  { packets := [], connections := [], processes := [], domains := [],
    statistics := emptyStatistics, maxItems := 10000 }

/-- The body of `savePacket`. -/
def savePacket (db : Database) (packet : PacketInfo) : Database :=
  let packets := packet :: db.packets
  let packets := if packets.length > db.maxItems then packets.take db.maxItems else packets
  { db with
    packets := packets
    statistics :=
      { db.statistics with
        totalPackets := db.statistics.totalPackets + 1
        protocols :=
          objectSet db.statistics.protocols packet.protocol
            (incremented db.statistics.protocols packet.protocol) } }

/-- The body of `saveConnection`. -/
def saveConnection (db : Database) (connection : Conn) : Database :=
  let connections := connection :: db.connections
  let connections :=
    if connections.length > db.maxItems then connections.take db.maxItems else connections
  { db with
    connections := connections
    statistics :=
      { db.statistics with
        totalConnections := db.statistics.totalConnections + 1
        ports :=
          mapSet db.statistics.ports connection.remotePort
            (dictGet db.statistics.ports connection.remotePort + 1) } }

/-- The `findIndex` of `saveProcess`: position of the first record with the
given pid, `none` for the JavaScript result `-1`. -/
def findIndex (pid : Nat) : List ProcessInfo → Option Nat
  | [] => none
  | p :: rest =>
    if p.pid = pid then some 0 else (findIndex pid rest).map (· + 1)

/-- The body of `saveProcess`. -/
def saveProcess (db : Database) (process : ProcessInfo) : Database :=
  let processes :=
    match findIndex process.pid db.processes with
    | some existingIndex => db.processes.set existingIndex process
    | none => process :: db.processes
  let processes :=
    if processes.length > db.maxItems then processes.take db.maxItems else processes
  { db with
    processes := processes
    statistics := { db.statistics with activeProcesses := processes.length } }

/-- The body of `updateDomainStats`. -/
def updateDomainStats (db : Database) (domain : String) (count : Nat) : Database :=
  let current := dictGet db.domains domain
  let domains := mapSet db.domains domain (current + count)
  { db with
    domains := domains
    statistics := { db.statistics with uniqueDomains := domains.length } }

/-- The body of `clear`. -/
def clear (db : Database) : Database :=
  { db with
    packets := [], connections := [], processes := [], domains := [],
    statistics := emptyStatistics }

/-- The body of `clearData`. -/
def clearData (db : Database) : Database := db.clear

/-- The mutating operations of the store. -/
inductive Op where
  | savePacket (packet : PacketInfo)
  | saveConnection (connection : Conn)
  | saveProcess (process : ProcessInfo)
  | updateDomainStats (domain : String) (count : Nat)
  | clear
deriving DecidableEq, Repr

/-- Apply one operation. -/
def step (db : Database) : Op → Database
  | .savePacket p => db.savePacket p
  | .saveConnection c => db.saveConnection c
  | .saveProcess p => db.saveProcess p
  | .updateDomainStats d n => db.updateDomainStats d n
  | .clear => db.clear

/-- The state after a sequence of operations on a fresh store. -/
def run (ops : List Op) : Database := ops.foldl step new

/-- The three bounds and the value of `maxItems`. -/
def Bounded (db : Database) : Prop :=
  db.packets.length ≤ db.maxItems ∧ db.connections.length ≤ db.maxItems ∧
    db.processes.length ≤ db.maxItems ∧ db.maxItems = 10000

/-- The lifetime counters dominate the buffer lengths. -/
def Counted (db : Database) : Prop :=
  db.packets.length ≤ db.statistics.totalPackets ∧
    db.connections.length ≤ db.statistics.totalConnections

end Database

/-! ## The monitor (`network-monitor-windows.js`) -/

/-- The outcome of `dns.reverse(ip)`: the resolved list of host names, or
`none` when the promise rejects. -/
abbrev DnsReply := Option (List String)

/-- The underlying resolver. Its reply may depend on the lookups made before
(their addresses, most recent first), so a resolver that answers once and
fails afterwards is one of its values. -/
abbrev Resolver := List String → String → DnsReply

/-- The fields of a `NetworkMonitorWindows` instance that the code reads or
writes: the two timer handles are kept as "is set" flags, and `lookups`
records the addresses handed to `dns.reverse` so far, most recent first (it
is not a field of the class: it makes the calls to the resolver observable).
`processCache` and `connectionStats` are never written and are left out. -/
structure NetworkMonitorWindows where
  isRunning : Bool
  interval : Bool
  activityInterval : Bool
  dnsCache : List (String × String)
  targetProcess : Option Nat
  lastConnections : List (String × Conn)
  lookups : List String
deriving DecidableEq, Repr

/-- What the monitor emits. -/
inductive Event where
  | packet (packetInfo : PacketInfo)
  | connections (connections : List Conn)
  | connection (connection : Conn)
  | processes (processes : List ProcessInfo)
deriving DecidableEq, Repr

/-- The packet events of an output, in emission order. -/
def packetEvents : List Event → List PacketInfo
  | [] => []
  | .packet p :: rest => p :: packetEvents rest
  | _ :: rest => packetEvents rest

/-- The template string used as the key of `lastConnections`. -/
def flowKey (conn : Conn) : String :=
  conn.protocol ++ "-" ++ conn.localAddress ++ ":" ++ toString conn.localPort ++ "-" ++
    conn.remoteAddress ++ ":" ++ toString conn.remotePort

/-- The states for which `monitorConnections` emits no packet event. -/
def inactiveState (state : String) : Bool :=
  state == "LISTENING" || state == "TIME_WAIT"

/-- The states kept by the filter that builds `activeConnections`. -/
def activeState (state : String) : Bool :=
  state == "ESTABLISHED" || state == "CLOSE_WAIT" || state == "FIN_WAIT_1" ||
    state == "FIN_WAIT_2"

/-- The condition `isOutgoing` computed from the two ports. -/
def isOutgoing (localPort remotePort : Nat) : Bool :=
  decide (localPort < remotePort) || (decide (localPort ≥ 1024) && decide (remotePort < 1024))

/-- The value of `direction`. -/
def direction (localPort remotePort : Nat) : String :=
  if isOutgoing localPort remotePort then "outgoing" else "incoming"

/-- Truthiness of `this.targetProcess`: `null` and `0` are falsy. -/
def targetSet : Option Nat → Bool
  | some (_ + 1) => true
  | _ => false

/-- Truthiness of the result of `resolveDNS`: `null` and the empty string are
falsy. -/
def truthy : Option String → Bool
  | some d => d != ""
  | none => false

namespace NetworkMonitorWindows

/-- The constructor. -/
def new : NetworkMonitorWindows :=
  { isRunning := false, interval := false, activityInterval := false, dnsCache := [],
    targetProcess := none, lastConnections := [], lookups := [] }

/-- The body of `resolveDNS`. -/
def resolveDNS (reverse : Resolver) (m : NetworkMonitorWindows) (ip : String) :
    NetworkMonitorWindows × Option String :=
  if mapHas m.dnsCache ip then (m, mapGet m.dnsCache ip)
  else
    let reply := reverse m.lookups ip
    let m := { m with lookups := ip :: m.lookups }
    match reply with
    | some (hostname :: _) => ({ m with dnsCache := mapSet m.dnsCache ip hostname }, some hostname)
    | _ => (m, none)

/-- The object literal `packetInfo` of `monitorConnections`. -/
def newFlowPacket (conn : Conn) : PacketInfo :=
  { protocol := conn.protocol
    source := conn.localAddress ++ ":" ++ toString conn.localPort
    destination := conn.remoteAddress ++ ":" ++ toString conn.remotePort
    size := 1
    details := conn.protocol ++ " " ++ toString conn.localPort ++ " → " ++ toString conn.remotePort
    flags := conn.state
    pid := conn.pid
    connection := conn
    isActivity := none
    direction := direction conn.localPort conn.remotePort
    rawData :=
      { protocol := conn.protocol, localAddress := conn.localAddress,
        localPort := conn.localPort, remoteAddress := conn.remoteAddress,
        remotePort := conn.remotePort, state := conn.state, pid := conn.pid,
        direction := direction conn.localPort conn.remotePort,
        activityType := none, domain := none }
    domain := none }

/-- One iteration of the first loop of `monitorConnections`: the new monitor
state and the events emitted for this row. -/
def detectRow (reverse : Resolver) (m : NetworkMonitorWindows) (conn : Conn) :
    NetworkMonitorWindows × List Event :=
  let key := flowKey conn
  if mapHas m.lastConnections key then (m, [])
  else
    let m := { m with lastConnections := mapSet m.lastConnections key conn }
    if inactiveState conn.state then (m, [])
    else
      let packetInfo := newFlowPacket conn
      let (m, domain) := resolveDNS reverse m conn.remoteAddress
      let packetInfo := if truthy domain then { packetInfo with domain := domain } else packetInfo
      if targetSet m.targetProcess then
        if some packetInfo.pid = m.targetProcess then (m, [Event.packet packetInfo]) else (m, [])
      else (m, [Event.packet packetInfo])

/-- The first loop of `monitorConnections` over the snapshot. -/
def detectRows (reverse : Resolver) :
    NetworkMonitorWindows → List Conn → NetworkMonitorWindows × List Event
  | m, [] => (m, [])
  | m, conn :: rest =>
    let (m1, out1) := detectRow reverse m conn
    let (m2, out2) := detectRows reverse m1 rest
    (m2, out1 ++ out2)

/-- The clean-up loop: entries whose key is not in `currentKeys` are deleted. -/
def cleanUp (m : NetworkMonitorWindows) (connections : List Conn) : NetworkMonitorWindows :=
  let currentKeys := connections.map flowKey
  { m with lastConnections := m.lastConnections.filter (fun entry => currentKeys.contains entry.1) }

/-- The loop that resolves a domain for every active row and writes it on the
row. -/
def resolveRows (reverse : Resolver) :
    NetworkMonitorWindows → List Conn → NetworkMonitorWindows × List Conn
  | m, [] => (m, [])
  | m, conn :: rest =>
    let (m1, domain) := resolveDNS reverse m conn.remoteAddress
    let conn := if truthy domain then { conn with domain := domain } else conn
    let (m2, rest) := resolveRows reverse m1 rest
    (m2, conn :: rest)

/-- The final emission of `monitorConnections`. -/
def emitConnections (m : NetworkMonitorWindows) (activeConnections : List Conn) : List Event :=
  if targetSet m.targetProcess then
    let filteredConnections := activeConnections.filter (fun conn => some conn.pid = m.targetProcess)
    if filteredConnections.length > 0 then
      Event.connections filteredConnections :: filteredConnections.map Event.connection
    else []
  else
    Event.connections activeConnections :: activeConnections.map Event.connection

/-- The body of `monitorConnections`; `connections` is the value of
`await this.getNetworkConnections()`. The stored rows and the `connection`
property of a packet event are kept as they were when stored (in the source
they are references to the row, whose only later change is the `domain`
written by the resolving loop; no code reads it back through them). -/
def monitorConnections (reverse : Resolver) (m : NetworkMonitorWindows)
    (connections : List Conn) : NetworkMonitorWindows × List Event :=
  let (m, packets) := detectRows reverse m connections
  let m := cleanUp m connections
  let activeConnections := connections.filter (fun conn => activeState conn.state)
  let (m, activeConnections) := resolveRows reverse m activeConnections
  (m, packets ++ emitConnections m activeConnections)

/-- A value returned by `Math.random()`: the double `num / 2 ^ exp`. -/
structure Draw where
  num : Nat
  exp : Nat
deriving DecidableEq, Repr

/-- The comparison `x < 0.3` on doubles; the literal `0.3` is the double
`5404319552844595 / 2 ^ 54`. -/
def Draw.belowThreshold (x : Draw) : Bool :=
  decide (x.num * 2 ^ 54 < 5404319552844595 * 2 ^ x.exp)

/-- The random source seen by one call: `random i` is the value of the
`i`-th call of `Math.random()`, and `floorTimes1000 x` is
`Math.floor(x * 1000)` in double arithmetic. -/
structure RandomSource where
  random : Nat → Draw
  floorTimes1000 : Draw → Nat

/-- The object literal `packetInfo` of `monitorConnectionActivity`. -/
def activityPacket (conn : Conn) (size : Nat) : PacketInfo :=
  { protocol := conn.protocol
    source := conn.localAddress ++ ":" ++ toString conn.localPort
    destination := conn.remoteAddress ++ ":" ++ toString conn.remotePort
    size := size
    details :=
      conn.protocol ++ " " ++ toString conn.localPort ++ " → " ++ toString conn.remotePort ++
        " (Activity)"
    flags := "DATA"
    pid := conn.pid
    connection := conn
    isActivity := some true
    direction := direction conn.localPort conn.remotePort
    rawData :=
      { protocol := conn.protocol, localAddress := conn.localAddress,
        localPort := conn.localPort, remoteAddress := conn.remoteAddress,
        remotePort := conn.remotePort, state := conn.state, pid := conn.pid,
        direction := direction conn.localPort conn.remotePort,
        activityType := some "data_transfer", domain := none }
    domain := none }

/-- The loop of `monitorConnectionActivity`; `calls` counts the calls of
`Math.random()` made so far in this invocation (one for the test, then one
for `id` and one for `size` when the test passes). -/
def activityRows (reverse : Resolver) (rng : RandomSource) :
    NetworkMonitorWindows → Nat → List Conn → NetworkMonitorWindows × List Event
  | m, _, [] => (m, [])
  | m, calls, conn :: rest =>
    if (rng.random calls).belowThreshold then
      let size := rng.floorTimes1000 (rng.random (calls + 2)) + 64
      let packetInfo := activityPacket conn size
      let (m1, domain) := resolveDNS reverse m conn.remoteAddress
      let packetInfo :=
        if truthy domain then
          { packetInfo with domain := domain, rawData := { packetInfo.rawData with domain := domain } }
        else packetInfo
      let (m2, out) := activityRows reverse rng m1 (calls + 3) rest
      (m2, Event.packet packetInfo :: out)
    else activityRows reverse rng m (calls + 1) rest

/-- The body of `monitorConnectionActivity`; `connections` is the value of
`await this.getNetworkConnections()`. -/
def monitorConnectionActivity (reverse : Resolver) (rng : RandomSource)
    (m : NetworkMonitorWindows) (connections : List Conn) : NetworkMonitorWindows × List Event :=
  let activeConnections :=
    connections.filter (fun conn => conn.state == "ESTABLISHED" && some conn.pid == m.targetProcess)
  activityRows reverse rng m 0 activeConnections

end NetworkMonitorWindows

/-- The `connections` batches of an output, in emission order. -/
def connectionsEvents : List Event → List (List Conn)
  | [] => []
  | .connections cs :: rest => cs :: connectionsEvents rest
  | _ :: rest => connectionsEvents rest

/-- The rows of the single `connection` events of an output, in emission
order. -/
def connectionEvents : List Event → List Conn
  | [] => []
  | .connection c :: rest => c :: connectionEvents rest
  | _ :: rest => connectionEvents rest

/-- A row as emitted relates to a row of the snapshot: it is that row, or that
row with the `domain` property written by the resolving loop. -/
def rowAsEmitted (out row : Conn) : Prop :=
  out = row ∨ ∃ d, out = { row with domain := some d }

/-- The rows of a snapshot that the `connections` batch is built from: the
active ones, and in single-process scope those owned by the target pid. -/
def scopedActiveRows (target : Option Nat) (S : List Conn) : List Conn :=
  if targetSet target then
    (S.filter (fun conn => activeState conn.state)).filter (fun conn => some conn.pid = target)
  else S.filter (fun conn => activeState conn.state)

/-! ## The capture monitor (`network-monitor.js`): DNS cache -/

/-- The fields of a `NetworkMonitor` instance that `resolveDNS` and the scope
filter use, with the same record of lookups as above. The capture session,
the interface list and the two unused caches are left out. -/
structure NetworkMonitor where
  isRunning : Bool
  dnsCache : List (String × String)
  targetProcess : Option Nat
  lookups : List String
deriving DecidableEq, Repr

/-- The body of `NetworkMonitor.resolveDNS`. -/
def NetworkMonitor.resolveDNS (reverse : Resolver) (m : NetworkMonitor) (ip : String) :
    NetworkMonitor × Option String :=
  if mapHas m.dnsCache ip then (m, mapGet m.dnsCache ip)
  else
    let reply := reverse m.lookups ip
    let m := { m with lookups := ip :: m.lookups }
    match reply with
    | some (hostname :: _) => ({ m with dnsCache := mapSet m.dnsCache ip hostname }, some hostname)
    | _ => (m, none)

/-! ## The store: queries and views -/

/-- The call `array.slice(start, stop)` with non-negative integer bounds. -/
def slice {α : Type} (l : List α) (start stop : Nat) : List α :=
  (l.take stop).drop start

/-- The comparator sort `.sort((a, b) => b.count - a.count)`: a stable sort
by descending count. -/
def sortByCountDesc {α : Type} (count : α → Nat) (l : List α) : List α :=
  l.insertionSort (fun a b => count a ≥ count b)

/-- The number held by a count; a string count holds none and is given 0
(read only where every count is a number). -/
def JsCount.value : JsCount → Nat
  | .num n => n
  | .text _ _ => 0

/-- The comparator `(a, b) => b.count - a.count` on the counts `a` and `b`
gives no positive number: the difference of two numbers is positive when `b`
is the greater, and a difference with a string operand of `JsCount` is `NaN`,
which the sort reads as 0. -/
def JsCount.notBelow : JsCount → JsCount → Bool
  | .num a, .num b => decide (a ≥ b)
  | _, _ => true

/-- The comparison `a >= b` of two counts; with a string operand of `JsCount`
it is a comparison with `NaN`, which is false. -/
def JsCount.ge : JsCount → JsCount → Bool
  | .num a, .num b => decide (a ≥ b)
  | _, _ => false

/-- The comparator sort `.sort((a, b) => b.count - a.count)` on entries whose
count is a `JsCount`: a stable sort by descending count when the counts are
numbers. With a string count the comparator is not consistent (it answers 0
against every number) and the language leaves the order to the engine; the
order given here is then that of an insertion sort, which for up to two
entries is the one order a stable sort can give. -/
def sortByJsCountDesc {α : Type} (count : α → JsCount) (l : List α) : List α :=
  l.insertionSort (fun a b => (count a).notBelow (count b) = true)

/-- The array index denoted by a property key: the key is the canonical
decimal form (digits only, no leading zero) of an integer below 2^32 - 1. -/
def arrayIndex? (key : String) : Option Nat :=
  let digits := key.data
  if digits ≠ [] ∧ digits.all Char.isDigit = true ∧ (digits.head? ≠ some '0' ∨ digits.length = 1) then
    let n := digits.foldl (fun n c => n * 10 + (c.toNat - 48)) 0
    if n < 4294967295 then some n else none
  else none

/-- The call `Object.entries(dict)` on a dictionary with string keys: the
array-index keys in ascending numeric order, then the other keys in the
order in which they were first written. -/
def objectEntries {β : Type} (dict : List (String × β)) : List (String × β) :=
  (dict.filter (fun e => (arrayIndex? e.1).isSome)).insertionSort
      (fun a b => (arrayIndex? a.1).getD 0 ≤ (arrayIndex? b.1).getD 0) ++
    dict.filter (fun e => (arrayIndex? e.1).isNone)

/-- The call `Object.entries(dict)` on a dictionary whose keys are the decimal
forms of the given numbers: those below 2^32 - 1 are array indices and come
first in ascending order, the others follow in the order first written. -/
def objectEntriesNat (dict : List (Nat × Nat)) : List (Nat × Nat) :=
  (dict.filter (fun e => decide (e.1 < 4294967295))).insertionSort (fun a b => a.1 ≤ b.1) ++
    dict.filter (fun e => !decide (e.1 < 4294967295))

/-- An element of the result of `getTopDomains`. -/
structure DomainStat where
  domain : String
  count : Nat
deriving DecidableEq, Repr

/-- An element of the result of `getProtocolStats`. -/
structure ProtocolStat where
  protocol : String
  count : JsCount
deriving DecidableEq, Repr

/-- An element of the result of `getPortStats`. -/
structure PortStat where
  port : Nat
  count : Nat
deriving DecidableEq, Repr

/-- The arrow function `([domain, count]) => ({ domain, count })`. -/
def domainStat (e : String × Nat) : DomainStat := { domain := e.1, count := e.2 }

/-- The arrow function `([protocol, count]) => ({ protocol, count })`. -/
def protocolStat (e : String × JsCount) : ProtocolStat := { protocol := e.1, count := e.2 }

/-- The arrow function `([port, count]) => ({ port: parseInt(port), count })`;
`parseInt` of the decimal form of a port is the port. -/
def portStat (e : Nat × Nat) : PortStat := { port := e.1, count := e.2 }

namespace Database

/-- The body of `getPackets`: the store as left by the call and the value
returned. -/
def getPackets (db : Database) (limit offset : Nat) : Database × List PacketInfo :=
  (db, slice db.packets offset (offset + limit))

/-- The body of `getConnections`: the store as left by the call and the value
returned. -/
def getConnections (db : Database) (limit offset : Nat) : Database × List Conn :=
  (db, slice db.connections offset (offset + limit))

/-- The body of `getTopDomains`. -/
def getTopDomains (db : Database) (limit : Nat) : List DomainStat :=
  (slice (sortByCountDesc (fun e => e.2) db.domains) 0 limit).map domainStat

/-- The body of `getProtocolStats`. -/
def getProtocolStats (db : Database) : List ProtocolStat :=
  sortByJsCountDesc (fun e => e.count) ((objectEntries db.statistics.protocols).map protocolStat)

/-- The body of `getPortStats`. -/
def getPortStats (db : Database) : List PortStat :=
  sortByCountDesc (fun e => e.count) ((objectEntriesNat db.statistics.ports).map portStat)

/-- The keys of the three dictionaries of the store are pairwise distinct. -/
def DistinctKeys (db : Database) : Prop :=
  (db.domains.map Prod.fst).Nodup ∧ (db.statistics.protocols.map Prod.fst).Nodup ∧
    (db.statistics.ports.map Prod.fst).Nodup

end Database

/-! ## The monitor: processes, control and the netstat parser -/

/-- The `processes` lists of an output, in emission order. -/
def processesEvents : List Event → List (List ProcessInfo)
  | [] => []
  | .processes ps :: rest => ps :: processesEvents rest
  | _ :: rest => processesEvents rest

/-- JavaScript white space and line terminators (the class `\s` and what
`trim` removes), by code point. -/
def jsWhiteSpace (c : Char) : Bool :=
  [9, 10, 11, 12, 13, 32, 160, 5760, 8232, 8233, 8239, 8287, 12288, 65279].contains c.toNat ||
    (decide (8192 ≤ c.toNat) && decide (c.toNat ≤ 8202))

/-- The call `s.split(sep)` with a one-character separator: at least one
piece, the empty string giving one empty piece. -/
def splitOn (sep : Char) : List Char → List (List Char)
  | [] => [[]]
  | c :: rest =>
    if c = sep then [] :: splitOn sep rest
    else
      match splitOn sep rest with
      | [] => [[c]]
      | piece :: more => (c :: piece) :: more

/-- The call `s.split(/\s+/)`; the flag tells that the previous character
belonged to a run of white space. -/
def splitWhiteSpace : Bool → List Char → List (List Char)
  | _, [] => [[]]
  | inRun, c :: rest =>
    if jsWhiteSpace c then
      if inRun then splitWhiteSpace true rest else [] :: splitWhiteSpace true rest
    else
      match splitWhiteSpace false rest with
      | [] => [[c]]
      | piece :: more => (c :: piece) :: more

/-- The call `s.includes(sub)`. -/
def includes (sub : List Char) : List Char → Bool
  | [] => sub.isEmpty
  | c :: rest => sub.isPrefixOf (c :: rest) || includes sub rest

/-- The call `s.trim()`. -/
def trim (s : List Char) : List Char :=
  ((s.dropWhile jsWhiteSpace).reverse.dropWhile jsWhiteSpace).reverse

/-- The value of a digit in the given radix (10 or 16). -/
def digitValue (radix : Nat) (c : Char) : Option Nat :=
  if c.isDigit then some (c.toNat - 48)
  else if radix = 16 ∧ 97 ≤ c.toNat ∧ c.toNat ≤ 102 then some (c.toNat - 87)
  else if radix = 16 ∧ 65 ≤ c.toNat ∧ c.toNat ≤ 70 then some (c.toNat - 55)
  else none

/-- The longest prefix of digits read as a number, `none` when there is no
digit; `seen` holds the value read so far. -/
def readDigits (radix : Nat) : Option Nat → List Char → Option Nat
  | seen, [] => seen
  | seen, c :: rest =>
    match digitValue radix c with
    | some d => readDigits radix (some (seen.getD 0 * radix + d)) rest
    | none => seen

/-- The call `parseInt(s)`, `none` for `NaN`: leading white space is skipped,
a prefix `0x` or `0X` selects radix 16, and the longest prefix of digits is
read. A sign `-` before digits gives a negative number in JavaScript, which a
row of this model (natural ports and pids) cannot hold; netstat prints no
signed column, and the model answers `NaN` there. -/
def parseInt (s : List Char) : Option Nat :=
  let unsigned : List Char → Option Nat := fun t =>
    match t with
    | '0' :: 'x' :: rest => readDigits 16 none rest
    | '0' :: 'X' :: rest => readDigits 16 none rest
    | _ => readDigits 10 none t
  match s.dropWhile jsWhiteSpace with
  | '-' :: _ => none
  | '+' :: rest => unsigned rest
  | t => unsigned t

namespace NetworkMonitorWindows

/-- The body of the `for` loop of `getNetworkConnections` for one line: the
row pushed, if any. -/
def parseLine (line : List Char) : Option Conn :=
  if includes "TCP".data line || includes "UDP".data line then
    let parts := splitWhiteSpace false (trim line)
    if parts.length ≥ 5 then
      let protocol := parts.getD 0 []
      let localAddress := parts.getD 1 []
      let remoteAddress := parts.getD 2 []
      let state := parts.getD 3 []
      let pid := parts.getD 4 []
      if pid ≠ [] ∧ pid ≠ "PID".data ∧ (parseInt pid).isSome then
        let localIP := (splitOn ':' localAddress).getD 0 []
        let localPort := (splitOn ':' localAddress).getD 1 []
        let remoteIP := (splitOn ':' remoteAddress).getD 0 []
        let remotePort := (splitOn ':' remoteAddress).getD 1 []
        if localIP ≠ [] ∧ localPort ≠ [] ∧ remoteIP ≠ [] ∧ remotePort ≠ [] ∧
            (parseInt localPort).isSome ∧ (parseInt remotePort).isSome then
          some
            { protocol := String.mk protocol
              localAddress := String.mk localIP
              localPort := (parseInt localPort).getD 0
              remoteAddress := String.mk remoteIP
              remotePort := (parseInt remotePort).getD 0
              state := String.mk state
              pid := (parseInt pid).getD 0
              domain := none }
        else none
      else none
    else none
  else none

/-- The body of `getNetworkConnections`; `stdout` is the output of
`netstat -ano`, `none` when the command fails (the `catch` branch). -/
def getNetworkConnections (stdout : Option String) : List Conn :=
  match stdout with
  | some out => (splitOn (Char.ofNat 10) out.data).filterMap parseLine
  | none => []

/-- The body of `monitorProcesses`; `processes` is the value of
`await this.getActiveProcesses()`. -/
def monitorProcesses (m : NetworkMonitorWindows) (processes : List ProcessInfo) : List Event :=
  if targetSet m.targetProcess then
    match processes.find? (fun p => some p.pid = m.targetProcess) with
    | some targetProcess => [Event.processes [targetProcess]]
    | none => [Event.processes []]
  else [Event.processes processes]

/-- The body of `setTargetProcess`. -/
def setTargetProcess (m : NetworkMonitorWindows) (pid : Option Nat) : NetworkMonitorWindows :=
  { m with targetProcess := pid }

/-- The body of `stop`. -/
def stop (m : NetworkMonitorWindows) : NetworkMonitorWindows :=
  { m with interval := false, activityInterval := false, isRunning := false }

/-- The body of `startPeriodicTasks`: both timers are set. -/
def startPeriodicTasks (m : NetworkMonitorWindows) : NetworkMonitorWindows :=
  { m with interval := true, activityInterval := true }

/-- The body of `start`. -/
def start (m : NetworkMonitorWindows) : NetworkMonitorWindows :=
  startPeriodicTasks { m with isRunning := true }

/-- The rows of the activity loop with the random value each one is tested
with: the test of a row uses the next value of `Math.random()`, and a row
that passes uses two more (for `id` and `size`). -/
def gateDraws (rng : RandomSource) : Nat → List Conn → List (Conn × Draw)
  | _, [] => []
  | calls, conn :: rest =>
    (conn, rng.random calls) ::
      gateDraws rng (if (rng.random calls).belowThreshold then calls + 3 else calls + 1) rest

end NetworkMonitorWindows

/-! ## The web server (`web-server.js`) -/

/-- The listeners that the web server registers on the monitor: the five of
`setupNetworkMonitorEvents` and the three of `startBackgroundMonitoring`. -/
inductive Listener where
  | setupPacket
  | setupConnections
  | setupConnection
  | setupProcesses
  | setupDomains
  | backgroundPacket
  | backgroundConnections
  | backgroundProcesses
deriving DecidableEq, Repr

/-- What a listener does to the store when the monitor emits an event and
the listener runs alone (the forwarding to the socket transport is not
modelled). -/
def Listener.handle (db : Database) : Listener → Event → Database
  | .setupPacket, .packet packet => db.savePacket packet
  | .setupConnections, .connections connections => connections.foldl Database.saveConnection db
  | .setupConnection, .connection connection => db.saveConnection connection
  | .setupProcesses, .processes processes => processes.foldl Database.saveProcess db
  | .backgroundPacket, .packet packet => db.savePacket packet
  | .backgroundConnections, .connections connections =>
    connections.foldl Database.saveConnection db
  | .backgroundProcesses, .processes processes => processes.foldl Database.saveProcess db
  | _, _ => db

/-- The fields of a `WebServer` instance that the mode control uses, with the
listeners registered on its monitor, in registration order. -/
structure WebServer where
  database : Database
  networkMonitor : NetworkMonitorWindows
  isRunning : Bool
  currentMode : String
  targetProcess : Option Nat
  listeners : List Listener
deriving DecidableEq, Repr

namespace WebServer

/-- The constructor. -/
def new : WebServer :=
  { database := Database.new, networkMonitor := NetworkMonitorWindows.new, isRunning := false,
    currentMode := "global", targetProcess := none, listeners := [] }

/-- The body of `setupNetworkMonitorEvents`. -/
def setupNetworkMonitorEvents (ws : WebServer) : WebServer :=
  { ws with
    listeners := ws.listeners ++
      [Listener.setupPacket, Listener.setupConnections, Listener.setupConnection,
        Listener.setupProcesses, Listener.setupDomains] }

/-- The body of `setupWebSockets`, as far as the monitor is concerned. -/
def setupWebSockets (ws : WebServer) : WebServer := ws.setupNetworkMonitorEvents

/-- The body of `startBackgroundMonitoring`. -/
def startBackgroundMonitoring (ws : WebServer) : WebServer :=
  { ws with
    networkMonitor := ws.networkMonitor.start
    listeners := ws.listeners ++
      [Listener.backgroundPacket, Listener.backgroundConnections,
        Listener.backgroundProcesses] }

/-- The body of `start`. -/
def start (ws : WebServer) : WebServer :=
  startBackgroundMonitoring { ws.setupWebSockets with isRunning := true }

/-- The monitor emits an event: every registered listener is called, in
registration order. A listener of a `packet` or of a `connection` event saves
once, before its first `await`, so the listeners save one after the other. A
listener of a `connections` or of a `processes` event awaits after each
element it saves, which lets the next listener run: the listeners take turns,
all of them saving the first element, then all of them the second, and so on.
This is the order in which the saves caused by one event reach the store; the
saves of an event emitted before they are done would come in between. -/
def emit (ws : WebServer) (event : Event) : WebServer :=
  { ws with
    database :=
      match event with
      | .connections connections =>
        List.foldl
          (fun db connection =>
            List.foldl
              (fun db listener => Listener.handle db listener (Event.connections [connection]))
              db ws.listeners)
          ws.database connections
      | .processes processes =>
        List.foldl
          (fun db process =>
            List.foldl
              (fun db listener => Listener.handle db listener (Event.processes [process]))
              db ws.listeners)
          ws.database processes
      | event =>
        List.foldl (fun db listener => Listener.handle db listener event) ws.database
          ws.listeners }

/-- The body of `startGlobalMonitoring`. -/
def startGlobalMonitoring (ws : WebServer) : WebServer :=
  { ws with
    networkMonitor := ws.networkMonitor.stop.start
    currentMode := "global"
    targetProcess := none
    database := ws.database.clearData }

/-- The body of `startProcessMonitoring`. -/
def startProcessMonitoring (ws : WebServer) (pid : Nat) : WebServer :=
  { ws with
    networkMonitor := (ws.networkMonitor.stop.setTargetProcess (some pid)).start
    currentMode := "process"
    targetProcess := some pid
    database := ws.database.clearData }

end WebServer

/-- The sum of the counts of a histogram. -/
def sumCounts {κ : Type} (dict : List (κ × Nat)) : Nat :=
  (dict.map Prod.snd).sum

/-- The sum of the counts of the protocol histogram: `none` when one of them
is a string, the sum then being no number. -/
def sumJsCounts : List (String × JsCount) → Option Nat
  | [] => some 0
  | (_, .num n) :: rest => (sumJsCounts rest).map (fun total => n + total)
  | (_, .text _ _) :: _ => none

/-- Every count of a protocol histogram is a number. -/
def NumericCounts (dict : List (String × JsCount)) : Prop :=
  ∀ e ∈ dict, ∃ n, e.2 = JsCount.num n

/-- No packet saved by the operations has a protocol that names a property of
`Object.prototype`. -/
def PlainProtocols (ops : List Database.Op) : Prop :=
  ∀ p, Database.Op.savePacket p ∈ ops → p.protocol ∉ objectPrototypeNames

/-- The number written by a list of decimal digits. -/
def digitsValue (digits : List Char) : Nat :=
  digits.foldl (fun n c => n * 10 + (c.toNat - 48)) 0

/-- A protocol or address string that holds neither `-` nor `:`. -/
def plainField (field : String) : Prop :=
  '-' ∉ field.data ∧ ':' ∉ field.data

/-! ## Sample data -/

/-- An established row owned by pid 10. -/
def sampleRow : Conn :=
  { protocol := "TCP", localAddress := "10.0.0.1", localPort := 5000,
    remoteAddress := "93.1.1.1", remotePort := 443, state := "ESTABLISHED", pid := 10,
    domain := none }

/-- A listening row. -/
def sampleListening : Conn :=
  { protocol := "TCP", localAddress := "0.0.0.0", localPort := 135,
    remoteAddress := "0.0.0.0", remotePort := 0, state := "LISTENING", pid := 4,
    domain := none }

/-- A resolver whose every lookup fails. -/
def failingResolver : Resolver := fun _ _ => none

/-- A packet event told apart by its size. -/
def samplePacket (n : Nat) : PacketInfo :=
  { NetworkMonitorWindows.newFlowPacket sampleRow with size := n }

/-- A process record of pid 7 told apart by its cpu value. -/
def sampleProcess (cpu : Nat) : ProcessInfo :=
  { pid := 7, name := "node.exe", cpu := cpu, memory := 0, connections := 0, timestamp := 0 }

/-- A resolver stub that answers `dns.google` to the first lookup and fails
on every later one. -/
def onceResolver : Resolver := fun earlier _ =>
  if earlier = [] then some ["dns.google"] else none

/-- A connection to the given remote port. -/
def sampleConn (remotePort : Nat) : Conn :=
  { sampleRow with remotePort := remotePort }

/-- A random source whose every value is 0 (below the threshold). -/
def zeroRandom : NetworkMonitorWindows.RandomSource :=
  { random := fun _ => { num := 0, exp := 0 }, floorTimes1000 := fun _ => 0 }

/-- A row owned by pid 20. -/
def otherRow : Conn :=
  { sampleRow with localPort := 5001, pid := 20 }

/-- A row in state TIME_WAIT. -/
def sampleTimeWait : Conn :=
  { sampleRow with localPort := 5002, state := "TIME_WAIT" }

/-- A row in state CLOSE_WAIT owned by pid 20. -/
def sampleCloseWait : Conn :=
  { sampleRow with localPort := 5003, state := "CLOSE_WAIT", pid := 20 }

/-- A row in state SYN_SENT. -/
def sampleSynSent : Conn :=
  { sampleRow with localPort := 5004, state := "SYN_SENT" }

/-- A row in state FIN_WAIT_1. -/
def sampleFinWait1 : Conn :=
  { sampleRow with localPort := 5005, state := "FIN_WAIT_1" }

/-- A row in state FIN_WAIT_2. -/
def sampleFinWait2 : Conn :=
  { sampleRow with localPort := 5006, state := "FIN_WAIT_2" }

/-- A snapshot with one row in each of seven states. -/
def sampleSnapshot : List Conn :=
  [sampleListening, sampleRow, sampleTimeWait, sampleCloseWait, sampleSynSent, sampleFinWait1,
    sampleFinWait2]

/-! ## Lemmas on lists and dictionaries -/

theorem capped_eq_take {α : Type} (l : List α) (n : Nat) :
    (if l.length > n then l.take n else l) = l.take n := by
  split
  · rfl
  · rw [List.take_of_length_le (by omega)]

theorem take_append_take {α : Type} (n : Nat) (a b : List α) :
    (a ++ b.take n).take n = (a ++ b).take n := by
  rw [List.take_append_eq_append_take, List.take_append_eq_append_take, List.take_take]
  congr 2
  omega

theorem take_min_length {α : Type} (l : List α) (n : Nat) :
    l.take (min l.length n) = l.take n := by
  rcases Nat.le_total l.length n with h | h
  · rw [Nat.min_eq_left h, List.take_of_length_le (Nat.le_refl _), List.take_of_length_le h]
  · rw [Nat.min_eq_right h]

/-! ## Lemmas on the store -/

namespace Database

theorem savePacket_packets (db : Database) (p : PacketInfo) :
    (db.savePacket p).packets = (p :: db.packets).take db.maxItems := by
  simp only [savePacket]
  exact capped_eq_take _ _

theorem saveConnection_connections (db : Database) (c : Conn) :
    (db.saveConnection c).connections = (c :: db.connections).take db.maxItems := by
  simp only [saveConnection]
  exact capped_eq_take _ _

theorem saveProcess_processes (db : Database) (p : ProcessInfo) :
    (db.saveProcess p).processes =
      (match findIndex p.pid db.processes with
        | some i => db.processes.set i p
        | none => p :: db.processes).take db.maxItems := by
  simp only [saveProcess]
  exact capped_eq_take _ _

theorem step_maxItems (db : Database) (op : Op) : (db.step op).maxItems = db.maxItems := by
  cases op <;> rfl

theorem bounded_new : Bounded new := by
  simp [Bounded, new]

theorem bounded_step (db : Database) (op : Op) (h : Bounded db) : Bounded (db.step op) := by
  obtain ⟨hp, hc, hr, hm⟩ := h
  cases op with
  | savePacket p =>
    refine ⟨?_, hc, hr, hm⟩
    show (db.savePacket p).packets.length ≤ db.maxItems
    rw [savePacket_packets, List.length_take]
    exact Nat.min_le_left _ _
  | saveConnection c =>
    refine ⟨hp, ?_, hr, hm⟩
    show (db.saveConnection c).connections.length ≤ db.maxItems
    rw [saveConnection_connections, List.length_take]
    exact Nat.min_le_left _ _
  | saveProcess p =>
    refine ⟨hp, hc, ?_, hm⟩
    show (db.saveProcess p).processes.length ≤ db.maxItems
    rw [saveProcess_processes, List.length_take]
    exact Nat.min_le_left _ _
  | updateDomainStats d n => exact ⟨hp, hc, hr, hm⟩
  | clear =>
    refine ⟨?_, ?_, ?_, hm⟩ <;> simp [step, clear]

theorem bounded_foldl (ops : List Op) (db : Database) (h : Bounded db) :
    Bounded (ops.foldl step db) := by
  induction ops generalizing db with
  | nil => exact h
  | cons op rest ih => exact ih _ (bounded_step db op h)

theorem bounded_run (ops : List Op) : Bounded (run ops) :=
  bounded_foldl ops new bounded_new

theorem run_append (ops : List Op) (op : Op) : run (ops ++ [op]) = (run ops).step op := by
  simp [run, List.foldl_append]

theorem counted_step (db : Database) (op : Op) (h : Counted db) : Counted (db.step op) := by
  obtain ⟨hp, hc⟩ := h
  cases op with
  | savePacket p =>
    refine ⟨?_, hc⟩
    show (db.savePacket p).packets.length ≤ db.statistics.totalPackets + 1
    rw [savePacket_packets, List.length_take, List.length_cons]
    omega
  | saveConnection c =>
    refine ⟨hp, ?_⟩
    show (db.saveConnection c).connections.length ≤ db.statistics.totalConnections + 1
    rw [saveConnection_connections, List.length_take, List.length_cons]
    omega
  | saveProcess p => exact ⟨hp, hc⟩
  | updateDomainStats d n => exact ⟨hp, hc⟩
  | clear => constructor <;> simp [step, clear]

theorem counted_foldl (ops : List Op) (db : Database) (h : Counted db) :
    Counted (ops.foldl step db) := by
  induction ops generalizing db with
  | nil => exact h
  | cons op rest ih => exact ih _ (counted_step db op h)

theorem foldl_savePacket (ps : List PacketInfo) (db : Database)
    (h : db.packets.length ≤ db.maxItems) :
    (ps.foldl savePacket db).packets = (ps.reverse ++ db.packets).take db.maxItems := by
  induction ps generalizing db with
  | nil => simp [List.take_of_length_le h]
  | cons p rest ih =>
    have h1 : (db.savePacket p).packets.length ≤ (db.savePacket p).maxItems := by
      rw [savePacket_packets, List.length_take]
      exact Nat.min_le_left _ _
    rw [List.foldl_cons, ih _ h1, savePacket_packets]
    show (rest.reverse ++ (p :: db.packets).take db.maxItems).take db.maxItems = _
    rw [take_append_take, List.reverse_cons, List.append_assoc]
    rfl

theorem foldl_saveConnection (cs : List Conn) (db : Database)
    (h : db.connections.length ≤ db.maxItems) :
    (cs.foldl saveConnection db).connections = (cs.reverse ++ db.connections).take db.maxItems := by
  induction cs generalizing db with
  | nil => simp [List.take_of_length_le h]
  | cons c rest ih =>
    have h1 : (db.saveConnection c).connections.length ≤ (db.saveConnection c).maxItems := by
      rw [saveConnection_connections, List.length_take]
      exact Nat.min_le_left _ _
    rw [List.foldl_cons, ih _ h1, saveConnection_connections]
    show (rest.reverse ++ (c :: db.connections).take db.maxItems).take db.maxItems = _
    rw [take_append_take, List.reverse_cons, List.append_assoc]
    rfl

/-- Appending to an empty buffer of capacity `n`: the newest `n` in reverse
order of arrival, with what that means for `n + 1` arrivals. -/
theorem newest_first_of_take {α : Type} (xs buf : List α) (n : Nat) (hn : 0 < n)
    (h : buf = xs.reverse.take n) :
    buf = xs.reverse.take (min xs.length n) ∧
      buf.head? = xs.getLast? ∧
      (xs.length = n + 1 →
        buf.length = n ∧ buf = xs.tail.reverse ∧
          ∀ x1, xs.head? = some x1 → x1 ∉ xs.tail → x1 ∉ buf) := by
  subst h
  refine ⟨?_, ?_, ?_⟩
  · rw [← List.length_reverse xs, take_min_length]
  · rw [List.head?_take, List.head?_reverse]
    simp [Nat.pos_iff_ne_zero.1 hn]
  · intro hlen
    cases xs with
    | nil => simp at hlen
    | cons x rest =>
      have hr : rest.reverse.length = n := by
        rw [List.length_reverse]
        simpa using hlen
      have e : (x :: rest).reverse.take n = rest.reverse := by
        rw [List.reverse_cons, List.take_append_eq_append_take]
        simp [List.take_of_length_le (Nat.le_of_eq hr), hr]
      rw [e]
      refine ⟨hr, rfl, ?_⟩
      intro x1 hx1 hnot
      simpa using hnot

theorem findIndex_eq_none (pid : Nat) (l : List ProcessInfo) :
    findIndex pid l = none ↔ ∀ x ∈ l, x.pid ≠ pid := by
  induction l with
  | nil => simp [findIndex]
  | cons x rest ih =>
    by_cases hx : x.pid = pid
    · simp [findIndex, hx]
    · simp [findIndex, hx, ih]

theorem findIndex_eq_some (pid : Nat) (l : List ProcessInfo) (i : Nat)
    (h : findIndex pid l = some i) : ∃ q, l[i]? = some q ∧ q.pid = pid := by
  induction l generalizing i with
  | nil => simp [findIndex] at h
  | cons x rest ih =>
    by_cases hx : x.pid = pid
    · simp [findIndex, hx] at h
      subst h
      exact ⟨x, by simp, hx⟩
    · simp [findIndex, hx] at h
      obtain ⟨j, hj, rfl⟩ := h
      obtain ⟨q, hq, hqp⟩ := ih j hj
      exact ⟨q, by simpa using hq, hqp⟩

theorem filter_pid_eq_nil (pid : Nat) (l : List ProcessInfo) (h : ∀ x ∈ l, x.pid ≠ pid) :
    l.filter (fun x => decide (x.pid = pid)) = [] := by
  rw [List.filter_eq_nil_iff]
  intro x hx
  simpa using h x hx

theorem set_at_findIndex (p : ProcessInfo) (l : List ProcessInfo) (i : Nat)
    (hu : (l.map (fun x => x.pid)).Nodup) (h : findIndex p.pid l = some i) :
    (l.set i p).map (fun x => x.pid) = l.map (fun x => x.pid) ∧
      (l.set i p).filter (fun x => decide (x.pid = p.pid)) = [p] := by
  induction l generalizing i with
  | nil => simp [findIndex] at h
  | cons x rest ih =>
    rw [List.map_cons, List.nodup_cons] at hu
    obtain ⟨hx, hrest⟩ := hu
    by_cases hxp : x.pid = p.pid
    · simp [findIndex, hxp] at h
      subst h
      have hnone : ∀ y ∈ rest, y.pid ≠ p.pid := by
        intro y hy hyp
        apply hx
        rw [hxp, ← hyp]
        exact List.mem_map_of_mem (fun x => x.pid) hy
      refine ⟨by simp [hxp], ?_⟩
      simp [List.set_cons_zero, List.filter_cons, filter_pid_eq_nil p.pid rest hnone]
    · simp [findIndex, hxp] at h
      obtain ⟨j, hj, rfl⟩ := h
      obtain ⟨h1, h2⟩ := ih j hrest hj
      refine ⟨by simp [List.set_cons_succ, h1], ?_⟩
      simp [List.set_cons_succ, List.filter_cons, hxp, h2]

/-- What `saveProcess` does to a buffer within its bound that holds at most
one record per pid. -/
theorem saveProcess_spec (db : Database) (p : ProcessInfo) (hpos : 0 < db.maxItems)
    (hlen : db.processes.length ≤ db.maxItems)
    (hu : (db.processes.map (fun x => x.pid)).Nodup) :
    ((db.saveProcess p).processes.map (fun x => x.pid)).Nodup ∧
      (db.saveProcess p).processes.filter (fun x => decide (x.pid = p.pid)) = [p] ∧
      ((∃ q ∈ db.processes, q.pid = p.pid) →
        ∃ i q, db.processes[i]? = some q ∧ q.pid = p.pid ∧
          (db.saveProcess p).processes = db.processes.set i p ∧
          (db.saveProcess p).processes.length = db.processes.length) ∧
      ((∀ q ∈ db.processes, q.pid ≠ p.pid) →
        (db.saveProcess p).processes = (p :: db.processes).take db.maxItems ∧
          (db.saveProcess p).processes.head? = some p ∧
          (db.processes.length < db.maxItems →
            (db.saveProcess p).processes = p :: db.processes)) := by
  cases hf : findIndex p.pid db.processes with
  | none =>
    have hnone := (findIndex_eq_none p.pid db.processes).1 hf
    have e : (db.saveProcess p).processes = (p :: db.processes).take db.maxItems := by
      rw [saveProcess_processes, hf]
    obtain ⟨n, hn⟩ : ∃ n, db.maxItems = n + 1 := ⟨db.maxItems - 1, by omega⟩
    have e2 : (db.saveProcess p).processes = p :: db.processes.take n := by
      rw [e, hn, List.take_succ_cons]
    refine ⟨?_, ?_, ?_, ?_⟩
    · rw [e2, List.map_cons, List.nodup_cons]
      constructor
      · intro hmem
        obtain ⟨y, hy, hyp⟩ := List.mem_map.1 hmem
        exact hnone y (List.mem_of_mem_take hy) hyp
      · rw [List.map_take]
        exact hu.sublist (List.take_sublist _ _)
    · rw [e2]
      have : ∀ y ∈ db.processes.take n, y.pid ≠ p.pid :=
        fun y hy => hnone y (List.mem_of_mem_take hy)
      simp [List.filter_cons, filter_pid_eq_nil p.pid _ this]
    · rintro ⟨q, hq, hqp⟩
      exact absurd hqp (hnone q hq)
    · intro _
      refine ⟨e, by rw [e2]; rfl, ?_⟩
      intro hlt
      rw [e, List.take_of_length_le]
      simp only [List.length_cons]
      omega
  | some i =>
    have e : (db.saveProcess p).processes = db.processes.set i p := by
      rw [saveProcess_processes, hf]
      exact List.take_of_length_le (by rw [List.length_set]; exact hlen)
    obtain ⟨h1, h2⟩ := set_at_findIndex p db.processes i hu hf
    obtain ⟨q, hq, hqp⟩ := findIndex_eq_some p.pid db.processes i hf
    refine ⟨?_, ?_, ?_, ?_⟩
    · rw [e, h1]
      exact hu
    · rw [e, h2]
    · intro _
      exact ⟨i, q, hq, hqp, e, by rw [e, List.length_set]⟩
    · intro hnone
      exact absurd hqp (hnone q (List.getElem?_mem hq))

end Database

/-! ## Lemmas on the monitor -/

theorem mapHas_iff {κ β : Type} [DecidableEq κ] (l : List (κ × β)) (k : κ) :
    mapHas l k = true ↔ k ∈ l.map Prod.fst := by
  induction l with
  | nil => simp [mapHas]
  | cons e rest ih =>
    obtain ⟨a, b⟩ := e
    by_cases h : a = k
    · simp [mapHas, h]
    · have h2 : ¬ k = a := fun e => h e.symm
      simp [mapHas, h, h2, ih]

theorem mapHas_eq_false_iff {κ β : Type} [DecidableEq κ] (l : List (κ × β)) (k : κ) :
    mapHas l k = false ↔ k ∉ l.map Prod.fst := by
  rw [← mapHas_iff]
  cases mapHas l k <;> simp

theorem mem_keys_mapSet {κ β : Type} [DecidableEq κ] (l : List (κ × β)) (k k2 : κ) (v : β) :
    k2 ∈ (mapSet l k v).map Prod.fst ↔ k2 = k ∨ k2 ∈ l.map Prod.fst := by
  induction l with
  | nil => simp [mapSet]
  | cons e rest ih =>
    obtain ⟨a, b⟩ := e
    by_cases h : a = k
    · subst h
      simp [mapSet]
    · simp only [mapSet, h, if_false, List.map_cons, List.mem_cons, ih]
      tauto

theorem packetEvents_append (a b : List Event) :
    packetEvents (a ++ b) = packetEvents a ++ packetEvents b := by
  induction a with
  | nil => rfl
  | cons e rest ih =>
    cases e <;> simp [packetEvents, ih]

theorem packetEvents_map_connection (cs : List Conn) :
    packetEvents (cs.map Event.connection) = [] := by
  induction cs with
  | nil => rfl
  | cons c rest ih => simpa [packetEvents] using ih

namespace NetworkMonitorWindows

theorem resolveDNS_frame (reverse : Resolver) (m : NetworkMonitorWindows) (ip : String) :
    (resolveDNS reverse m ip).1.lastConnections = m.lastConnections ∧
      (resolveDNS reverse m ip).1.targetProcess = m.targetProcess := by
  unfold resolveDNS
  split
  · exact ⟨rfl, rfl⟩
  · dsimp only
    split <;> exact ⟨rfl, rfl⟩

/-- The row is reported: it is new, its state is not skipped and it passes
the target filter. -/
theorem detectRow_out (reverse : Resolver) (m : NetworkMonitorWindows) (conn : Conn) :
    ∃ d, (detectRow reverse m conn).2 =
      if mapHas m.lastConnections (flowKey conn) = false ∧ inactiveState conn.state = false ∧
          (targetSet m.targetProcess = true → some conn.pid = m.targetProcess)
      then [Event.packet { newFlowPacket conn with domain := d }] else [] := by
  unfold detectRow
  by_cases h1 : mapHas m.lastConnections (flowKey conn) = true
  · exact ⟨none, by simp [h1]⟩
  · by_cases h2 : inactiveState conn.state = true
    · exact ⟨none, by simp [h1, h2]⟩
    · simp only [h1, h2, Bool.false_eq_true, if_false]
      generalize hres : resolveDNS reverse _ _ = res
      have hf := resolveDNS_frame reverse
        { m with lastConnections := mapSet m.lastConnections (flowKey conn) conn } conn.remoteAddress
      rw [hres] at hf
      obtain ⟨m1, domain⟩ := res
      obtain ⟨-, ht⟩ := hf
      simp only at ht
      refine ⟨if truthy domain then domain else none, ?_⟩
      simp only [ht]
      by_cases h3 : targetSet m.targetProcess = true
      · by_cases h4 : some conn.pid = m.targetProcess
        · by_cases h5 : truthy domain = true <;> simp [h1, h2, h3, h4, h5, newFlowPacket]
        · by_cases h5 : truthy domain = true <;> simp [h1, h2, h3, h4, h5, newFlowPacket]
      · by_cases h5 : truthy domain = true <;> simp [h1, h2, h3, h5, newFlowPacket]

theorem detectRow_state (reverse : Resolver) (m : NetworkMonitorWindows) (conn : Conn) :
    (detectRow reverse m conn).1.lastConnections =
        (if mapHas m.lastConnections (flowKey conn) then m.lastConnections
          else mapSet m.lastConnections (flowKey conn) conn) ∧
      (detectRow reverse m conn).1.targetProcess = m.targetProcess := by
  unfold detectRow
  by_cases h1 : mapHas m.lastConnections (flowKey conn) = true
  · simp [h1]
  · by_cases h2 : inactiveState conn.state = true
    · simp [h1, h2]
    · simp only [h1, h2, Bool.false_eq_true, if_false]
      generalize hres : resolveDNS reverse _ _ = res
      have hf := resolveDNS_frame reverse
        { m with lastConnections := mapSet m.lastConnections (flowKey conn) conn } conn.remoteAddress
      rw [hres] at hf
      obtain ⟨m1, domain⟩ := res
      obtain ⟨hl, ht⟩ := hf
      simp only at hl ht
      dsimp only
      split_ifs <;> exact ⟨hl, ht⟩

theorem detectRows_cons (reverse : Resolver) (m : NetworkMonitorWindows) (conn : Conn)
    (rest : List Conn) :
    (detectRows reverse m (conn :: rest)).1 =
        (detectRows reverse (detectRow reverse m conn).1 rest).1 ∧
      (detectRows reverse m (conn :: rest)).2 =
        (detectRow reverse m conn).2 ++ (detectRows reverse (detectRow reverse m conn).1 rest).2 :=
  ⟨rfl, rfl⟩

theorem detectRows_target (reverse : Resolver) (m : NetworkMonitorWindows) (S : List Conn) :
    (detectRows reverse m S).1.targetProcess = m.targetProcess := by
  induction S generalizing m with
  | nil => rfl
  | cons conn rest ih =>
    rw [(detectRows_cons reverse m conn rest).1, ih, (detectRow_state reverse m conn).2]

theorem detectRows_keys (reverse : Resolver) (m : NetworkMonitorWindows) (S : List Conn)
    (k : String) :
    k ∈ (detectRows reverse m S).1.lastConnections.map Prod.fst ↔
      k ∈ m.lastConnections.map Prod.fst ∨ k ∈ S.map flowKey := by
  induction S generalizing m with
  | nil => simp [detectRows]
  | cons conn rest ih =>
    rw [(detectRows_cons reverse m conn rest).1, ih, (detectRow_state reverse m conn).1]
    by_cases h1 : mapHas m.lastConnections (flowKey conn) = true
    · have hmem := (mapHas_iff _ _).1 h1
      simp only [h1, if_true, List.map_cons, List.mem_cons]
      constructor
      · rintro (h | h)
        · exact Or.inl h
        · exact Or.inr (Or.inr h)
      · rintro (h | h | h)
        · exact Or.inl h
        · exact Or.inl (h ▸ hmem)
        · exact Or.inr h
    · simp only [h1, Bool.false_eq_true, if_false, mem_keys_mapSet, List.map_cons, List.mem_cons]
      tauto

theorem detectRows_packet_keys (reverse : Resolver) (S : List Conn) (m : NetworkMonitorWindows)
    (k : String) :
    k ∈ (packetEvents (detectRows reverse m S).2).map (fun e => flowKey e.connection) ↔
      (mapHas m.lastConnections k = false ∧
        ∃ r, S.find? (fun r => flowKey r == k) = some r ∧ inactiveState r.state = false ∧
          (targetSet m.targetProcess = true → some r.pid = m.targetProcess)) := by
  induction S generalizing m with
  | nil => simp [detectRows, packetEvents]
  | cons conn rest ih =>
    obtain ⟨d, hd⟩ := detectRow_out reverse m conn
    obtain ⟨hl, ht⟩ := detectRow_state reverse m conn
    rw [(detectRows_cons reverse m conn rest).2, packetEvents_append, List.map_append,
      List.mem_append, ih, hd, ht, List.find?_cons]
    have hkeys : mapHas (detectRow reverse m conn).1.lastConnections k = false ↔
        (mapHas m.lastConnections k = false ∧
          (mapHas m.lastConnections (flowKey conn) = false → k ≠ flowKey conn)) := by
      rw [hl]
      by_cases h1 : mapHas m.lastConnections (flowKey conn) = true
      · simp [h1]
      · have h1f : mapHas m.lastConnections (flowKey conn) = false := by simpa using h1
        rw [if_neg h1, mapHas_eq_false_iff, mem_keys_mapSet, mapHas_eq_false_iff]
        constructor
        · intro h
          exact ⟨fun hm => h (Or.inr hm), fun _ he => h (Or.inl he)⟩
        · rintro ⟨h2, h3⟩ (he | hm)
          · exact h3 h1f he
          · exact h2 hm
    rw [hkeys]
    by_cases hk : flowKey conn = k
    · subst hk
      have hb : (flowKey conn == flowKey conn) = true := by simp
      simp only [hb]
      by_cases hc : mapHas m.lastConnections (flowKey conn) = false ∧
          inactiveState conn.state = false ∧
          (targetSet m.targetProcess = true → some conn.pid = m.targetProcess)
      · rw [if_pos hc]
        constructor
        · intro _
          exact ⟨hc.1, conn, rfl, hc.2.1, hc.2.2⟩
        · intro _
          left
          simp only [packetEvents, List.map_cons, List.map_nil, List.mem_singleton]
          rfl
      · rw [if_neg hc]
        constructor
        · rintro (h | ⟨⟨h1, h2⟩, -⟩)
          · simp [packetEvents] at h
          · exact absurd rfl (h2 h1)
        · rintro ⟨h1, r, hr, h2, h3⟩
          simp only [Option.some.injEq] at hr
          subst hr
          exact absurd ⟨h1, h2, h3⟩ hc
    · have hb : (flowKey conn == k) = false := by simpa using hk
      have hne : k ≠ flowKey conn := fun e => hk e.symm
      simp only [hb]
      have hnot : k ∉ (packetEvents
          (if mapHas m.lastConnections (flowKey conn) = false ∧ inactiveState conn.state = false ∧
              (targetSet m.targetProcess = true → some conn.pid = m.targetProcess)
            then [Event.packet { newFlowPacket conn with domain := d }] else [])).map
          (fun e => flowKey e.connection) := by
        split
        · simp only [packetEvents, List.map_cons, List.map_nil, List.mem_singleton]
          exact hne
        · simp [packetEvents]
      simp only [hnot, false_or]
      constructor
      · rintro ⟨⟨h1, -⟩, h⟩
        exact ⟨h1, h⟩
      · rintro ⟨h1, h⟩
        exact ⟨⟨h1, fun _ => hne⟩, h⟩

theorem detectRows_packet_shape (reverse : Resolver) (S : List Conn) (m : NetworkMonitorWindows)
    (e : PacketInfo) (he : e ∈ packetEvents (detectRows reverse m S).2) :
    ∃ r ∈ S, ∃ d, e = { newFlowPacket r with domain := d } := by
  induction S generalizing m with
  | nil => simp [detectRows, packetEvents] at he
  | cons conn rest ih =>
    obtain ⟨d, hd⟩ := detectRow_out reverse m conn
    rw [(detectRows_cons reverse m conn rest).2, packetEvents_append, List.mem_append, hd] at he
    rcases he with h | h
    · split at h
      · simp only [packetEvents, List.mem_singleton] at h
        exact ⟨conn, List.mem_cons_self _ _, d, h⟩
      · simp [packetEvents] at h
    · obtain ⟨r, hr, d2, h2⟩ := ih _ h
      exact ⟨r, List.mem_cons_of_mem _ hr, d2, h2⟩

theorem resolveRows_cons (reverse : Resolver) (m : NetworkMonitorWindows) (conn : Conn)
    (rest : List Conn) :
    (resolveRows reverse m (conn :: rest)).1 =
      (resolveRows reverse (resolveDNS reverse m conn.remoteAddress).1 rest).1 :=
  rfl

theorem resolveRows_frame (reverse : Resolver) (m : NetworkMonitorWindows) (rows : List Conn) :
    (resolveRows reverse m rows).1.lastConnections = m.lastConnections ∧
      (resolveRows reverse m rows).1.targetProcess = m.targetProcess := by
  induction rows generalizing m with
  | nil => exact ⟨rfl, rfl⟩
  | cons conn rest ih =>
    rw [resolveRows_cons]
    obtain ⟨h1, h2⟩ := ih (resolveDNS reverse m conn.remoteAddress).1
    obtain ⟨h3, h4⟩ := resolveDNS_frame reverse m conn.remoteAddress
    exact ⟨h1.trans h3, h2.trans h4⟩

theorem packetEvents_emitConnections (m : NetworkMonitorWindows) (rows : List Conn) :
    packetEvents (emitConnections m rows) = [] := by
  unfold emitConnections
  split
  · dsimp only
    split <;> simp [packetEvents, packetEvents_map_connection]
  · simp [packetEvents, packetEvents_map_connection]

theorem monitorConnections_eq (reverse : Resolver) (m : NetworkMonitorWindows) (S : List Conn) :
    monitorConnections reverse m S =
      ((resolveRows reverse (cleanUp (detectRows reverse m S).1 S)
          (S.filter (fun conn => activeState conn.state))).1,
        (detectRows reverse m S).2 ++
          emitConnections
            (resolveRows reverse (cleanUp (detectRows reverse m S).1 S)
              (S.filter (fun conn => activeState conn.state))).1
            (resolveRows reverse (cleanUp (detectRows reverse m S).1 S)
              (S.filter (fun conn => activeState conn.state))).2) :=
  rfl

theorem monitorConnections_packets (reverse : Resolver) (m : NetworkMonitorWindows)
    (S : List Conn) :
    packetEvents (monitorConnections reverse m S).2 = packetEvents (detectRows reverse m S).2 := by
  rw [monitorConnections_eq]
  simp only [packetEvents_append, packetEvents_emitConnections, List.append_nil]

theorem monitorConnections_lastConnections (reverse : Resolver) (m : NetworkMonitorWindows)
    (S : List Conn) :
    (monitorConnections reverse m S).1.lastConnections =
      (detectRows reverse m S).1.lastConnections.filter
        (fun entry => (S.map flowKey).contains entry.1) := by
  rw [monitorConnections_eq]
  exact (resolveRows_frame reverse _ _).1

theorem monitorConnections_target (reverse : Resolver) (m : NetworkMonitorWindows)
    (S : List Conn) :
    (monitorConnections reverse m S).1.targetProcess = m.targetProcess := by
  rw [monitorConnections_eq]
  exact (resolveRows_frame reverse _ _).2.trans (detectRows_target reverse m S)

theorem monitorConnections_keys (reverse : Resolver) (m : NetworkMonitorWindows)
    (S : List Conn) (k : String) :
    k ∈ (monitorConnections reverse m S).1.lastConnections.map Prod.fst ↔ k ∈ S.map flowKey := by
  rw [monitorConnections_lastConnections]
  constructor
  · intro h
    obtain ⟨entry, hentry, rfl⟩ := List.mem_map.1 h
    have := (List.mem_filter.1 hentry).2
    simpa using this
  · intro h
    have hk : k ∈ (detectRows reverse m S).1.lastConnections.map Prod.fst :=
      (detectRows_keys reverse m S k).2 (Or.inr h)
    obtain ⟨entry, hentry, rfl⟩ := List.mem_map.1 hk
    refine List.mem_map.2 ⟨entry, List.mem_filter.2 ⟨hentry, ?_⟩, rfl⟩
    simpa using h

theorem activityRows_shape (reverse : Resolver) (rng : RandomSource) (rows : List Conn)
    (m : NetworkMonitorWindows) (calls : Nat) (e : PacketInfo)
    (he : e ∈ packetEvents (activityRows reverse rng m calls rows).2) :
    e.connection ∈ rows ∧
      e.direction = direction e.connection.localPort e.connection.remotePort := by
  induction rows generalizing m calls with
  | nil => simp [activityRows, packetEvents] at he
  | cons conn rest ih =>
    rw [activityRows] at he
    split at he
    · simp only [packetEvents, List.mem_cons] at he
      rcases he with h | h
      · subst h
        split <;> exact ⟨List.mem_cons_self _ _, rfl⟩
      · obtain ⟨h1, h2⟩ := ih _ _ h
        exact ⟨List.mem_cons_of_mem _ h1, h2⟩
    · obtain ⟨h1, h2⟩ := ih _ _ he
      exact ⟨List.mem_cons_of_mem _ h1, h2⟩

theorem direction_eq_outgoing (localPort remotePort : Nat) :
    direction localPort remotePort = "outgoing" ↔
      (localPort < remotePort ∨ (localPort ≥ 1024 ∧ remotePort < 1024)) := by
  unfold direction isOutgoing
  by_cases h : localPort < remotePort ∨ (localPort ≥ 1024 ∧ remotePort < 1024)
  · have hb : (decide (localPort < remotePort) ||
        (decide (localPort ≥ 1024) && decide (remotePort < 1024))) = true := by
      simpa using h
    simp only [hb, if_true, true_iff]
    exact h
  · have hb : (decide (localPort < remotePort) ||
        (decide (localPort ≥ 1024) && decide (remotePort < 1024))) = false := by
      simpa using h
    simp only [hb, Bool.false_eq_true, if_false]
    constructor
    · intro hne
      exact absurd hne (by decide)
    · intro h2
      exact absurd h2 h

theorem direction_eq_incoming (localPort remotePort : Nat) :
    direction localPort remotePort = "incoming" ↔
      ¬ (localPort < remotePort ∨ (localPort ≥ 1024 ∧ remotePort < 1024)) := by
  rw [← direction_eq_outgoing]
  unfold direction
  split
  · simp only [not_true_eq_false, iff_false]
    decide
  · simp only [true_iff]
    decide

end NetworkMonitorWindows

/-! ## The store: bounds, order, counters, upsert, clear -/

/-- C1. Store bound invariant: after the first `n` operations of any sequence
of `savePacket`, `saveConnection`, `saveProcess`, `updateDomainStats` and
`clear` applied to a fresh store, each of the three sequences has at most
`maxItems` elements, and `maxItems` is 10000. -/
theorem store_bound_invariant (ops : List Database.Op) (n : Nat) :
    (Database.run (ops.take n)).packets.length ≤ (Database.run (ops.take n)).maxItems ∧
      (Database.run (ops.take n)).connections.length ≤ (Database.run (ops.take n)).maxItems ∧
      (Database.run (ops.take n)).processes.length ≤ (Database.run (ops.take n)).maxItems ∧
      (Database.run (ops.take n)).maxItems = 10000 :=
  Database.bounded_run (ops.take n)

/-- C2. Newest-first order with tail eviction: after appending `ps` in order
with `savePacket` to a fresh store, the packets sequence is the first
`min n maxItems` elements of the reversed list and its head is the event
appended last; when `n = maxItems + 1` it has exactly `maxItems` elements, it
is the reverse of all events but the first, and the first-appended event (if
no later event equals it) is no longer present. The same for `saveConnection`
and the connections sequence. -/
theorem newest_first_tail_eviction (ps : List PacketInfo) (cs : List Conn) :
    ((ps.foldl Database.savePacket Database.new).packets =
          ps.reverse.take (min ps.length Database.new.maxItems) ∧
        (ps.foldl Database.savePacket Database.new).packets.head? = ps.getLast? ∧
        (ps.length = Database.new.maxItems + 1 →
          (ps.foldl Database.savePacket Database.new).packets.length = Database.new.maxItems ∧
            (ps.foldl Database.savePacket Database.new).packets = ps.tail.reverse ∧
            ∀ p1, ps.head? = some p1 → p1 ∉ ps.tail →
              p1 ∉ (ps.foldl Database.savePacket Database.new).packets)) ∧
      ((cs.foldl Database.saveConnection Database.new).connections =
          cs.reverse.take (min cs.length Database.new.maxItems) ∧
        (cs.foldl Database.saveConnection Database.new).connections.head? = cs.getLast? ∧
        (cs.length = Database.new.maxItems + 1 →
          (cs.foldl Database.saveConnection Database.new).connections.length =
              Database.new.maxItems ∧
            (cs.foldl Database.saveConnection Database.new).connections = cs.tail.reverse ∧
            ∀ c1, cs.head? = some c1 → c1 ∉ cs.tail →
              c1 ∉ (cs.foldl Database.saveConnection Database.new).connections)) := by
  constructor
  · apply Database.newest_first_of_take ps _ Database.new.maxItems (by decide)
    rw [Database.foldl_savePacket ps Database.new (Nat.zero_le _)]
    simp [Database.new]
  · apply Database.newest_first_of_take cs _ Database.new.maxItems (by decide)
    rw [Database.foldl_saveConnection cs Database.new (Nat.zero_le _)]
    simp [Database.new]

/-- Witness for C2: 10001 packet events, the first one different from the
10000 that follow. -/
theorem newest_first_tail_eviction_witness :
    ((samplePacket 0 :: List.replicate 10000 (samplePacket 1)).foldl
          Database.savePacket Database.new).packets.length = Database.new.maxItems ∧
      samplePacket 0 ∉ ((samplePacket 0 :: List.replicate 10000 (samplePacket 1)).foldl
          Database.savePacket Database.new).packets := by
  have h := ((newest_first_tail_eviction
    (samplePacket 0 :: List.replicate 10000 (samplePacket 1)) []).1.2.2
      (by rw [List.length_cons, List.length_replicate]; rfl))
  refine ⟨h.1, h.2.2 (samplePacket 0) rfl ?_⟩
  rw [List.tail_cons, List.mem_replicate]
  rintro ⟨-, h2⟩
  exact absurd h2 (by decide)

/-- C3. Lifetime counters: `savePacket` adds exactly 1 to `totalPackets` and
`saveConnection` adds exactly 1 to `totalConnections` in every state (a full
buffer included); every operation is `clear` or lowers neither counter; and
in every state reached from a fresh store each counter is at least the length
of its sequence. -/
theorem lifetime_counters (db : Database) (p : PacketInfo) (c : Conn) (op : Database.Op)
    (ops : List Database.Op) :
    (db.savePacket p).statistics.totalPackets = db.statistics.totalPackets + 1 ∧
      (db.saveConnection c).statistics.totalConnections = db.statistics.totalConnections + 1 ∧
      (op = Database.Op.clear ∨
        (db.statistics.totalPackets ≤ (db.step op).statistics.totalPackets ∧
          db.statistics.totalConnections ≤ (db.step op).statistics.totalConnections)) ∧
      (Database.run ops).packets.length ≤ (Database.run ops).statistics.totalPackets ∧
      (Database.run ops).connections.length ≤ (Database.run ops).statistics.totalConnections := by
  refine ⟨rfl, rfl, ?_, ?_⟩
  · cases op with
    | savePacket q => exact Or.inr ⟨Nat.le_succ _, Nat.le_refl _⟩
    | saveConnection q => exact Or.inr ⟨Nat.le_refl _, Nat.le_succ _⟩
    | saveProcess q => exact Or.inr ⟨Nat.le_refl _, Nat.le_refl _⟩
    | updateDomainStats d n => exact Or.inr ⟨Nat.le_refl _, Nat.le_refl _⟩
    | clear => exact Or.inl rfl
  · exact Database.counted_foldl ops Database.new ⟨Nat.le_refl _, Nat.le_refl _⟩

/-- C4. Process upsert: in a state reached from a fresh store whose processes
hold at most one record per pid, after `saveProcess p` they still do, exactly
one record has pid `p.pid` and it is `p`; if the pid was present the record at
its position is replaced and the length is unchanged, otherwise `p` is put at
the head (the buffer then being cut to `maxItems`). Saving two records with
the same pid onto a fresh store leaves the second one alone. -/
theorem process_upsert (ops : List Database.Op) (p : ProcessInfo)
    (huniq : ((Database.run ops).processes.map (fun x => x.pid)).Nodup) :
    ((((Database.run ops).saveProcess p).processes.map (fun x => x.pid)).Nodup ∧
      ((Database.run ops).saveProcess p).processes.filter (fun x => decide (x.pid = p.pid)) = [p] ∧
      ((∃ q ∈ (Database.run ops).processes, q.pid = p.pid) →
        ∃ i q, (Database.run ops).processes[i]? = some q ∧ q.pid = p.pid ∧
          ((Database.run ops).saveProcess p).processes = (Database.run ops).processes.set i p ∧
          ((Database.run ops).saveProcess p).processes.length =
            (Database.run ops).processes.length) ∧
      ((∀ q ∈ (Database.run ops).processes, q.pid ≠ p.pid) →
        ((Database.run ops).saveProcess p).processes =
            (p :: (Database.run ops).processes).take (Database.run ops).maxItems ∧
          ((Database.run ops).saveProcess p).processes.head? = some p ∧
          ((Database.run ops).processes.length < (Database.run ops).maxItems →
            ((Database.run ops).saveProcess p).processes = p :: (Database.run ops).processes))) ∧
      ∀ p1 p2 : ProcessInfo, p1.pid = p2.pid →
        ((Database.new.saveProcess p1).saveProcess p2).processes = [p2] := by
  obtain ⟨-, -, hlen, hmax⟩ := Database.bounded_run ops
  refine ⟨Database.saveProcess_spec _ p (by omega) hlen huniq, ?_⟩
  intro p1 p2 h
  simp [Database.saveProcess, Database.new, Database.findIndex, h]

/-- Witness for C4: the store holds one record of pid 7 and a second record
of pid 7 is saved. -/
theorem process_upsert_witness :
    ((Database.run [Database.Op.saveProcess (sampleProcess 1)]).processes.map
        (fun x => x.pid)).Nodup ∧
      ((Database.run [Database.Op.saveProcess (sampleProcess 1)]).saveProcess
        (sampleProcess 2)).processes.filter (fun x => decide (x.pid = (sampleProcess 2).pid)) =
          [sampleProcess 2] :=
  ⟨by decide,
    (process_upsert [Database.Op.saveProcess (sampleProcess 1)] (sampleProcess 2)
      (by decide)).1.2.1⟩

/-- C5. `clear` resets the store: the three sequences and the domain map are
empty, the four counters are 0, both histograms have no key, `maxItems` is
kept; the result is the fresh store up to `maxItems`; `clear` is idempotent
and `clearData` is `clear`. -/
theorem clear_resets (db : Database) :
    db.clear.packets = [] ∧ db.clear.connections = [] ∧ db.clear.processes = [] ∧
      db.clear.domains = [] ∧ db.clear.statistics.totalPackets = 0 ∧
      db.clear.statistics.totalConnections = 0 ∧ db.clear.statistics.activeProcesses = 0 ∧
      db.clear.statistics.uniqueDomains = 0 ∧ db.clear.statistics.protocols = [] ∧
      db.clear.statistics.ports = [] ∧ db.clear.maxItems = db.maxItems ∧
      db.clear = { Database.new with maxItems := db.maxItems } ∧
      db.clear.clear = db.clear ∧ db.clearData = db.clear :=
  ⟨rfl, rfl, rfl, rfl, rfl, rfl, rfl, rfl, rfl, rfl, rfl, rfl, rfl, rfl⟩

/-! ## The connection diff engine -/

/-- The test that skips a row names exactly the two states LISTENING and
TIME_WAIT. -/
theorem inactiveState_eq_false_iff (state : String) :
    inactiveState state = false ↔ state ≠ "LISTENING" ∧ state ≠ "TIME_WAIT" := by
  simp [inactiveState]

/-- C6. Diff correctness in global scope: once `monitorConnections` has
processed `S1`, the flow keys of the packet events emitted while processing
`S2` are exactly the keys present in `S2`, absent from `S1`, whose state in
`S2` is neither LISTENING nor TIME_WAIT (the state of a key being that of the
first row of `S2` that carries it, the row stored under the key). -/
theorem diff_correctness (reverse : Resolver) (m0 : NetworkMonitorWindows) (S1 S2 : List Conn)
    (hglobal : targetSet m0.targetProcess = false) (k : String) :
    k ∈ (packetEvents
          (NetworkMonitorWindows.monitorConnections reverse
            (NetworkMonitorWindows.monitorConnections reverse m0 S1).1 S2).2).map
        (fun e => flowKey e.connection) ↔
      (k ∈ S2.map flowKey ∧ k ∉ S1.map flowKey ∧
        ∃ r, S2.find? (fun r => flowKey r == k) = some r ∧
          r.state ≠ "LISTENING" ∧ r.state ≠ "TIME_WAIT") := by
  rw [NetworkMonitorWindows.monitorConnections_packets,
    NetworkMonitorWindows.detectRows_packet_keys, mapHas_eq_false_iff,
    NetworkMonitorWindows.monitorConnections_keys,
    NetworkMonitorWindows.monitorConnections_target, hglobal]
  constructor
  · rintro ⟨h1, r, hr, h2, -⟩
    refine ⟨?_, h1, r, hr, (inactiveState_eq_false_iff r.state).1 h2⟩
    have hk : flowKey r = k := by simpa using List.find?_some hr
    exact hk ▸ List.mem_map_of_mem flowKey (List.mem_of_find?_eq_some hr)
  · rintro ⟨-, h1, r, hr, h2⟩
    exact ⟨h1, r, hr, (inactiveState_eq_false_iff r.state).2 h2, fun h => absurd h (by decide)⟩

/-- Witness for C6: the established row was in the first snapshot; the second
snapshot adds a row in each of six other states. The keys emitted in the
second cycle are those of the four new rows in state CLOSE_WAIT, SYN_SENT,
FIN_WAIT_1 and FIN_WAIT_2: the key of the CLOSE_WAIT row is emitted, and
those of the LISTENING row, of the TIME_WAIT row and of the established row
already seen are not. -/
theorem diff_correctness_witness :
    (packetEvents
          (NetworkMonitorWindows.monitorConnections failingResolver
            (NetworkMonitorWindows.monitorConnections failingResolver
              NetworkMonitorWindows.new [sampleRow]).1 sampleSnapshot).2).map
        (fun e => flowKey e.connection) =
      ["TCP-10.0.0.1:5003-93.1.1.1:443", "TCP-10.0.0.1:5004-93.1.1.1:443",
        "TCP-10.0.0.1:5005-93.1.1.1:443", "TCP-10.0.0.1:5006-93.1.1.1:443"] ∧
      "TCP-10.0.0.1:5003-93.1.1.1:443" ∈ (packetEvents
          (NetworkMonitorWindows.monitorConnections failingResolver
            (NetworkMonitorWindows.monitorConnections failingResolver
              NetworkMonitorWindows.new [sampleRow]).1 sampleSnapshot).2).map
        (fun e => flowKey e.connection) ∧
      "TCP-0.0.0.0:135-0.0.0.0:0" ∉ (packetEvents
          (NetworkMonitorWindows.monitorConnections failingResolver
            (NetworkMonitorWindows.monitorConnections failingResolver
              NetworkMonitorWindows.new [sampleRow]).1 sampleSnapshot).2).map
        (fun e => flowKey e.connection) ∧
      "TCP-10.0.0.1:5002-93.1.1.1:443" ∉ (packetEvents
          (NetworkMonitorWindows.monitorConnections failingResolver
            (NetworkMonitorWindows.monitorConnections failingResolver
              NetworkMonitorWindows.new [sampleRow]).1 sampleSnapshot).2).map
        (fun e => flowKey e.connection) ∧
      "TCP-10.0.0.1:5000-93.1.1.1:443" ∉ (packetEvents
          (NetworkMonitorWindows.monitorConnections failingResolver
            (NetworkMonitorWindows.monitorConnections failingResolver
              NetworkMonitorWindows.new [sampleRow]).1 sampleSnapshot).2).map
        (fun e => flowKey e.connection) :=
  ⟨by decide,
    (diff_correctness failingResolver NetworkMonitorWindows.new [sampleRow] sampleSnapshot
      rfl "TCP-10.0.0.1:5003-93.1.1.1:443").2 (by decide),
    fun h => absurd
      ((diff_correctness failingResolver NetworkMonitorWindows.new [sampleRow] sampleSnapshot
        rfl "TCP-0.0.0.0:135-0.0.0.0:0").1 h) (by decide),
    fun h => absurd
      ((diff_correctness failingResolver NetworkMonitorWindows.new [sampleRow] sampleSnapshot
        rfl "TCP-10.0.0.1:5002-93.1.1.1:443").1 h) (by decide),
    fun h => absurd
      ((diff_correctness failingResolver NetworkMonitorWindows.new [sampleRow] sampleSnapshot
        rfl "TCP-10.0.0.1:5000-93.1.1.1:443").1 h) (by decide)⟩

/-- C7. Working-set postcondition: whatever `lastConnections` held before,
after one `monitorConnections` cycle on the snapshot `S` its keys are exactly
the flow keys of the rows of `S`. -/
theorem working_set_postcondition (reverse : Resolver) (m : NetworkMonitorWindows)
    (S : List Conn) (k : String) :
    k ∈ (NetworkMonitorWindows.monitorConnections reverse m S).1.lastConnections.map Prod.fst ↔
      k ∈ S.map flowKey :=
  NetworkMonitorWindows.monitorConnections_keys reverse m S k

/-- C8. First-seen detection is keyed on flow identity: when the row of `S1`
that carries a key (its first row, `r`) is in state LISTENING or TIME_WAIT,
that cycle emits no packet event for the key and the key is tracked in
`lastConnections` afterwards; and the next cycle emits no packet event for the
key either, whatever its state in `S2` (ESTABLISHED included). This holds
whether or not the key was tracked before, so in particular when it is new. -/
theorem first_seen_keyed_on_identity (reverse : Resolver) (m : NetworkMonitorWindows)
    (S1 S2 : List Conn) (r : Conn)
    (hfirst : S1.find? (fun x => flowKey x == flowKey r) = some r)
    (hstate : inactiveState r.state = true) :
    (∀ e ∈ packetEvents (NetworkMonitorWindows.monitorConnections reverse m S1).2,
        flowKey e.connection ≠ flowKey r) ∧
      mapHas (NetworkMonitorWindows.monitorConnections reverse m S1).1.lastConnections
        (flowKey r) = true ∧
      (∀ e ∈ packetEvents
          (NetworkMonitorWindows.monitorConnections reverse
            (NetworkMonitorWindows.monitorConnections reverse m S1).1 S2).2,
        flowKey e.connection ≠ flowKey r) := by
  have htracked : mapHas (NetworkMonitorWindows.monitorConnections reverse m S1).1.lastConnections
      (flowKey r) = true := by
    rw [mapHas_iff, NetworkMonitorWindows.monitorConnections_keys]
    exact List.mem_map_of_mem flowKey (List.mem_of_find?_eq_some hfirst)
  refine ⟨?_, htracked, ?_⟩
  · intro e he hk
    rw [NetworkMonitorWindows.monitorConnections_packets] at he
    have hmem : flowKey r ∈ (packetEvents
        (NetworkMonitorWindows.detectRows reverse m S1).2).map (fun e => flowKey e.connection) :=
      List.mem_map.2 ⟨e, he, hk⟩
    obtain ⟨-, r2, hr2, h2, -⟩ := (NetworkMonitorWindows.detectRows_packet_keys _ _ _ _).1 hmem
    rw [hfirst] at hr2
    cases hr2
    rw [hstate] at h2
    exact absurd h2 (by decide)
  · intro e he hk
    rw [NetworkMonitorWindows.monitorConnections_packets] at he
    have hmem : flowKey r ∈ (packetEvents
        (NetworkMonitorWindows.detectRows reverse
          (NetworkMonitorWindows.monitorConnections reverse m S1).1 S2).2).map
          (fun e => flowKey e.connection) :=
      List.mem_map.2 ⟨e, he, hk⟩
    obtain ⟨h1, -⟩ := (NetworkMonitorWindows.detectRows_packet_keys _ _ _ _).1 hmem
    rw [htracked] at h1
    exact absurd h1 (by decide)

/-- Witness for C8: a listening row is seen first, and the same key comes back
in state ESTABLISHED in the next snapshot. -/
theorem first_seen_keyed_on_identity_witness :
    mapHas (NetworkMonitorWindows.monitorConnections failingResolver NetworkMonitorWindows.new
        [sampleListening]).1.lastConnections (flowKey sampleListening) = true ∧
      ∀ e ∈ packetEvents
          (NetworkMonitorWindows.monitorConnections failingResolver
            (NetworkMonitorWindows.monitorConnections failingResolver NetworkMonitorWindows.new
              [sampleListening]).1 [{ sampleListening with state := "ESTABLISHED" }]).2,
        flowKey e.connection ≠ flowKey sampleListening :=
  (first_seen_keyed_on_identity failingResolver NetworkMonitorWindows.new [sampleListening]
    [{ sampleListening with state := "ESTABLISHED" }] sampleListening (by decide)
    (by decide)).2

/-- C9. Direction classification: every packet event emitted by
`monitorConnections` and by `monitorConnectionActivity` carries the direction
computed from the two ports of its row alone; that value is "outgoing" exactly
when `localPort < remotePort` or (`localPort ≥ 1024` and `remotePort < 1024`)
and "incoming" exactly otherwise; ports 5000 and 443 give "outgoing"; two
events with the same ports, from any two cycles, have the same direction. -/
theorem direction_classification (reverse reverse2 : Resolver)
    (rng : NetworkMonitorWindows.RandomSource)
    (m m2 : NetworkMonitorWindows) (S S2 : List Conn) (localPort remotePort : Nat) :
    (∀ e ∈ packetEvents (NetworkMonitorWindows.monitorConnections reverse m S).2,
        e.direction = direction e.connection.localPort e.connection.remotePort) ∧
      (∀ e ∈ packetEvents (NetworkMonitorWindows.monitorConnectionActivity reverse rng m S).2,
        e.direction = direction e.connection.localPort e.connection.remotePort) ∧
      (direction localPort remotePort = "outgoing" ↔
        (localPort < remotePort ∨ (localPort ≥ 1024 ∧ remotePort < 1024))) ∧
      (direction localPort remotePort = "incoming" ↔
        ¬ (localPort < remotePort ∨ (localPort ≥ 1024 ∧ remotePort < 1024))) ∧
      direction 5000 443 = "outgoing" ∧
      (∀ e1 ∈ packetEvents (NetworkMonitorWindows.monitorConnections reverse m S).2 ++
            packetEvents (NetworkMonitorWindows.monitorConnectionActivity reverse rng m S).2,
        ∀ e2 ∈ packetEvents (NetworkMonitorWindows.monitorConnections reverse2 m2 S2).2 ++
            packetEvents (NetworkMonitorWindows.monitorConnectionActivity reverse2 rng m2 S2).2,
          e1.connection.localPort = e2.connection.localPort →
            e1.connection.remotePort = e2.connection.remotePort →
              e1.direction = e2.direction) := by
  have hdiff : ∀ (rv : Resolver) (mm : NetworkMonitorWindows) (SS : List Conn),
      ∀ e ∈ packetEvents (NetworkMonitorWindows.monitorConnections rv mm SS).2,
        e.direction = direction e.connection.localPort e.connection.remotePort := by
    intro rv mm SS e he
    rw [NetworkMonitorWindows.monitorConnections_packets] at he
    obtain ⟨r, -, d, rfl⟩ := NetworkMonitorWindows.detectRows_packet_shape rv SS mm e he
    rfl
  have hact : ∀ (rv : Resolver) (mm : NetworkMonitorWindows) (SS : List Conn),
      ∀ e ∈ packetEvents (NetworkMonitorWindows.monitorConnectionActivity rv rng mm SS).2,
        e.direction = direction e.connection.localPort e.connection.remotePort := by
    intro rv mm SS e he
    exact (NetworkMonitorWindows.activityRows_shape rv rng _ mm 0 e he).2
  refine ⟨hdiff reverse m S, hact reverse m S,
    NetworkMonitorWindows.direction_eq_outgoing _ _,
    NetworkMonitorWindows.direction_eq_incoming _ _, by decide, ?_⟩
  intro e1 h1 e2 h2 hl hr
  have d1 : e1.direction = direction e1.connection.localPort e1.connection.remotePort := by
    rcases List.mem_append.1 h1 with h | h
    · exact hdiff _ _ _ e1 h
    · exact hact _ _ _ e1 h
  have d2 : e2.direction = direction e2.connection.localPort e2.connection.remotePort := by
    rcases List.mem_append.1 h2 with h | h
    · exact hdiff _ _ _ e2 h
    · exact hact _ _ _ e2 h
  rw [d1, d2, hl, hr]

/-- C10 as stated fails twice. With target pid 99 configured, an empty working
set and the single ESTABLISHED row of pid 10, the cycle emits no packet event
(not exactly one); and in global scope the one event emitted for that row has
no `isActivity` property at all, rather than the value `false`. -/
theorem new_flow_event_shape_counterexample :
    packetEvents
        (NetworkMonitorWindows.monitorConnections failingResolver
          (NetworkMonitorWindows.monitorConnections failingResolver
            { NetworkMonitorWindows.new with targetProcess := some 99 } []).1 [sampleRow]).2 = [] ∧
      (packetEvents
        (NetworkMonitorWindows.monitorConnections failingResolver
          (NetworkMonitorWindows.monitorConnections failingResolver
            NetworkMonitorWindows.new []).1 [sampleRow]).2).map (fun e => e.isActivity) =
        [none] := by
  decide

/-- C10, amended. Every packet event emitted by `monitorConnections` is built
from a row of the snapshot and has size 1, no `isActivity` property, the
protocol of the row, source and destination made of the row's local and
remote address and port, flags equal to the row's state and the row's pid.
After the empty snapshot, a snapshot made of one ESTABLISHED row `r` yields
exactly one packet event, for `r`, when no target is in effect or the target
is `r.pid`, and none when another target pid is in effect. -/
theorem new_flow_event_shape (reverse : Resolver) (m : NetworkMonitorWindows) (S : List Conn)
    (r : Conn) :
    (∀ e ∈ packetEvents (NetworkMonitorWindows.monitorConnections reverse m S).2,
        e.connection ∈ S ∧ e.size = 1 ∧ e.isActivity = none ∧
          e.protocol = e.connection.protocol ∧
          e.source = e.connection.localAddress ++ ":" ++ toString e.connection.localPort ∧
          e.destination =
            e.connection.remoteAddress ++ ":" ++ toString e.connection.remotePort ∧
          e.flags = e.connection.state ∧ e.pid = e.connection.pid) ∧
      (r.state = "ESTABLISHED" →
        (targetSet m.targetProcess = false ∨ m.targetProcess = some r.pid) →
        ∃ e, packetEvents
            (NetworkMonitorWindows.monitorConnections reverse
              (NetworkMonitorWindows.monitorConnections reverse m []).1 [r]).2 = [e] ∧
          e.connection = r) ∧
      (r.state = "ESTABLISHED" → targetSet m.targetProcess = true →
        m.targetProcess ≠ some r.pid →
        packetEvents
            (NetworkMonitorWindows.monitorConnections reverse
              (NetworkMonitorWindows.monitorConnections reverse m []).1 [r]).2 = []) := by
  have hempty : mapHas (NetworkMonitorWindows.monitorConnections reverse m []).1.lastConnections
      (flowKey r) = false := by
    rw [mapHas_eq_false_iff, NetworkMonitorWindows.monitorConnections_keys]
    simp
  have htarget := NetworkMonitorWindows.monitorConnections_target reverse m []
  have hone : ∀ mm : NetworkMonitorWindows,
      packetEvents (NetworkMonitorWindows.monitorConnections reverse mm [r]).2 =
        packetEvents (NetworkMonitorWindows.detectRow reverse mm r).2 := by
    intro mm
    rw [NetworkMonitorWindows.monitorConnections_packets,
      (NetworkMonitorWindows.detectRows_cons reverse mm r []).2]
    simp [NetworkMonitorWindows.detectRows]
  refine ⟨?_, ?_, ?_⟩
  · intro e he
    rw [NetworkMonitorWindows.monitorConnections_packets] at he
    obtain ⟨r2, hr2, d, rfl⟩ := NetworkMonitorWindows.detectRows_packet_shape reverse S m e he
    exact ⟨hr2, rfl, rfl, rfl, rfl, rfl, rfl, rfl⟩
  · intro hest hscope
    have hin : inactiveState r.state = false := by rw [hest]; decide
    obtain ⟨d, hd⟩ := NetworkMonitorWindows.detectRow_out reverse
      (NetworkMonitorWindows.monitorConnections reverse m []).1 r
    rw [hone, hd, htarget, if_pos]
    · exact ⟨_, rfl, rfl⟩
    · refine ⟨hempty, hin, ?_⟩
      intro ht
      rcases hscope with h | h
      · rw [h] at ht
        exact absurd ht (by decide)
      · exact h.symm
  · intro hest ht hne
    obtain ⟨d, hd⟩ := NetworkMonitorWindows.detectRow_out reverse
      (NetworkMonitorWindows.monitorConnections reverse m []).1 r
    rw [hone, hd, htarget, if_neg]
    · rfl
    · rintro ⟨-, -, h⟩
      exact hne (h ht).symm

/-- Witness for C10, amended: global scope, with the sample row. -/
theorem new_flow_event_shape_witness :
    ∃ e, packetEvents
        (NetworkMonitorWindows.monitorConnections failingResolver
          (NetworkMonitorWindows.monitorConnections failingResolver
            NetworkMonitorWindows.new []).1 [sampleRow]).2 = [e] ∧
      e.connection = sampleRow :=
  (new_flow_event_shape failingResolver NetworkMonitorWindows.new [] sampleRow).2.1 rfl
    (Or.inl rfl)

/-! ## Scope filtering and the active batch -/

namespace NetworkMonitorWindows

theorem detectRow_untracked (reverse : Resolver) (m : NetworkMonitorWindows) (conn : Conn)
    (k : String) :
    mapHas (detectRow reverse m conn).1.lastConnections k = false ↔
      (mapHas m.lastConnections k = false ∧ k ≠ flowKey conn) := by
  rw [(detectRow_state reverse m conn).1]
  by_cases h1 : mapHas m.lastConnections (flowKey conn) = true
  · rw [if_pos h1]
    constructor
    · intro h
      refine ⟨h, ?_⟩
      rintro rfl
      rw [h1] at h
      exact absurd h (by decide)
    · exact fun h => h.1
  · rw [if_neg h1, mapHas_eq_false_iff, mem_keys_mapSet, mapHas_eq_false_iff]
    constructor
    · intro h
      exact ⟨fun hm => h (Or.inr hm), fun he => h (Or.inl he)⟩
    · rintro ⟨h2, h3⟩ (he | hm)
      · exact h3 he
      · exact h2 hm

/-- A packet event of the first loop comes from the first row of its key in
the snapshot, a row that was not tracked, is not skipped and passes the
target filter. -/
theorem detectRows_packet_row (reverse : Resolver) (S : List Conn) (m : NetworkMonitorWindows)
    (e : PacketInfo) (he : e ∈ packetEvents (detectRows reverse m S).2) :
    mapHas m.lastConnections (flowKey e.connection) = false ∧
      S.find? (fun r => flowKey r == flowKey e.connection) = some e.connection ∧
      inactiveState e.connection.state = false ∧
      (targetSet m.targetProcess = true → some e.connection.pid = m.targetProcess) ∧
      e.pid = e.connection.pid := by
  induction S generalizing m with
  | nil => simp [detectRows, packetEvents] at he
  | cons conn rest ih =>
    obtain ⟨d, hd⟩ := detectRow_out reverse m conn
    rw [(detectRows_cons reverse m conn rest).2, packetEvents_append, List.mem_append, hd] at he
    rcases he with h | h
    · split at h
      · rename_i hc
        simp only [packetEvents, List.mem_singleton] at h
        subst h
        refine ⟨hc.1, ?_, hc.2.1, hc.2.2, rfl⟩
        show List.find? (fun r => flowKey r == flowKey conn) (conn :: rest) = some conn
        simp [List.find?_cons]
      · simp [packetEvents] at h
    · obtain ⟨h1, h2, h3, h4, h5⟩ := ih _ h
      rw [detectRow_untracked] at h1
      rw [(detectRow_state reverse m conn).2] at h4
      refine ⟨h1.1, ?_, h3, h4, h5⟩
      have hb : (flowKey conn == flowKey e.connection) = false := by
        simpa using fun hc => h1.2 hc.symm
      rw [List.find?_cons, hb]
      exact h2

end NetworkMonitorWindows

/-- C11. Target-process scope on flow events. With a target pid `t ≠ 0`
configured, every packet event emitted by `monitorConnections` has pid `t`; a
new flow (key not tracked, `r` the row of the snapshot carrying the key) whose
state is neither LISTENING nor TIME_WAIT is emitted exactly when `r.pid = t`;
and the key of every row of the snapshot, whatever its pid, is tracked in
`lastConnections` after the cycle. With no target configured every such new
flow is emitted. -/
theorem target_process_scope (reverse : Resolver) (m : NetworkMonitorWindows) (S : List Conn)
    (t : Nat) (r : Conn) :
    (m.targetProcess = some t → t ≠ 0 →
      (∀ e ∈ packetEvents (NetworkMonitorWindows.monitorConnections reverse m S).2, e.pid = t) ∧
        (mapHas m.lastConnections (flowKey r) = false →
          S.find? (fun x => flowKey x == flowKey r) = some r → inactiveState r.state = false →
            ((∃ e ∈ packetEvents (NetworkMonitorWindows.monitorConnections reverse m S).2,
                e.connection = r) ↔ r.pid = t)) ∧
        (∀ x ∈ S, mapHas (NetworkMonitorWindows.monitorConnections reverse m S).1.lastConnections
          (flowKey x) = true)) ∧
      (m.targetProcess = none → mapHas m.lastConnections (flowKey r) = false →
        S.find? (fun x => flowKey x == flowKey r) = some r → inactiveState r.state = false →
          ∃ e ∈ packetEvents (NetworkMonitorWindows.monitorConnections reverse m S).2,
            e.connection = r) := by
  have hemit : mapHas m.lastConnections (flowKey r) = false →
      S.find? (fun x => flowKey x == flowKey r) = some r → inactiveState r.state = false →
      (targetSet m.targetProcess = true → some r.pid = m.targetProcess) →
      ∃ e ∈ packetEvents (NetworkMonitorWindows.monitorConnections reverse m S).2,
        e.connection = r := by
    intro h1 h2 h3 h4
    have hk := (NetworkMonitorWindows.detectRows_packet_keys reverse S m (flowKey r)).2
      ⟨h1, r, h2, h3, h4⟩
    obtain ⟨e, he, hek⟩ := List.mem_map.1 hk
    refine ⟨e, by rw [NetworkMonitorWindows.monitorConnections_packets]; exact he, ?_⟩
    have hrow := (NetworkMonitorWindows.detectRows_packet_row reverse S m e he).2.1
    have hek2 : flowKey e.connection = flowKey r := hek
    rw [hek2, h2] at hrow
    exact (Option.some.inj hrow).symm
  constructor
  · intro ht ht0
    have hset : targetSet m.targetProcess = true := by
      rw [ht]
      cases t with
      | zero => exact absurd rfl ht0
      | succ n => rfl
    refine ⟨?_, ?_, ?_⟩
    · intro e he
      rw [NetworkMonitorWindows.monitorConnections_packets] at he
      obtain ⟨-, -, -, h4, h5⟩ := NetworkMonitorWindows.detectRows_packet_row reverse S m e he
      have := h4 hset
      rw [ht] at this
      rw [h5]
      exact Option.some.inj this
    · intro h1 h2 h3
      constructor
      · rintro ⟨e, he, rfl⟩
        rw [NetworkMonitorWindows.monitorConnections_packets] at he
        obtain ⟨-, -, -, h4, -⟩ := NetworkMonitorWindows.detectRows_packet_row reverse S m e he
        have := h4 hset
        rw [ht] at this
        exact Option.some.inj this
      · intro hp
        exact hemit h1 h2 h3 (fun _ => by rw [ht, hp])
    · intro x hx
      rw [mapHas_iff, NetworkMonitorWindows.monitorConnections_keys]
      exact List.mem_map_of_mem flowKey hx
  · intro hn h1 h2 h3
    exact hemit h1 h2 h3 (fun h => by rw [hn] at h; exact absurd h (by decide))

/-- Witness for C11: target pid 10 and the sample row of pid 10. -/
theorem target_process_scope_witness :
    (∀ e ∈ packetEvents (NetworkMonitorWindows.monitorConnections failingResolver
        { NetworkMonitorWindows.new with targetProcess := some 10 }
        [sampleListening, sampleRow]).2, e.pid = 10) ∧
      ∃ e ∈ packetEvents (NetworkMonitorWindows.monitorConnections failingResolver
          { NetworkMonitorWindows.new with targetProcess := some 10 }
          [sampleListening, sampleRow]).2, e.connection = sampleRow :=
  ⟨((target_process_scope failingResolver
      { NetworkMonitorWindows.new with targetProcess := some 10 }
      [sampleListening, sampleRow] 10 sampleRow).1 rfl (by decide)).1,
    (((target_process_scope failingResolver
      { NetworkMonitorWindows.new with targetProcess := some 10 }
      [sampleListening, sampleRow] 10 sampleRow).1 rfl (by decide)).2.1
        (by decide) (by decide) (by decide)).2 rfl⟩

theorem connectionsEvents_append (a b : List Event) :
    connectionsEvents (a ++ b) = connectionsEvents a ++ connectionsEvents b := by
  induction a with
  | nil => rfl
  | cons e rest ih => cases e <;> simp [connectionsEvents, ih]

theorem connectionEvents_append (a b : List Event) :
    connectionEvents (a ++ b) = connectionEvents a ++ connectionEvents b := by
  induction a with
  | nil => rfl
  | cons e rest ih => cases e <;> simp [connectionEvents, ih]

theorem connectionsEvents_map_connection (cs : List Conn) :
    connectionsEvents (cs.map Event.connection) = [] := by
  induction cs with
  | nil => rfl
  | cons c rest ih => simpa [connectionsEvents] using ih

theorem connectionEvents_map_connection (cs : List Conn) :
    connectionEvents (cs.map Event.connection) = cs := by
  induction cs with
  | nil => rfl
  | cons c rest ih => simp [connectionEvents, ih]

theorem forall₂_filter_of_agree {α β : Type} {R : α → β → Prop} {p : α → Bool} {q : β → Bool}
    {l1 : List α} {l2 : List β} (h : List.Forall₂ R l1 l2) (hpq : ∀ a b, R a b → p a = q b) :
    List.Forall₂ R (l1.filter p) (l2.filter q) := by
  induction h with
  | nil => exact List.Forall₂.nil
  | cons hab _ ih =>
    rename_i a b la lb hrest
    have e := hpq a b hab
    cases hq : q b
    · rw [hq] at e
      rw [List.filter_cons_of_neg (by simp [e]), List.filter_cons_of_neg (by simp [hq])]
      exact ih
    · rw [hq] at e
      rw [List.filter_cons_of_pos e, List.filter_cons_of_pos hq]
      exact List.Forall₂.cons hab ih

theorem rowAsEmitted_pid {out row : Conn} (h : rowAsEmitted out row) : out.pid = row.pid := by
  rcases h with rfl | ⟨d, rfl⟩ <;> rfl

theorem truthy_eq_some {d : Option String} (h : truthy d = true) : ∃ x, d = some x := by
  cases d with
  | none => exact absurd h (by decide)
  | some x => exact ⟨x, rfl⟩

namespace NetworkMonitorWindows

theorem detectRows_only_packets (reverse : Resolver) (S : List Conn) (m : NetworkMonitorWindows) :
    connectionsEvents (detectRows reverse m S).2 = [] ∧
      connectionEvents (detectRows reverse m S).2 = [] := by
  induction S generalizing m with
  | nil => exact ⟨rfl, rfl⟩
  | cons conn rest ih =>
    obtain ⟨d, hd⟩ := detectRow_out reverse m conn
    rw [(detectRows_cons reverse m conn rest).2, connectionsEvents_append,
      connectionEvents_append, (ih _).1, (ih _).2, hd]
    split <;> exact ⟨rfl, rfl⟩

theorem resolveRows_cons_snd (reverse : Resolver) (m : NetworkMonitorWindows) (conn : Conn)
    (rest : List Conn) :
    (resolveRows reverse m (conn :: rest)).2 =
      (if truthy (resolveDNS reverse m conn.remoteAddress).2 then
          { conn with domain := (resolveDNS reverse m conn.remoteAddress).2 }
        else conn) ::
        (resolveRows reverse (resolveDNS reverse m conn.remoteAddress).1 rest).2 :=
  rfl

theorem resolveRows_rows (reverse : Resolver) (rows : List Conn) (m : NetworkMonitorWindows) :
    List.Forall₂ rowAsEmitted (resolveRows reverse m rows).2 rows := by
  induction rows generalizing m with
  | nil => exact List.Forall₂.nil
  | cons conn rest ih =>
    rw [resolveRows_cons_snd]
    refine List.Forall₂.cons ?_ (ih _)
    split
    · rename_i h
      obtain ⟨x, hx⟩ := truthy_eq_some h
      rw [hx]
      exact Or.inr ⟨x, rfl⟩
    · exact Or.inl rfl

theorem connectionsEvents_emitConnections (m : NetworkMonitorWindows) (rows : List Conn) :
    connectionsEvents (emitConnections m rows) =
        (if targetSet m.targetProcess = true ∧
            rows.filter (fun conn => some conn.pid = m.targetProcess) = [] then []
          else if targetSet m.targetProcess = true then
            [rows.filter (fun conn => some conn.pid = m.targetProcess)]
          else [rows]) ∧
      connectionEvents (emitConnections m rows) =
        (if targetSet m.targetProcess = true then
            rows.filter (fun conn => some conn.pid = m.targetProcess)
          else rows) := by
  unfold emitConnections
  by_cases ht : targetSet m.targetProcess = true
  · simp only [ht, if_true, true_and]
    by_cases hf : rows.filter (fun conn => decide (some conn.pid = m.targetProcess)) = []
    · simp [hf, connectionsEvents, connectionEvents]
    · have hpos : 0 < (rows.filter (fun conn => decide (some conn.pid = m.targetProcess))).length :=
        List.length_pos.2 hf
      simp [hf, hpos, connectionsEvents, connectionEvents, connectionsEvents_map_connection,
        connectionEvents_map_connection]
  · simp [ht, connectionsEvents, connectionEvents, connectionsEvents_map_connection,
      connectionEvents_map_connection]

/-- The batch and the single events of one cycle, in terms of the list `L` of
rows emitted. -/
theorem monitorConnections_batches (reverse : Resolver) (m : NetworkMonitorWindows)
    (S : List Conn) :
    ∃ L, List.Forall₂ rowAsEmitted L (scopedActiveRows m.targetProcess S) ∧
      connectionEvents (monitorConnections reverse m S).2 = L ∧
      connectionsEvents (monitorConnections reverse m S).2 =
        (if targetSet m.targetProcess = true ∧ L = [] then [] else [L]) := by
  have hrows := resolveRows_rows reverse (S.filter (fun conn => activeState conn.state))
    (cleanUp (detectRows reverse m S).1 S)
  have htarget := monitorConnections_target reverse m S
  rw [monitorConnections_eq] at htarget
  simp only at htarget
  obtain ⟨h1, h2⟩ := connectionsEvents_emitConnections
    (resolveRows reverse (cleanUp (detectRows reverse m S).1 S)
      (S.filter (fun conn => activeState conn.state))).1
    (resolveRows reverse (cleanUp (detectRows reverse m S).1 S)
      (S.filter (fun conn => activeState conn.state))).2
  rw [htarget] at h1 h2
  rw [monitorConnections_eq]
  simp only [connectionsEvents_append, connectionEvents_append,
    (detectRows_only_packets reverse S m).1, (detectRows_only_packets reverse S m).2,
    List.nil_append, h1, h2]
  by_cases ht : targetSet m.targetProcess = true
  · refine ⟨_, ?_, by rw [if_pos ht], ?_⟩
    · unfold scopedActiveRows
      rw [if_pos ht]
      apply forall₂_filter_of_agree hrows
      intro a b hab
      rw [rowAsEmitted_pid hab]
    · simp only [ht, true_and, if_true]
  · refine ⟨_, ?_, by rw [if_neg ht], ?_⟩
    · unfold scopedActiveRows
      simp only [ht, Bool.false_eq_true, if_false]
      exact hrows
    · simp [ht]

end NetworkMonitorWindows

/-- The filter that builds `activeConnections` names exactly the four states
ESTABLISHED, CLOSE_WAIT, FIN_WAIT_1 and FIN_WAIT_2. -/
theorem activeState_iff (state : String) :
    activeState state = true ↔
      (state = "ESTABLISHED" ∨ state = "CLOSE_WAIT" ∨ state = "FIN_WAIT_1" ∨
        state = "FIN_WAIT_2") := by
  simp [activeState, or_assoc]

/-- The rows a batch is built from, as one filter of the snapshot that names
the four states and the target pid. -/
theorem scopedActiveRows_eq_filter (target : Option Nat) (S : List Conn) :
    scopedActiveRows target S =
      S.filter (fun row =>
        decide ((row.state = "ESTABLISHED" ∨ row.state = "CLOSE_WAIT" ∨
            row.state = "FIN_WAIT_1" ∨ row.state = "FIN_WAIT_2") ∧
          (targetSet target = true → some row.pid = target))) := by
  unfold scopedActiveRows
  by_cases ht : targetSet target = true
  · rw [if_pos ht, List.filter_filter]
    apply List.filter_congr
    intro row _
    rw [Bool.eq_iff_iff]
    simp only [Bool.and_eq_true, decide_eq_true_eq, activeState_iff]
    tauto
  · rw [if_neg ht]
    apply List.filter_congr
    intro row _
    rw [Bool.eq_iff_iff]
    simp only [decide_eq_true_eq, activeState_iff]
    tauto

/-- C12. Active-connection batch contents: the list carried by a
`connections` event of a `monitorConnections` cycle is, row for row and in
snapshot order, the sub-list of the snapshot made of the rows whose state is
ESTABLISHED, CLOSE_WAIT, FIN_WAIT_1 or FIN_WAIT_2 and, in single-process
scope, whose pid is the target pid (each row as it is in the snapshot, or
with the `domain` property the resolving loop has written on it); and the
single `connection` events of the cycle are that same list, one per element
and in the same order. -/
theorem active_batch_contents (reverse : Resolver) (m : NetworkMonitorWindows) (S : List Conn) :
    (∀ l ∈ connectionsEvents (NetworkMonitorWindows.monitorConnections reverse m S).2,
        List.Forall₂ rowAsEmitted l
            (S.filter (fun row =>
              decide ((row.state = "ESTABLISHED" ∨ row.state = "CLOSE_WAIT" ∨
                  row.state = "FIN_WAIT_1" ∨ row.state = "FIN_WAIT_2") ∧
                (targetSet m.targetProcess = true → some row.pid = m.targetProcess)))) ∧
          connectionEvents (NetworkMonitorWindows.monitorConnections reverse m S).2 = l) ∧
      List.Forall₂ rowAsEmitted
        (connectionEvents (NetworkMonitorWindows.monitorConnections reverse m S).2)
        (S.filter (fun row =>
          decide ((row.state = "ESTABLISHED" ∨ row.state = "CLOSE_WAIT" ∨
              row.state = "FIN_WAIT_1" ∨ row.state = "FIN_WAIT_2") ∧
            (targetSet m.targetProcess = true → some row.pid = m.targetProcess)))) := by
  obtain ⟨L, h1, h2, h3⟩ := NetworkMonitorWindows.monitorConnections_batches reverse m S
  rw [scopedActiveRows_eq_filter] at h1
  refine ⟨?_, by rw [h2]; exact h1⟩
  intro l hl
  rw [h3] at hl
  split at hl
  · simp at hl
  · simp only [List.mem_singleton] at hl
    subst hl
    exact ⟨h1, h2⟩

/-- The batches of C12 on the sample snapshot, which holds one row in each of
seven states and whose lookups all fail. In global scope the cycle emits one
batch, made of the four rows in state ESTABLISHED, CLOSE_WAIT, FIN_WAIT_1 and
FIN_WAIT_2 in snapshot order (the LISTENING, TIME_WAIT and SYN_SENT rows are
left out), and the single events carry the same rows; with target pid 20 the
batch is the one CLOSE_WAIT row owned by pid 20. The last part is the
theorem at that snapshot. -/
theorem active_batch_contents_witness :
    connectionsEvents
        (NetworkMonitorWindows.monitorConnections failingResolver NetworkMonitorWindows.new
          sampleSnapshot).2 =
        [[sampleRow, sampleCloseWait, sampleFinWait1, sampleFinWait2]] ∧
      connectionEvents
        (NetworkMonitorWindows.monitorConnections failingResolver NetworkMonitorWindows.new
          sampleSnapshot).2 = [sampleRow, sampleCloseWait, sampleFinWait1, sampleFinWait2] ∧
      connectionsEvents
        (NetworkMonitorWindows.monitorConnections failingResolver
          { NetworkMonitorWindows.new with targetProcess := some 20 } sampleSnapshot).2 =
        [[sampleCloseWait]] ∧
      sampleSnapshot.filter (fun row =>
          decide ((row.state = "ESTABLISHED" ∨ row.state = "CLOSE_WAIT" ∨
              row.state = "FIN_WAIT_1" ∨ row.state = "FIN_WAIT_2") ∧
            (targetSet NetworkMonitorWindows.new.targetProcess = true →
              some row.pid = NetworkMonitorWindows.new.targetProcess))) =
        [sampleRow, sampleCloseWait, sampleFinWait1, sampleFinWait2] ∧
      List.Forall₂ rowAsEmitted
        (connectionEvents
          (NetworkMonitorWindows.monitorConnections failingResolver NetworkMonitorWindows.new
            sampleSnapshot).2)
        (sampleSnapshot.filter (fun row =>
          decide ((row.state = "ESTABLISHED" ∨ row.state = "CLOSE_WAIT" ∨
              row.state = "FIN_WAIT_1" ∨ row.state = "FIN_WAIT_2") ∧
            (targetSet NetworkMonitorWindows.new.targetProcess = true →
              some row.pid = NetworkMonitorWindows.new.targetProcess)))) :=
  ⟨by decide, by decide, by decide, by decide,
    (active_batch_contents failingResolver NetworkMonitorWindows.new sampleSnapshot).2⟩

/-- C13 as stated fails in single-process scope: with target pid 99 and a
snapshot whose only row is owned by pid 10, the cycle emits no `connections`
event at all (rather than one carrying the empty list). -/
theorem batch_each_cycle_counterexample :
    connectionsEvents
        (NetworkMonitorWindows.monitorConnections failingResolver
          { NetworkMonitorWindows.new with targetProcess := some 99 } [sampleRow]).2 = [] ∧
      scopedActiveRows (some 99) [sampleRow] = [] := by
  decide

/-- C13, amended. In global scope every `monitorConnections` cycle emits
exactly one `connections` event, carrying the empty list when no row of the
snapshot is active. In single-process scope the cycle emits exactly one
`connections` event when some active row of the snapshot is owned by the
target pid, and no `connections` event when there is none. -/
theorem batch_each_cycle (reverse : Resolver) (m : NetworkMonitorWindows) (S : List Conn) :
    (targetSet m.targetProcess = false →
        ∃ l, connectionsEvents (NetworkMonitorWindows.monitorConnections reverse m S).2 = [l] ∧
          (scopedActiveRows m.targetProcess S = [] → l = [])) ∧
      (targetSet m.targetProcess = true → scopedActiveRows m.targetProcess S ≠ [] →
        ∃ l, connectionsEvents (NetworkMonitorWindows.monitorConnections reverse m S).2 = [l]) ∧
      (targetSet m.targetProcess = true → scopedActiveRows m.targetProcess S = [] →
        connectionsEvents (NetworkMonitorWindows.monitorConnections reverse m S).2 = []) := by
  obtain ⟨L, h1, -, h3⟩ := NetworkMonitorWindows.monitorConnections_batches reverse m S
  have hnil : scopedActiveRows m.targetProcess S = [] → L = [] := by
    intro h
    rw [h] at h1
    exact List.forall₂_nil_right_iff.1 h1
  have hne : scopedActiveRows m.targetProcess S ≠ [] → L ≠ [] := by
    intro h hL
    rw [hL] at h1
    exact h (List.forall₂_nil_left_iff.1 h1)
  refine ⟨?_, ?_, ?_⟩
  · intro ht
    refine ⟨L, ?_, hnil⟩
    rw [h3, if_neg]
    rintro ⟨h, -⟩
    rw [ht] at h
    exact absurd h (by decide)
  · intro ht h
    refine ⟨L, ?_⟩
    rw [h3, if_neg]
    rintro ⟨-, hL⟩
    exact hne h hL
  · intro ht h
    rw [h3, if_pos ⟨ht, hnil h⟩]

/-- Witness for C13, amended: global scope, with the sample row. -/
theorem batch_each_cycle_witness :
    ∃ l, connectionsEvents
        (NetworkMonitorWindows.monitorConnections failingResolver NetworkMonitorWindows.new
          [sampleRow]).2 = [l] ∧
      (scopedActiveRows NetworkMonitorWindows.new.targetProcess [sampleRow] = [] → l = []) :=
  (batch_each_cycle failingResolver NetworkMonitorWindows.new [sampleRow]).1 rfl

/-! ## The DNS cache -/

theorem mapGet_mapSet_self {κ β : Type} [DecidableEq κ] (l : List (κ × β)) (k : κ) (v : β) :
    mapGet (mapSet l k v) k = some v := by
  induction l with
  | nil => simp [mapSet, mapGet]
  | cons e rest ih =>
    obtain ⟨a, b⟩ := e
    by_cases h : a = k
    · simp [mapSet, mapGet, h]
    · simp [mapSet, mapGet, h, ih]

theorem mapGet_mapSet_other {κ β : Type} [DecidableEq κ] (l : List (κ × β)) (k k2 : κ) (v : β)
    (hne : k2 ≠ k) : mapGet (mapSet l k v) k2 = mapGet l k2 := by
  induction l with
  | nil =>
    have : ¬ k = k2 := fun e => hne e.symm
    simp [mapSet, mapGet, this]
  | cons e rest ih =>
    obtain ⟨a, b⟩ := e
    by_cases h : a = k
    · subst h
      have : ¬ a = k2 := fun e => hne e.symm
      simp [mapSet, mapGet, this]
    · by_cases h2 : a = k2
      · subst h2
        simp [mapSet, mapGet, h]
      · simp [mapSet, mapGet, h, h2, ih]

theorem mapSet_of_not_has {κ β : Type} [DecidableEq κ] (l : List (κ × β)) (k : κ) (v : β)
    (h : mapHas l k = false) : mapSet l k v = l ++ [(k, v)] := by
  induction l with
  | nil => rfl
  | cons e rest ih =>
    obtain ⟨a, b⟩ := e
    by_cases hk : a = k
    · simp [mapHas, hk] at h
    · simp only [mapHas, hk, if_false] at h
      simp [mapSet, hk, ih h]

theorem mapHas_mapSet_self {κ β : Type} [DecidableEq κ] (l : List (κ × β)) (k : κ) (v : β) :
    mapHas (mapSet l k v) k = true := by
  rw [mapHas_iff, mem_keys_mapSet]
  exact Or.inl rfl

theorem mapGet_of_has {κ β : Type} [DecidableEq κ] (l : List (κ × β)) (k : κ)
    (h : mapHas l k = true) : ∃ v, mapGet l k = some v := by
  induction l with
  | nil => simp [mapHas] at h
  | cons e rest ih =>
    obtain ⟨a, b⟩ := e
    by_cases hk : a = k
    · exact ⟨b, by simp [mapGet, hk]⟩
    · simp only [mapHas, hk, if_false] at h
      obtain ⟨v, hv⟩ := ih h
      exact ⟨v, by simp [mapGet, hk, hv]⟩

namespace NetworkMonitorWindows

theorem resolveDNS_hit (reverse : Resolver) (m : NetworkMonitorWindows) (ip : String)
    (h : mapHas m.dnsCache ip = true) :
    resolveDNS reverse m ip = (m, mapGet m.dnsCache ip) := by
  unfold resolveDNS
  rw [if_pos h]

theorem resolveDNS_success (reverse : Resolver) (m : NetworkMonitorWindows) (ip : String)
    (h : mapHas m.dnsCache ip = false) (hostname : String) (others : List String)
    (hr : reverse m.lookups ip = some (hostname :: others)) :
    resolveDNS reverse m ip =
      ({ m with lookups := ip :: m.lookups, dnsCache := mapSet m.dnsCache ip hostname },
        some hostname) := by
  unfold resolveDNS
  rw [if_neg (by simp [h])]
  simp only [hr]

theorem resolveDNS_failure (reverse : Resolver) (m : NetworkMonitorWindows) (ip : String)
    (h : mapHas m.dnsCache ip = false)
    (hr : reverse m.lookups ip = none ∨ reverse m.lookups ip = some []) :
    resolveDNS reverse m ip = ({ m with lookups := ip :: m.lookups }, none) := by
  unfold resolveDNS
  rw [if_neg (by simp [h])]
  rcases hr with hr | hr <;> simp only [hr]

/-- After a failed lookup the address is still absent from the cache, so the
next call looks it up again. -/
theorem resolveDNS_retry (reverse : Resolver) (m : NetworkMonitorWindows) (ip : String)
    (h : mapHas m.dnsCache ip = false)
    (hr : reverse m.lookups ip = none ∨ reverse m.lookups ip = some []) :
    (resolveDNS reverse (resolveDNS reverse m ip).1 ip).1.lookups = ip :: ip :: m.lookups := by
  rw [resolveDNS_failure reverse m ip h hr]
  unfold resolveDNS
  rw [if_neg (by simp [h])]
  dsimp only
  split <;> rfl

end NetworkMonitorWindows

namespace NetworkMonitor

theorem capture_resolveDNS_hit (reverse : Resolver) (m : NetworkMonitor) (ip : String)
    (h : mapHas m.dnsCache ip = true) :
    resolveDNS reverse m ip = (m, mapGet m.dnsCache ip) := by
  unfold resolveDNS
  rw [if_pos h]

theorem capture_resolveDNS_success (reverse : Resolver) (m : NetworkMonitor) (ip : String)
    (h : mapHas m.dnsCache ip = false) (hostname : String) (others : List String)
    (hr : reverse m.lookups ip = some (hostname :: others)) :
    resolveDNS reverse m ip =
      ({ m with lookups := ip :: m.lookups, dnsCache := mapSet m.dnsCache ip hostname },
        some hostname) := by
  unfold resolveDNS
  rw [if_neg (by simp [h])]
  simp only [hr]

theorem capture_resolveDNS_failure (reverse : Resolver) (m : NetworkMonitor) (ip : String)
    (h : mapHas m.dnsCache ip = false)
    (hr : reverse m.lookups ip = none ∨ reverse m.lookups ip = some []) :
    resolveDNS reverse m ip = ({ m with lookups := ip :: m.lookups }, none) := by
  unfold resolveDNS
  rw [if_neg (by simp [h])]
  rcases hr with hr | hr <;> simp only [hr]

theorem capture_resolveDNS_retry (reverse : Resolver) (m : NetworkMonitor) (ip : String)
    (h : mapHas m.dnsCache ip = false)
    (hr : reverse m.lookups ip = none ∨ reverse m.lookups ip = some []) :
    (resolveDNS reverse (resolveDNS reverse m ip).1 ip).1.lookups = ip :: ip :: m.lookups := by
  rw [capture_resolveDNS_failure reverse m ip h hr]
  unfold resolveDNS
  rw [if_neg (by simp [h])]
  dsimp only
  split <;> rfl

end NetworkMonitor

/-- C14. DNS cache contract, for `resolveDNS` of both monitors. (a) On a
cache hit the call returns the cached name and leaves the whole state as it
was, the record of lookups included: the resolver is not called. (b) On a
miss where the lookup yields a non-empty list, the first host name is
returned and stored under the address at the end of the cache, every other
entry reading as before, and one lookup is recorded. (c) On a miss where the
lookup rejects or yields the empty list, the call returns `null`, the cache
is unchanged, and the next call for the address performs a lookup again. -/
theorem dns_cache_contract (reverse : Resolver) (w : NetworkMonitorWindows) (n : NetworkMonitor)
    (ip : String) :
    ((mapHas w.dnsCache ip = true →
          NetworkMonitorWindows.resolveDNS reverse w ip = (w, mapGet w.dnsCache ip) ∧
            ∃ name, mapGet w.dnsCache ip = some name) ∧
        (mapHas w.dnsCache ip = false → ∀ hostname others,
          reverse w.lookups ip = some (hostname :: others) →
            (NetworkMonitorWindows.resolveDNS reverse w ip).2 = some hostname ∧
              (NetworkMonitorWindows.resolveDNS reverse w ip).1.dnsCache =
                w.dnsCache ++ [(ip, hostname)] ∧
              mapGet (NetworkMonitorWindows.resolveDNS reverse w ip).1.dnsCache ip =
                some hostname ∧
              (∀ ip2, ip2 ≠ ip →
                mapGet (NetworkMonitorWindows.resolveDNS reverse w ip).1.dnsCache ip2 =
                  mapGet w.dnsCache ip2) ∧
              (NetworkMonitorWindows.resolveDNS reverse w ip).1.lookups = ip :: w.lookups) ∧
        (mapHas w.dnsCache ip = false →
          (reverse w.lookups ip = none ∨ reverse w.lookups ip = some []) →
            (NetworkMonitorWindows.resolveDNS reverse w ip).2 = none ∧
              (NetworkMonitorWindows.resolveDNS reverse w ip).1.dnsCache = w.dnsCache ∧
              (NetworkMonitorWindows.resolveDNS reverse w ip).1.lookups = ip :: w.lookups ∧
              (NetworkMonitorWindows.resolveDNS reverse
                (NetworkMonitorWindows.resolveDNS reverse w ip).1 ip).1.lookups =
                  ip :: ip :: w.lookups)) ∧
      ((mapHas n.dnsCache ip = true →
          NetworkMonitor.resolveDNS reverse n ip = (n, mapGet n.dnsCache ip) ∧
            ∃ name, mapGet n.dnsCache ip = some name) ∧
        (mapHas n.dnsCache ip = false → ∀ hostname others,
          reverse n.lookups ip = some (hostname :: others) →
            (NetworkMonitor.resolveDNS reverse n ip).2 = some hostname ∧
              (NetworkMonitor.resolveDNS reverse n ip).1.dnsCache =
                n.dnsCache ++ [(ip, hostname)] ∧
              mapGet (NetworkMonitor.resolveDNS reverse n ip).1.dnsCache ip = some hostname ∧
              (∀ ip2, ip2 ≠ ip →
                mapGet (NetworkMonitor.resolveDNS reverse n ip).1.dnsCache ip2 =
                  mapGet n.dnsCache ip2) ∧
              (NetworkMonitor.resolveDNS reverse n ip).1.lookups = ip :: n.lookups) ∧
        (mapHas n.dnsCache ip = false →
          (reverse n.lookups ip = none ∨ reverse n.lookups ip = some []) →
            (NetworkMonitor.resolveDNS reverse n ip).2 = none ∧
              (NetworkMonitor.resolveDNS reverse n ip).1.dnsCache = n.dnsCache ∧
              (NetworkMonitor.resolveDNS reverse n ip).1.lookups = ip :: n.lookups ∧
              (NetworkMonitor.resolveDNS reverse
                (NetworkMonitor.resolveDNS reverse n ip).1 ip).1.lookups =
                  ip :: ip :: n.lookups)) := by
  refine ⟨⟨?_, ?_, ?_⟩, ⟨?_, ?_, ?_⟩⟩
  · intro h
    exact ⟨NetworkMonitorWindows.resolveDNS_hit reverse w ip h, mapGet_of_has _ _ h⟩
  · intro h hostname others hr
    rw [NetworkMonitorWindows.resolveDNS_success reverse w ip h hostname others hr]
    exact ⟨rfl, mapSet_of_not_has _ _ _ h, mapGet_mapSet_self _ _ _,
      fun ip2 hne => mapGet_mapSet_other _ _ _ _ hne, rfl⟩
  · intro h hr
    refine ⟨?_, ?_, ?_, NetworkMonitorWindows.resolveDNS_retry reverse w ip h hr⟩ <;>
      rw [NetworkMonitorWindows.resolveDNS_failure reverse w ip h hr]
  · intro h
    exact ⟨NetworkMonitor.capture_resolveDNS_hit reverse n ip h, mapGet_of_has _ _ h⟩
  · intro h hostname others hr
    rw [NetworkMonitor.capture_resolveDNS_success reverse n ip h hostname others hr]
    exact ⟨rfl, mapSet_of_not_has _ _ _ h, mapGet_mapSet_self _ _ _,
      fun ip2 hne => mapGet_mapSet_other _ _ _ _ hne, rfl⟩
  · intro h hr
    refine ⟨?_, ?_, ?_, NetworkMonitor.capture_resolveDNS_retry reverse n ip h hr⟩ <;>
      rw [NetworkMonitor.capture_resolveDNS_failure reverse n ip h hr]

/-- Witness for C14: a miss on an empty cache with the stub resolver, which
answers `dns.google`. -/
theorem dns_cache_contract_witness :
    (NetworkMonitorWindows.resolveDNS onceResolver NetworkMonitorWindows.new "8.8.8.8").2 =
        some "dns.google" ∧
      (NetworkMonitorWindows.resolveDNS onceResolver NetworkMonitorWindows.new
        "8.8.8.8").1.dnsCache = [("8.8.8.8", "dns.google")] :=
  ⟨((dns_cache_contract onceResolver NetworkMonitorWindows.new
      { isRunning := false, dnsCache := [], targetProcess := none, lookups := [] }
      "8.8.8.8").1.2.1 rfl "dns.google" [] rfl).1,
    ((dns_cache_contract onceResolver NetworkMonitorWindows.new
      { isRunning := false, dnsCache := [], targetProcess := none, lookups := [] }
      "8.8.8.8").1.2.1 rfl "dns.google" [] rfl).2.1⟩

/-- C15 as stated fails: when the lookup fails nothing is cached, so resolving
the same address twice in succession performs two underlying lookups. -/
theorem dns_memoization_counterexample :
    (NetworkMonitorWindows.resolveDNS failingResolver
        (NetworkMonitorWindows.resolveDNS failingResolver NetworkMonitorWindows.new
          "8.8.8.8").1 "8.8.8.8").1.lookups = ["8.8.8.8", "8.8.8.8"] ∧
      NetworkMonitorWindows.new.lookups = [] := by
  decide

/-- C15, amended. Resolving the same address twice in succession performs at
most one underlying lookup, and both calls return the same name, whenever the
first call finds the address cached or its lookup yields a non-empty list;
when the first lookup rejects or yields the empty list, the second call looks
up again (two lookups). With the stub that answers `dns.google` once and fails
afterwards, both calls for 8.8.8.8 return `dns.google` and one lookup is
made. -/
theorem dns_memoization (reverse : Resolver) (m : NetworkMonitorWindows) (ip : String) :
    ((mapHas m.dnsCache ip = true ∨
          ∃ hostname others, reverse m.lookups ip = some (hostname :: others)) →
        (NetworkMonitorWindows.resolveDNS reverse
            (NetworkMonitorWindows.resolveDNS reverse m ip).1 ip).1.lookups.length ≤
            m.lookups.length + 1 ∧
          (NetworkMonitorWindows.resolveDNS reverse
            (NetworkMonitorWindows.resolveDNS reverse m ip).1 ip).2 =
            (NetworkMonitorWindows.resolveDNS reverse m ip).2 ∧
          ∃ name, (NetworkMonitorWindows.resolveDNS reverse m ip).2 = some name) ∧
      (mapHas m.dnsCache ip = false →
        (reverse m.lookups ip = none ∨ reverse m.lookups ip = some []) →
          (NetworkMonitorWindows.resolveDNS reverse
            (NetworkMonitorWindows.resolveDNS reverse m ip).1 ip).1.lookups =
            ip :: ip :: m.lookups) ∧
      ((NetworkMonitorWindows.resolveDNS onceResolver NetworkMonitorWindows.new "8.8.8.8").2 =
          some "dns.google" ∧
        (NetworkMonitorWindows.resolveDNS onceResolver
          (NetworkMonitorWindows.resolveDNS onceResolver NetworkMonitorWindows.new
            "8.8.8.8").1 "8.8.8.8").2 = some "dns.google" ∧
        (NetworkMonitorWindows.resolveDNS onceResolver
          (NetworkMonitorWindows.resolveDNS onceResolver NetworkMonitorWindows.new
            "8.8.8.8").1 "8.8.8.8").1.lookups = ["8.8.8.8"]) := by
  refine ⟨?_, NetworkMonitorWindows.resolveDNS_retry reverse m ip, by decide⟩
  intro h
  by_cases hc : mapHas m.dnsCache ip = true
  · rw [NetworkMonitorWindows.resolveDNS_hit reverse m ip hc]
    simp only
    rw [NetworkMonitorWindows.resolveDNS_hit reverse m ip hc]
    exact ⟨Nat.le_succ _, rfl, mapGet_of_has _ _ hc⟩
  · have hf : mapHas m.dnsCache ip = false := by simpa using hc
    rcases h with h | ⟨hostname, others, hr⟩
    · exact absurd h hc
    · rw [NetworkMonitorWindows.resolveDNS_success reverse m ip hf hostname others hr]
      simp only
      rw [NetworkMonitorWindows.resolveDNS_hit reverse _ ip (mapHas_mapSet_self _ _ _)]
      exact ⟨Nat.le_of_eq (by simp), mapGet_mapSet_self _ _ _, hostname, rfl⟩

/-- Witness for C15, amended: the stub resolver and an empty cache. -/
theorem dns_memoization_witness :
    (NetworkMonitorWindows.resolveDNS onceResolver
        (NetworkMonitorWindows.resolveDNS onceResolver NetworkMonitorWindows.new
          "8.8.8.8").1 "8.8.8.8").1.lookups.length ≤ NetworkMonitorWindows.new.lookups.length + 1 :=
  ((dns_memoization onceResolver NetworkMonitorWindows.new "8.8.8.8").1
    (Or.inr ⟨"dns.google", [], rfl⟩)).1

/-! ## The store: histograms, queries and views -/

theorem dictGet_mapSet_self {κ : Type} [DecidableEq κ] (l : List (κ × Nat)) (k : κ) (v : Nat) :
    dictGet (mapSet l k v) k = v := by
  induction l with
  | nil => simp [mapSet, dictGet]
  | cons e rest ih =>
    obtain ⟨a, b⟩ := e
    by_cases h : a = k
    · simp [mapSet, dictGet, h]
    · simp [mapSet, dictGet, h, ih]

theorem dictGet_of_not_has {κ : Type} [DecidableEq κ] (l : List (κ × Nat)) (k : κ)
    (h : mapHas l k = false) : dictGet l k = 0 := by
  induction l with
  | nil => rfl
  | cons e rest ih =>
    obtain ⟨a, b⟩ := e
    by_cases hk : a = k
    · simp [mapHas, hk] at h
    · simp only [mapHas, hk, if_false] at h
      simp [dictGet, hk, ih h]

theorem mapGet_objectSet_other (dict : List (String × JsCount)) (key key2 : String)
    (value : JsCount) (hne : key2 ≠ key) :
    mapGet (objectSet dict key value) key2 = mapGet dict key2 := by
  unfold objectSet
  split
  · rfl
  · exact mapGet_mapSet_other _ _ _ _ hne

theorem objectSet_of_plain (dict : List (String × JsCount)) (key : String) (value : JsCount)
    (hkey : key ∉ objectPrototypeNames) : objectSet dict key value = mapSet dict key value := by
  unfold objectSet
  rw [if_neg]
  rintro ⟨h, -⟩
  exact hkey (h ▸ by decide)

theorem objectSet_of_has (dict : List (String × JsCount)) (key : String) (value : JsCount)
    (hhas : mapHas dict key = true) : objectSet dict key value = mapSet dict key value := by
  unfold objectSet
  rw [if_neg]
  rintro ⟨-, h⟩
  rw [hhas] at h
  exact absurd h (by decide)

theorem mapHas_of_mapGet {κ β : Type} [DecidableEq κ] (l : List (κ × β)) (k : κ) (v : β)
    (h : mapGet l k = some v) : mapHas l k = true := by
  induction l with
  | nil => simp [mapGet] at h
  | cons e rest ih =>
    obtain ⟨a, b⟩ := e
    by_cases hk : a = k
    · simp [mapHas, hk]
    · simp only [mapGet, hk, if_false] at h
      simp only [mapHas, hk, if_false]
      exact ih h

theorem mapGet_of_not_has {κ β : Type} [DecidableEq κ] (l : List (κ × β)) (k : κ)
    (h : mapHas l k = false) : mapGet l k = none := by
  induction l with
  | nil => rfl
  | cons e rest ih =>
    obtain ⟨a, b⟩ := e
    by_cases hk : a = k
    · simp [mapHas, hk] at h
    · simp only [mapHas, hk, if_false] at h
      simp only [mapGet, hk, if_false]
      exact ih h

/-- C16. The code at the failing input: `savePacket` of an event whose
protocol is `constructor` onto a fresh store stores under that key, not 1,
but the string made of the source text of the function `Object` and the
character `1`; a second such event appends another `1` to that string; an
event whose protocol is `__proto__` stores nothing in the histogram. An event
whose protocol is `TCP` stores 1, then 2. The monitor emits an event of
protocol `constructor` for a netstat line whose first column is that word. -/
theorem histogram_update_inherited_name :
    (packetEvents
        (NetworkMonitorWindows.monitorConnections failingResolver NetworkMonitorWindows.new
          (NetworkMonitorWindows.getNetworkConnections
            (some "constructor 10.0.0.1:5000 93.1.1.1:443 TCP 10"))).2).map
        (fun e => e.protocol) = ["constructor"] ∧
      (Database.new.savePacket
        { samplePacket 1 with protocol := "constructor" }).statistics.protocols =
        [("constructor", JsCount.text "constructor" 1)] ∧
      JsCount.render (JsCount.text "constructor" 1) =
        "function Object() \x7b [native code] \x7d1" ∧
      ((Database.new.savePacket { samplePacket 1 with protocol := "constructor" }).savePacket
        { samplePacket 2 with protocol := "constructor" }).statistics.protocols =
        [("constructor", JsCount.text "constructor" 2)] ∧
      (Database.new.savePacket
        { samplePacket 1 with protocol := "__proto__" }).statistics.protocols = [] ∧
      (Database.new.savePacket { samplePacket 1 with protocol := "TCP" }).statistics.protocols =
        [("TCP", JsCount.num 1)] ∧
      ((Database.new.savePacket { samplePacket 1 with protocol := "TCP" }).savePacket
        { samplePacket 2 with protocol := "TCP" }).statistics.protocols =
        [("TCP", JsCount.num 2)] := by
  decide

/-- Histogram update on append, away from the property names of
`Object.prototype`. `savePacket p` leaves the entry of every other protocol
key, the port histogram, the connections and processes sequences and the
domain map as they were; when the count held under `p.protocol` is a number
it stores that number plus 1, and when the key is absent and is not a
property name of `Object.prototype` it stores 1. `saveConnection c` raises the
count of `c.remotePort` by exactly 1 (to 1 when the key was absent) and leaves
the entry of every other port, the protocol histogram, the packets and
processes sequences and the domain map as they were. -/
theorem histogram_update_plain (db : Database) (p : PacketInfo) (c : Conn) (protocol : String)
    (port : Nat) :
    ((∀ n, mapGet db.statistics.protocols p.protocol = some (JsCount.num n) →
          mapGet (db.savePacket p).statistics.protocols p.protocol =
            some (JsCount.num (n + 1))) ∧
        (mapGet db.statistics.protocols p.protocol = none →
          p.protocol ∉ objectPrototypeNames →
          mapGet (db.savePacket p).statistics.protocols p.protocol = some (JsCount.num 1)) ∧
        (protocol = p.protocol ∨
          mapGet (db.savePacket p).statistics.protocols protocol =
            mapGet db.statistics.protocols protocol) ∧
        (db.savePacket p).statistics.ports = db.statistics.ports ∧
        (db.savePacket p).connections = db.connections ∧
        (db.savePacket p).processes = db.processes ∧
        (db.savePacket p).domains = db.domains) ∧
      (dictGet (db.saveConnection c).statistics.ports c.remotePort =
          dictGet db.statistics.ports c.remotePort + 1 ∧
        (mapHas db.statistics.ports c.remotePort = true ∨
          dictGet (db.saveConnection c).statistics.ports c.remotePort = 1) ∧
        (port = c.remotePort ∨
          mapGet (db.saveConnection c).statistics.ports port = mapGet db.statistics.ports port) ∧
        (db.saveConnection c).statistics.protocols = db.statistics.protocols ∧
        (db.saveConnection c).packets = db.packets ∧
        (db.saveConnection c).processes = db.processes ∧
        (db.saveConnection c).domains = db.domains) := by
  refine ⟨⟨?_, ?_, ?_, rfl, rfl, rfl, rfl⟩,
    ⟨dictGet_mapSet_self _ _ _, ?_, ?_, rfl, rfl, rfl, rfl⟩⟩
  · intro n hn
    show mapGet (objectSet _ _ (incremented _ _)) _ = _
    rw [objectSet_of_has _ _ _ (mapHas_of_mapGet _ _ _ hn), mapGet_mapSet_self]
    unfold incremented
    rw [hn]
  · intro hnone hkey
    show mapGet (objectSet _ _ (incremented _ _)) _ = _
    rw [objectSet_of_plain _ _ _ hkey, mapGet_mapSet_self]
    unfold incremented
    rw [hnone]
    simp only [hkey, if_false]
  · by_cases h : protocol = p.protocol
    · exact Or.inl h
    · exact Or.inr (mapGet_objectSet_other _ _ _ _ h)
  · by_cases h : mapHas db.statistics.ports c.remotePort = true
    · exact Or.inl h
    · right
      have hf : mapHas db.statistics.ports c.remotePort = false := by simpa using h
      show dictGet (mapSet _ _ _) _ = 1
      rw [dictGet_mapSet_self, dictGet_of_not_has _ _ hf]
  · by_cases h : port = c.remotePort
    · exact Or.inl h
    · exact Or.inr (mapGet_mapSet_other _ _ _ _ h)

theorem slice_eq_take_drop {α : Type} (l : List α) (limit offset : Nat) :
    slice l offset (offset + limit) = (l.drop offset).take limit := by
  unfold slice
  rw [List.drop_take, Nat.add_sub_cancel_left]

/-- C18. Query slice: `getPackets(limit, offset)` returns the elements of the
packets sequence at indices `offset .. offset + limit - 1` that exist, in the
stored order: its element of index `i < limit` is the stored element of index
`offset + i`, it has no element of index `limit` or more, and its length is
`min limit (max 0 (length - offset))`; the store is left as it was.
`getConnections` does the same on the connections sequence. -/
theorem query_slice (db : Database) (limit offset i : Nat) :
    ((db.getPackets limit offset).2 = (db.packets.drop offset).take limit ∧
        (db.getPackets limit offset).2[i]? =
          (if i < limit then db.packets[offset + i]? else none) ∧
        (db.getPackets limit offset).2.length = min limit (max 0 (db.packets.length - offset)) ∧
        (db.getPackets limit offset).1 = db) ∧
      ((db.getConnections limit offset).2 = (db.connections.drop offset).take limit ∧
        (db.getConnections limit offset).2[i]? =
          (if i < limit then db.connections[offset + i]? else none) ∧
        (db.getConnections limit offset).2.length =
          min limit (max 0 (db.connections.length - offset)) ∧
        (db.getConnections limit offset).1 = db) := by
  have key : ∀ {α : Type} (l : List α),
      slice l offset (offset + limit) = (l.drop offset).take limit ∧
        (slice l offset (offset + limit))[i]? = (if i < limit then l[offset + i]? else none) ∧
        (slice l offset (offset + limit)).length = min limit (max 0 (l.length - offset)) := by
    intro α l
    rw [slice_eq_take_drop]
    refine ⟨rfl, ?_, ?_⟩
    · rw [List.getElem?_take, List.getElem?_drop]
    · rw [List.length_take, List.length_drop, Nat.zero_max]
  exact ⟨⟨(key db.packets).1, (key db.packets).2.1, (key db.packets).2.2, rfl⟩,
    ⟨(key db.connections).1, (key db.connections).2.1, (key db.connections).2.2, rfl⟩⟩

theorem sortByCountDesc_perm {α : Type} (count : α → Nat) (l : List α) :
    (sortByCountDesc count l).Perm l :=
  List.perm_insertionSort _ l

theorem sortByCountDesc_sorted {α : Type} (count : α → Nat) (l : List α) :
    (sortByCountDesc count l).Pairwise (fun a b => count a ≥ count b) :=
  @List.sorted_insertionSort α (fun a b => count a ≥ count b) _
    ⟨fun a b => Nat.le_total (count b) (count a)⟩
    ⟨fun _ _ _ hab hbc => Nat.le_trans hbc hab⟩ l

/-- Stability of the comparator sort: the elements of a given count keep
their relative order. -/
theorem sortByCountDesc_filter {α : Type} (count : α → Nat) (l : List α) (c : Nat) :
    (sortByCountDesc count l).filter (fun a => decide (count a = c)) =
      l.filter (fun a => decide (count a = c)) := by
  have hsub : List.Sublist (l.filter (fun a => decide (count a = c)))
      (sortByCountDesc count l) := by
    apply List.sublist_insertionSort
    · rw [List.pairwise_iff_forall_sublist]
      intro a b hab
      have ha : a ∈ l.filter (fun a => decide (count a = c)) := hab.subset (by simp)
      have hb : b ∈ l.filter (fun a => decide (count a = c)) := hab.subset (by simp)
      have ha2 : count a = c := by simpa using (List.mem_filter.1 ha).2
      have hb2 : count b = c := by simpa using (List.mem_filter.1 hb).2
      show count a ≥ count b
      rw [ha2, hb2]
    · exact List.filter_sublist l
  have hsub2 := hsub.filter (fun a => decide (count a = c))
  rw [List.filter_filter] at hsub2
  simp only [Bool.and_self] at hsub2
  have hlen : (l.filter (fun a => decide (count a = c))).length =
      ((sortByCountDesc count l).filter (fun a => decide (count a = c))).length :=
    ((sortByCountDesc_perm count l).filter _).length_eq.symm
  exact (hsub2.eq_of_length hlen).symm

theorem sortByJsCountDesc_perm {α : Type} (count : α → JsCount) (l : List α) :
    (sortByJsCountDesc count l).Perm l :=
  List.perm_insertionSort _ l

/-- Stability of the comparator sort on `JsCount` counts: the elements whose
count is a given number keep their relative order. -/
theorem sortByJsCountDesc_filter {α : Type} (count : α → JsCount) (l : List α) (c : Nat) :
    (sortByJsCountDesc count l).filter (fun a => decide (count a = JsCount.num c)) =
      l.filter (fun a => decide (count a = JsCount.num c)) := by
  have hsub : List.Sublist (l.filter (fun a => decide (count a = JsCount.num c)))
      (sortByJsCountDesc count l) := by
    apply List.sublist_insertionSort
    · rw [List.pairwise_iff_forall_sublist]
      intro a b hab
      have ha : a ∈ l.filter (fun a => decide (count a = JsCount.num c)) := hab.subset (by simp)
      have hb : b ∈ l.filter (fun a => decide (count a = JsCount.num c)) := hab.subset (by simp)
      have ha2 : count a = JsCount.num c := by simpa using (List.mem_filter.1 ha).2
      have hb2 : count b = JsCount.num c := by simpa using (List.mem_filter.1 hb).2
      show (count a).notBelow (count b) = true
      rw [ha2, hb2]
      simp [JsCount.notBelow]
    · exact List.filter_sublist l
  have hsub2 := hsub.filter (fun a => decide (count a = JsCount.num c))
  rw [List.filter_filter] at hsub2
  simp only [Bool.and_self] at hsub2
  have hlen : (l.filter (fun a => decide (count a = JsCount.num c))).length =
      ((sortByJsCountDesc count l).filter (fun a => decide (count a = JsCount.num c))).length :=
    ((sortByJsCountDesc_perm count l).filter _).length_eq.symm
  exact (hsub2.eq_of_length hlen).symm

theorem orderedInsert_congr {α : Type} (r r2 : α → α → Prop) [DecidableRel r] [DecidableRel r2]
    (a : α) (l : List α) (h : ∀ b ∈ l, (r a b ↔ r2 a b)) :
    l.orderedInsert r a = l.orderedInsert r2 a := by
  induction l with
  | nil => rfl
  | cons b rest ih =>
    have hb := h b (List.mem_cons_self b rest)
    have hrest := ih (fun x hx => h x (List.mem_cons_of_mem b hx))
    by_cases hr : r a b
    · simp only [List.orderedInsert, if_pos hr, if_pos (hb.1 hr)]
    · simp only [List.orderedInsert, if_neg hr, if_neg (fun h2 => hr (hb.2 h2)), hrest]

theorem insertionSort_congr {α : Type} (r r2 : α → α → Prop) [DecidableRel r] [DecidableRel r2]
    (l : List α) (h : ∀ a ∈ l, ∀ b ∈ l, (r a b ↔ r2 a b)) :
    l.insertionSort r = l.insertionSort r2 := by
  induction l with
  | nil => rfl
  | cons a rest ih =>
    have hrest := ih (fun x hx y hy => h x (List.mem_cons_of_mem a hx) y
      (List.mem_cons_of_mem a hy))
    show (rest.insertionSort r).orderedInsert r a = (rest.insertionSort r2).orderedInsert r2 a
    rw [hrest]
    apply orderedInsert_congr
    intro b hb
    exact h a (List.mem_cons_self a rest) b
      (List.mem_cons_of_mem a ((List.perm_insertionSort r2 rest).mem_iff.1 hb))

/-- On entries whose counts are all numbers the comparator sort is the stable
sort by descending number, and its result is ordered by `>=`. -/
theorem sortByJsCountDesc_of_numeric {α : Type} (count : α → JsCount) (l : List α)
    (h : ∀ a ∈ l, ∃ n, count a = JsCount.num n) :
    sortByJsCountDesc count l = sortByCountDesc (fun a => (count a).value) l ∧
      (sortByJsCountDesc count l).Pairwise (fun a b => (count a).ge (count b) = true) := by
  have heq : sortByJsCountDesc count l = sortByCountDesc (fun a => (count a).value) l := by
    unfold sortByJsCountDesc sortByCountDesc
    apply insertionSort_congr
    intro a ha b hb
    obtain ⟨x, hx⟩ := h a ha
    obtain ⟨y, hy⟩ := h b hb
    show (count a).notBelow (count b) = true ↔ (count a).value ≥ (count b).value
    rw [hx, hy]
    simp [JsCount.notBelow, JsCount.value]
  refine ⟨heq, ?_⟩
  rw [heq]
  have hsorted := sortByCountDesc_sorted (fun a => (count a).value) l
  apply hsorted.imp_of_mem
  intro a b ha hb hab
  obtain ⟨x, hx⟩ := h a ((sortByCountDesc_perm _ l).mem_iff.1 ha)
  obtain ⟨y, hy⟩ := h b ((sortByCountDesc_perm _ l).mem_iff.1 hb)
  rw [hx, hy] at hab ⊢
  simpa [JsCount.ge, JsCount.value] using hab

theorem objectEntries_perm {β : Type} (dict : List (String × β)) :
    (objectEntries dict).Perm dict := by
  unfold objectEntries
  have e : (fun e : String × β => (arrayIndex? e.1).isNone) =
      (fun e => !(arrayIndex? e.1).isSome) := by
    funext e
    cases arrayIndex? e.1 <;> rfl
  rw [e]
  exact ((List.perm_insertionSort _ _).append_right _).trans (List.filter_append_perm _ dict)

theorem objectEntriesNat_perm (dict : List (Nat × Nat)) : (objectEntriesNat dict).Perm dict := by
  unfold objectEntriesNat
  exact ((List.perm_insertionSort _ _).append_right _).trans (List.filter_append_perm _ dict)

theorem objectEntries_of_no_index {β : Type} (dict : List (String × β))
    (h : ∀ e ∈ dict, arrayIndex? e.1 = none) : objectEntries dict = dict := by
  unfold objectEntries
  have h1 : dict.filter (fun e => (arrayIndex? e.1).isSome) = [] := by
    rw [List.filter_eq_nil_iff]
    intro e he
    simp [h e he]
  have h2 : dict.filter (fun e => (arrayIndex? e.1).isNone) = dict := by
    rw [List.filter_eq_self]
    intro e he
    simp [h e he]
  rw [h1, h2]
  rfl

theorem objectEntriesNat_of_index (dict : List (Nat × Nat))
    (h : ∀ e ∈ dict, e.1 < 4294967295) :
    objectEntriesNat dict = dict.insertionSort (fun a b => a.1 ≤ b.1) := by
  unfold objectEntriesNat
  have h1 : dict.filter (fun e => decide (e.1 < 4294967295)) = dict := by
    rw [List.filter_eq_self]
    intro e he
    simpa using h e he
  have h2 : dict.filter (fun e => !decide (e.1 < 4294967295)) = [] := by
    rw [List.filter_eq_nil_iff]
    intro e he
    simpa using h e he
  rw [h1, h2, List.append_nil]

theorem keys_mapSet {κ β : Type} [DecidableEq κ] (l : List (κ × β)) (k : κ) (v : β) :
    (mapSet l k v).map Prod.fst =
      if mapHas l k = true then l.map Prod.fst else l.map Prod.fst ++ [k] := by
  induction l with
  | nil => simp [mapSet, mapHas]
  | cons e rest ih =>
    obtain ⟨a, b⟩ := e
    by_cases h : a = k
    · simp [mapSet, mapHas, h]
    · simp only [mapSet, mapHas, h, if_false, List.map_cons, ih]
      split <;> rfl

theorem nodup_keys_mapSet {κ β : Type} [DecidableEq κ] (l : List (κ × β)) (k : κ) (v : β)
    (h : (l.map Prod.fst).Nodup) : ((mapSet l k v).map Prod.fst).Nodup := by
  rw [keys_mapSet]
  split
  · exact h
  · rename_i hk
    have hk2 : k ∉ l.map Prod.fst := by
      rw [← mapHas_iff]
      exact hk
    rw [List.nodup_append]
    refine ⟨h, List.nodup_singleton k, ?_⟩
    intro a ha hb
    rw [List.mem_singleton] at hb
    exact hk2 (hb ▸ ha)

/-- In a dictionary with distinct keys, the entries under a key are the one
entry holding its count, or none. -/
theorem filter_key_of_nodup {κ : Type} [DecidableEq κ] (l : List (κ × Nat)) (k : κ)
    (h : (l.map Prod.fst).Nodup) :
    l.filter (fun e => decide (e.1 = k)) =
      if mapHas l k = true then [(k, dictGet l k)] else [] := by
  induction l with
  | nil => simp [mapHas]
  | cons e rest ih =>
    obtain ⟨a, b⟩ := e
    rw [List.map_cons, List.nodup_cons] at h
    by_cases hk : a = k
    · subst hk
      have hrest : rest.filter (fun e => decide (e.1 = a)) = [] := by
        rw [List.filter_eq_nil_iff]
        intro e he
        have : e.1 ≠ a := fun hea => h.1 (List.mem_map.2 ⟨e, he, hea⟩)
        simpa using this
      simp [mapHas, dictGet, List.filter_cons, hrest]
    · simp only [mapHas, dictGet, hk, if_false, List.filter_cons, decide_False,
        Bool.false_eq_true]
      exact ih h.2

/-- In a dictionary with distinct keys, the entries under a key are the one
entry holding its value, or none. -/
theorem filter_key_of_nodup_get {κ β : Type} [DecidableEq κ] (l : List (κ × β)) (k : κ)
    (h : (l.map Prod.fst).Nodup) :
    l.filter (fun e => decide (e.1 = k)) = (mapGet l k).toList.map (fun v => (k, v)) := by
  induction l with
  | nil => simp [mapGet]
  | cons e rest ih =>
    obtain ⟨a, b⟩ := e
    rw [List.map_cons, List.nodup_cons] at h
    by_cases hk : a = k
    · subst hk
      have hrest : rest.filter (fun e => decide (e.1 = a)) = [] := by
        rw [List.filter_eq_nil_iff]
        intro e he
        have : e.1 ≠ a := fun hea => h.1 (List.mem_map.2 ⟨e, he, hea⟩)
        simpa using this
      simp [mapGet, List.filter_cons, hrest]
    · simp only [mapGet, hk, if_false, List.filter_cons, decide_False, Bool.false_eq_true]
      exact ih h.2

theorem nodup_keys_objectSet (l : List (String × JsCount)) (k : String) (v : JsCount)
    (h : (l.map Prod.fst).Nodup) : ((objectSet l k v).map Prod.fst).Nodup := by
  unfold objectSet
  split
  · exact h
  · exact nodup_keys_mapSet _ _ _ h

namespace Database

theorem distinctKeys_step (db : Database) (op : Op) (h : DistinctKeys db) :
    DistinctKeys (db.step op) := by
  obtain ⟨hd, hp, hq⟩ := h
  cases op with
  | savePacket p => exact ⟨hd, nodup_keys_objectSet _ _ _ hp, hq⟩
  | saveConnection c => exact ⟨hd, hp, nodup_keys_mapSet _ _ _ hq⟩
  | saveProcess p => exact ⟨hd, hp, hq⟩
  | updateDomainStats d n => exact ⟨nodup_keys_mapSet _ _ _ hd, hp, hq⟩
  | clear => exact ⟨List.nodup_nil, List.nodup_nil, List.nodup_nil⟩

theorem distinctKeys_foldl (ops : List Op) (db : Database) (h : DistinctKeys db) :
    DistinctKeys (ops.foldl step db) := by
  induction ops generalizing db with
  | nil => exact h
  | cons op rest ih => exact ih _ (distinctKeys_step db op h)

theorem distinctKeys_run (ops : List Op) : DistinctKeys (run ops) :=
  distinctKeys_foldl ops new ⟨List.nodup_nil, List.nodup_nil, List.nodup_nil⟩

end Database

namespace Database

theorem slice_zero {α : Type} (l : List α) (n : Nat) : slice l 0 n = l.take n := rfl

theorem getTopDomains_eq (db : Database) (limit : Nat) :
    db.getTopDomains limit = ((sortByCountDesc (fun e => e.2) db.domains).take limit).map
      domainStat := rfl

theorem getTopDomains_full (db : Database) :
    db.getTopDomains db.domains.length =
      (sortByCountDesc (fun e => e.2) db.domains).map domainStat := by
  rw [getTopDomains_eq, List.take_of_length_le]
  exact Nat.le_of_eq (sortByCountDesc_perm _ _).length_eq

theorem getTopDomains_take (db : Database) (limit : Nat) :
    db.getTopDomains limit = (db.getTopDomains db.domains.length).take limit := by
  rw [getTopDomains_full, getTopDomains_eq, List.map_take]

theorem getProtocolStats_perm (db : Database) :
    db.getProtocolStats.Perm (db.statistics.protocols.map protocolStat) :=
  (sortByJsCountDesc_perm _ _).trans ((objectEntries_perm _).map _)

theorem getPortStats_perm (db : Database) :
    db.getPortStats.Perm (db.statistics.ports.map portStat) :=
  (sortByCountDesc_perm _ _).trans ((objectEntriesNat_perm _).map _)

theorem getProtocolStats_key (db : Database) (h : DistinctKeys db) (k : String) :
    db.getProtocolStats.filter (fun e => decide (e.protocol = k)) =
      (mapGet db.statistics.protocols k).toList.map
        (fun v => { protocol := k, count := v }) := by
  have hperm := (getProtocolStats_perm db).filter (fun e => decide (e.protocol = k))
  rw [List.filter_map] at hperm
  have hf : ((fun e : ProtocolStat => decide (e.protocol = k)) ∘ protocolStat) =
      (fun e : String × JsCount => decide (e.1 = k)) := rfl
  rw [hf, filter_key_of_nodup_get _ k h.2.1] at hperm
  cases hget : mapGet db.statistics.protocols k with
  | none =>
    rw [hget] at hperm
    exact List.perm_nil.1 hperm
  | some v =>
    rw [hget] at hperm
    exact List.perm_singleton.1 hperm

/-- The result of `getProtocolStats` is ordered by `>=` on the counts when
every count of the histogram is a number. -/
theorem getProtocolStats_sorted (db : Database) (h : NumericCounts db.statistics.protocols) :
    db.getProtocolStats.Pairwise (fun a b => a.count.ge b.count = true) := by
  unfold getProtocolStats
  apply (sortByJsCountDesc_of_numeric (fun e : ProtocolStat => e.count) _ _).2
  intro a ha
  obtain ⟨e, he, rfl⟩ := List.mem_map.1 ha
  exact h e ((objectEntries_perm _).mem_iff.1 he)

theorem getPortStats_key (db : Database) (h : DistinctKeys db) (k : Nat) :
    db.getPortStats.filter (fun e => decide (e.port = k)) =
      if mapHas db.statistics.ports k = true then
        [{ port := k, count := dictGet db.statistics.ports k }]
      else [] := by
  have hperm := (getPortStats_perm db).filter (fun e => decide (e.port = k))
  rw [List.filter_map] at hperm
  have hf : ((fun e : PortStat => decide (e.port = k)) ∘ portStat) =
      (fun e : Nat × Nat => decide (e.1 = k)) := rfl
  rw [hf, filter_key_of_nodup _ k h.2.2] at hperm
  split
  · rename_i hk
    rw [if_pos hk] at hperm
    exact List.perm_singleton.1 hperm
  · rename_i hk
    rw [if_neg hk] at hperm
    exact List.perm_nil.1 hperm

end Database

/-- C19. The code at the failing input: after `savePacket` of an event whose
protocol is `TCP` and of one whose protocol is `constructor`, the list
returned by `getProtocolStats` holds the entry of `TCP` with count 1 and an
entry of `constructor` whose count is a string; the list is not ordered by
`>=` on the counts, and neither is it with its two entries exchanged. After
two events of protocol `constructor` the one entry still carries a string,
not the count 2. -/
theorem sorted_views_inherited_name :
    ((Database.new.savePacket { samplePacket 1 with protocol := "TCP" }).savePacket
        { samplePacket 2 with protocol := "constructor" }).getProtocolStats =
        [{ protocol := "TCP", count := JsCount.num 1 },
          { protocol := "constructor", count := JsCount.text "constructor" 1 }] ∧
      ¬ ((Database.new.savePacket { samplePacket 1 with protocol := "TCP" }).savePacket
          { samplePacket 2 with protocol := "constructor" }).getProtocolStats.Pairwise
        (fun a b => a.count.ge b.count = true) ∧
      ¬ ((Database.new.savePacket { samplePacket 1 with protocol := "TCP" }).savePacket
          { samplePacket 2 with protocol := "constructor" }).getProtocolStats.reverse.Pairwise
        (fun a b => a.count.ge b.count = true) ∧
      ((Database.new.savePacket { samplePacket 1 with protocol := "constructor" }).savePacket
        { samplePacket 2 with protocol := "constructor" }).getProtocolStats =
        [{ protocol := "constructor", count := JsCount.text "constructor" 2 }] := by
  decide

/-- Sorted-descending views, away from string counts. The lists returned by
`getPortStats` and `getTopDomains limit` are sorted by count in
non-increasing order, and so is the list returned by `getProtocolStats` when
every count of the protocol histogram is a number; `getProtocolStats` and
`getPortStats` are rearrangements of the histogram entries and, in every
state reached from a fresh store, hold for each key exactly one entry, with
the value held under that key (and none for a key not in the histogram);
`getTopDomains limit` is the first `min limit n` entries of the fully sorted
list of the `n` domains, itself a rearrangement of the domain map. -/
theorem sorted_views_numeric (db : Database) (limit : Nat) (ops : List Database.Op)
    (protocol : String) (port : Nat) :
    ((NumericCounts db.statistics.protocols →
          db.getProtocolStats.Pairwise (fun a b => a.count.ge b.count = true)) ∧
        db.getPortStats.Pairwise (fun a b => a.count ≥ b.count) ∧
        (db.getTopDomains limit).Pairwise (fun a b => a.count ≥ b.count)) ∧
      (db.getProtocolStats.Perm (db.statistics.protocols.map protocolStat) ∧
        db.getPortStats.Perm (db.statistics.ports.map portStat)) ∧
      ((Database.run ops).getProtocolStats.filter (fun e => decide (e.protocol = protocol)) =
          (mapGet (Database.run ops).statistics.protocols protocol).toList.map
            (fun v => { protocol := protocol, count := v }) ∧
        (Database.run ops).getPortStats.filter (fun e => decide (e.port = port)) =
          (if mapHas (Database.run ops).statistics.ports port = true then
            [{ port := port, count := dictGet (Database.run ops).statistics.ports port }]
          else [])) ∧
      (db.getTopDomains limit =
          (db.getTopDomains db.domains.length).take (min limit db.domains.length) ∧
        (db.getTopDomains db.domains.length).Perm (db.domains.map domainStat) ∧
        (db.getTopDomains db.domains.length).Pairwise (fun a b => a.count ≥ b.count)) := by
  have hdom : ∀ n, (db.getTopDomains n).Pairwise (fun a b => a.count ≥ b.count) := by
    intro n
    rw [Database.getTopDomains_eq]
    apply List.Pairwise.map domainStat (fun a b hab => hab)
    exact (sortByCountDesc_sorted (fun e : String × Nat => e.2) db.domains).sublist
      (List.take_sublist _ _)
  refine ⟨⟨Database.getProtocolStats_sorted db, sortByCountDesc_sorted _ _, hdom limit⟩,
    ⟨Database.getProtocolStats_perm db, Database.getPortStats_perm db⟩,
    ⟨Database.getProtocolStats_key _ (Database.distinctKeys_run ops) protocol,
      Database.getPortStats_key _ (Database.distinctKeys_run ops) port⟩,
    ⟨?_, ?_, hdom _⟩⟩
  · have hlen : (db.getTopDomains db.domains.length).length = db.domains.length := by
      rw [Database.getTopDomains_full, List.length_map]
      exact (sortByCountDesc_perm _ _).length_eq
    have htake := take_min_length (db.getTopDomains db.domains.length) limit
    rw [hlen] at htake
    rw [Nat.min_comm, htake]
    exact Database.getTopDomains_take db limit
  · rw [Database.getTopDomains_full]
    exact (sortByCountDesc_perm _ _).map _

/-- C20 as stated fails for the port histogram: after a connection to port
443 and then one to port 80, each counted once, `getPortStats` lists port 80
before port 443. -/
theorem tie_breaking_counterexample :
    ((Database.new.saveConnection (sampleConn 443)).saveConnection (sampleConn 80)).getPortStats =
      [{ port := 80, count := 1 }, { port := 443, count := 1 }] := by
  decide

/-- C20, amended. In the result of `getTopDomains`, and in that of
`getProtocolStats` when no protocol name is an array index, the entries of
equal count appear in the order in which their keys were first written (the
entries of a given count are the same list before and after sorting). In the
result of `getPortStats`, for ports below 2^32 - 1, the entries of equal
count appear in ascending port order, because `Object.entries` enumerates
such keys in ascending order; e.g. two protocols TCP then UDP counted once
are listed TCP, UDP. -/
theorem tie_breaking (db : Database) (c limit : Nat) :
    ((db.getTopDomains db.domains.length).filter (fun e => decide (e.count = c)) =
          (db.domains.filter (fun e => decide (e.2 = c))).map domainStat ∧
        db.getTopDomains limit = (db.getTopDomains db.domains.length).take limit) ∧
      ((∀ e ∈ db.statistics.protocols, arrayIndex? e.1 = none) →
        db.getProtocolStats.filter (fun e => decide (e.count = JsCount.num c)) =
          (db.statistics.protocols.filter (fun e => decide (e.2 = JsCount.num c))).map
            protocolStat) ∧
      ((∀ e ∈ db.statistics.ports, e.1 < 4294967295) →
        (db.getPortStats.filter (fun e => decide (e.count = c))).Pairwise
            (fun a b => a.port ≤ b.port) ∧
          (db.getPortStats.filter (fun e => decide (e.count = c))).Perm
            ((db.statistics.ports.filter (fun e => decide (e.2 = c))).map portStat)) ∧
      ((Database.new.savePacket { samplePacket 1 with protocol := "TCP" }).savePacket
          { samplePacket 1 with protocol := "UDP" }).getProtocolStats =
        [{ protocol := "TCP", count := JsCount.num 1 },
          { protocol := "UDP", count := JsCount.num 1 }] := by
  refine ⟨⟨?_, Database.getTopDomains_take db limit⟩, ?_, ?_, by decide⟩
  · rw [Database.getTopDomains_full, List.filter_map]
    have hf : ((fun e : DomainStat => decide (e.count = c)) ∘ domainStat) =
        (fun e : String × Nat => decide (e.2 = c)) := rfl
    rw [hf, sortByCountDesc_filter (fun e : String × Nat => e.2)]
  · intro h
    unfold Database.getProtocolStats
    rw [objectEntries_of_no_index _ h,
      sortByJsCountDesc_filter (fun e : ProtocolStat => e.count), List.filter_map]
    rfl
  · intro h
    unfold Database.getPortStats
    rw [objectEntriesNat_of_index _ h, sortByCountDesc_filter (fun e : PortStat => e.count),
      List.filter_map]
    have hf : ((fun e : PortStat => decide (e.count = c)) ∘ portStat) =
        (fun e : Nat × Nat => decide (e.2 = c)) := rfl
    rw [hf]
    constructor
    · apply List.Pairwise.map portStat (fun a b hab => hab)
      have hs : (db.statistics.ports.insertionSort (fun a b => a.1 ≤ b.1)).Pairwise
          (fun a b => a.1 ≤ b.1) :=
        @List.sorted_insertionSort (Nat × Nat) (fun a b => a.1 ≤ b.1) _
          ⟨fun a b => Nat.le_total a.1 b.1⟩ ⟨fun _ _ _ hab hbc => Nat.le_trans hab hbc⟩ _
      exact hs.sublist (List.filter_sublist _)
    · exact ((List.perm_insertionSort _ _).filter _).map _

/-- Witness for C20, amended: two connections to ports below 2^32 - 1. -/
theorem tie_breaking_witness :
    (((Database.new.saveConnection (sampleConn 443)).saveConnection
        (sampleConn 80)).getPortStats.filter (fun e => decide (e.count = 1))).Pairwise
      (fun a b => a.port ≤ b.port) :=
  ((tie_breaking ((Database.new.saveConnection (sampleConn 443)).saveConnection (sampleConn 80))
    1 10).2.2.1 (by decide)).1

theorem dictGet_mapSet_other {κ : Type} [DecidableEq κ] (l : List (κ × Nat)) (k k2 : κ) (v : Nat)
    (hne : k2 ≠ k) : dictGet (mapSet l k v) k2 = dictGet l k2 := by
  induction l with
  | nil =>
    have : ¬ k = k2 := fun e => hne e.symm
    simp [mapSet, dictGet, this]
  | cons e rest ih =>
    obtain ⟨a, b⟩ := e
    by_cases h : a = k
    · subst h
      have : ¬ a = k2 := fun e => hne e.symm
      simp [mapSet, dictGet, this]
    · by_cases h2 : a = k2
      · subst h2
        simp [mapSet, dictGet, h]
      · simp [mapSet, dictGet, h, h2, ih]

namespace Database

theorem foldl_savePacket_domains (ps : List PacketInfo) (db : Database) :
    (ps.foldl savePacket db).domains = db.domains ∧
      (ps.foldl savePacket db).statistics.uniqueDomains = db.statistics.uniqueDomains := by
  induction ps generalizing db with
  | nil => exact ⟨rfl, rfl⟩
  | cons p rest ih => exact ih (db.savePacket p)

theorem uniqueDomains_step (db : Database) (op : Op)
    (h : db.statistics.uniqueDomains = db.domains.length) :
    (db.step op).statistics.uniqueDomains = (db.step op).domains.length := by
  cases op with
  | savePacket p => exact h
  | saveConnection c => exact h
  | saveProcess p => exact h
  | updateDomainStats d n => rfl
  | clear => rfl

theorem uniqueDomains_foldl (ops : List Op) (db : Database)
    (h : db.statistics.uniqueDomains = db.domains.length) :
    (ops.foldl step db).statistics.uniqueDomains = (ops.foldl step db).domains.length := by
  induction ops generalizing db with
  | nil => exact h
  | cons op rest ih => exact ih _ (uniqueDomains_step db op h)

/-- Recording the domains `ds`, one call of `updateDomainStats` each. -/
theorem record_domains (ds : List String) (db : Database) (d : String) :
    dictGet (List.foldl step db (ds.map (fun x => Op.updateDomainStats x 1))).domains d =
        dictGet db.domains d + ds.count d ∧
      (d ∈ (List.foldl step db (ds.map (fun x => Op.updateDomainStats x 1))).domains.map
          Prod.fst ↔ (d ∈ db.domains.map Prod.fst ∨ d ∈ ds)) := by
  induction ds generalizing db with
  | nil => simp
  | cons x rest ih =>
    rw [List.map_cons, List.foldl_cons]
    obtain ⟨h1, h2⟩ := ih (db.step (Op.updateDomainStats x 1))
    have hdom : (db.step (Op.updateDomainStats x 1)).domains =
        mapSet db.domains x (dictGet db.domains x + 1) := rfl
    rw [h1, h2, hdom, mem_keys_mapSet, List.count_cons, List.mem_cons]
    constructor
    · by_cases hx : d = x
      · subst hx
        rw [dictGet_mapSet_self]
        simp
        omega
      · have hx2 : ¬ x = d := fun e => hx e.symm
        rw [dictGet_mapSet_other _ _ _ _ hx]
        simp [hx2]
    · tauto

theorem entry_mem_of_has {κ : Type} [DecidableEq κ] (l : List (κ × Nat)) (k : κ)
    (h : mapHas l k = true) : (k, dictGet l k) ∈ l := by
  induction l with
  | nil => simp [mapHas] at h
  | cons e rest ih =>
    obtain ⟨a, b⟩ := e
    by_cases hk : a = k
    · subst hk
      simp [dictGet]
    · simp only [mapHas, hk, if_false] at h
      simp only [dictGet, hk, if_false]
      exact List.mem_cons_of_mem _ (ih h)

end Database

/-- C17. The code at the failing input: `savePacket` of an event carrying
the domain `example.com` onto a fresh store leaves the domain map empty,
`uniqueDomains` at 0 and `getTopDomains` empty, where the claim has one
domain counted once; the updater that the store provides for it,
`updateDomainStats`, would give exactly that, and nothing calls it. -/
theorem domain_aggregation_not_fed :
    (Database.new.savePacket
        { samplePacket 1 with domain := some "example.com" }).domains = [] ∧
      (Database.new.savePacket
        { samplePacket 1 with domain := some "example.com" }).statistics.uniqueDomains = 0 ∧
      (Database.new.savePacket
        { samplePacket 1 with domain := some "example.com" }).getTopDomains 10 = [] ∧
      (Database.new.updateDomainStats "example.com" 1).statistics.uniqueDomains = 1 ∧
      (Database.new.updateDomainStats "example.com" 1).getTopDomains 10 =
        [{ domain := "example.com", count := 1 }] := by
  decide

/-- What the store does with domains. `savePacket` leaves the domain map and
`uniqueDomains` as they were, whatever the `domain` field of the event, so
after any events are appended to a fresh store `uniqueDomains` is 0 and
`getTopDomains` is empty. The aggregate is written by `updateDomainStats`
alone: after one call `updateDomainStats(d)` for each of `d1..dn` on a fresh
store, `uniqueDomains` is the number of distinct `di`, the count of a domain
`d` is the number of calls made for it, and `getTopDomains limit` reports
that count for `d` when `limit` is at least the number of distinct domains. -/
theorem updateDomainStats_aggregates (db : Database) (p : PacketInfo) (ps : List PacketInfo)
    (ds : List String) (d : String) (limit : Nat) :
    ((db.savePacket p).domains = db.domains ∧
        (db.savePacket p).statistics.uniqueDomains = db.statistics.uniqueDomains) ∧
      ((ps.foldl Database.savePacket Database.new).statistics.uniqueDomains = 0 ∧
        (ps.foldl Database.savePacket Database.new).getTopDomains limit = []) ∧
      ((Database.run (ds.map (fun x => Database.Op.updateDomainStats x 1))).statistics.uniqueDomains =
          ds.dedup.length ∧
        dictGet (Database.run (ds.map (fun x => Database.Op.updateDomainStats x 1))).domains d =
          ds.count d ∧
        (d ∈ ds → ds.dedup.length ≤ limit →
          { domain := d, count := ds.count d } ∈
            (Database.run (ds.map (fun x => Database.Op.updateDomainStats x 1))).getTopDomains
              limit)) := by
  obtain ⟨hcount, hmem⟩ := Database.record_domains ds Database.new d
  have hcount2 : dictGet (Database.run (ds.map
      (fun x => Database.Op.updateDomainStats x 1))).domains d = ds.count d := by
    show dictGet (List.foldl Database.step Database.new _).domains d = _
    rw [hcount]
    simp [Database.new, dictGet]
  have hnodup := (Database.distinctKeys_run (ds.map
    (fun x => Database.Op.updateDomainStats x 1))).1
  have hlen : (Database.run (ds.map
      (fun x => Database.Op.updateDomainStats x 1))).domains.length = ds.dedup.length := by
    rw [← List.length_map _ Prod.fst]
    apply List.Perm.length_eq
    rw [List.perm_ext_iff_of_nodup hnodup (List.nodup_dedup ds)]
    intro a
    have := (Database.record_domains ds Database.new a).2
    rw [List.mem_dedup]
    show a ∈ (List.foldl Database.step Database.new _).domains.map Prod.fst ↔ _
    rw [this]
    simp [Database.new]
  refine ⟨⟨rfl, rfl⟩, ⟨?_, ?_⟩, ⟨?_, hcount2, ?_⟩⟩
  · rw [(Database.foldl_savePacket_domains ps Database.new).2]
    rfl
  · rw [Database.getTopDomains_eq, (Database.foldl_savePacket_domains ps Database.new).1]
    simp [Database.new, sortByCountDesc]
  · rw [← hlen]
    exact Database.uniqueDomains_foldl _ Database.new rfl
  · intro hd hlim
    have hhas : mapHas (Database.run (ds.map
        (fun x => Database.Op.updateDomainStats x 1))).domains d = true := by
      rw [mapHas_iff]
      show d ∈ (List.foldl Database.step Database.new _).domains.map Prod.fst
      rw [hmem]
      exact Or.inr hd
    have hentry := Database.entry_mem_of_has _ d hhas
    rw [hcount2] at hentry
    rw [Database.getTopDomains_eq, List.take_of_length_le]
    · exact List.mem_map.2 ⟨(d, ds.count d),
        (sortByCountDesc_perm _ _).mem_iff.2 hentry, rfl⟩
    · rw [(sortByCountDesc_perm _ _).length_eq, hlen]
      exact hlim

/-! ## The activity estimator and the process list -/

namespace NetworkMonitorWindows

theorem activityRows_events (reverse : Resolver) (rng : RandomSource) (rows : List Conn)
    (m : NetworkMonitorWindows) (calls : Nat) :
    (∀ e ∈ packetEvents (activityRows reverse rng m calls rows).2,
        e.connection ∈ rows ∧ e.isActivity = some true ∧ e.flags = "DATA" ∧
          e.pid = e.connection.pid) ∧
      (packetEvents (activityRows reverse rng m calls rows).2).map (fun e => e.connection) =
        ((gateDraws rng calls rows).filter (fun x => x.2.belowThreshold)).map (fun x => x.1) ∧
      (activityRows reverse rng m calls rows).2 =
        (packetEvents (activityRows reverse rng m calls rows).2).map Event.packet := by
  induction rows generalizing m calls with
  | nil => simp [activityRows, packetEvents, gateDraws]
  | cons conn rest ih =>
    rw [activityRows, gateDraws]
    by_cases hg : (rng.random calls).belowThreshold = true
    · simp only [hg, if_true]
      obtain ⟨h1, h2, h3⟩ := ih (resolveDNS reverse m conn.remoteAddress).1 (calls + 3)
      refine ⟨?_, ?_, ?_⟩
      · intro e he
        simp only [packetEvents, List.mem_cons] at he
        rcases he with h | h
        · subst h
          split <;> exact ⟨List.mem_cons_self _ _, rfl, rfl, rfl⟩
        · obtain ⟨a, b, c, d⟩ := h1 e h
          exact ⟨List.mem_cons_of_mem _ a, b, c, d⟩
      · simp only [packetEvents, List.map_cons, List.filter_cons, hg, if_true]
        rw [h2]
        congr 1
        split <;> rfl
      · simp only [packetEvents, List.map_cons]
        rw [← h3]
    · simp only [hg, Bool.false_eq_true, if_false]
      obtain ⟨h1, h2, h3⟩ := ih m (calls + 1)
      refine ⟨?_, ?_, h3⟩
      · intro e he
        obtain ⟨a, b, c, d⟩ := h1 e he
        exact ⟨List.mem_cons_of_mem _ a, b, c, d⟩
      · rw [h2]
        simp [List.filter_cons, hg]

end NetworkMonitorWindows

/-- C21. Activity estimator scope and shape: every event emitted by
`monitorConnectionActivity` is a packet event for a row of the snapshot whose
state is ESTABLISHED and whose pid is the configured target pid, with
`isActivity = true` and `flags = "DATA"`; with no target configured nothing
is emitted; and the rows that produce an event are, in order, exactly the
qualifying rows whose own random draw (the value of `Math.random()` read by
their test) is below the double 0.3. -/
theorem activity_estimator (reverse : Resolver) (rng : NetworkMonitorWindows.RandomSource)
    (m : NetworkMonitorWindows) (S : List Conn) (x : NetworkMonitorWindows.Draw) :
    (∀ e ∈ packetEvents (NetworkMonitorWindows.monitorConnectionActivity reverse rng m S).2,
        e.connection ∈ S ∧ e.connection.state = "ESTABLISHED" ∧
          some e.connection.pid = m.targetProcess ∧ e.pid = e.connection.pid ∧
          e.isActivity = some true ∧ e.flags = "DATA") ∧
      (NetworkMonitorWindows.monitorConnectionActivity reverse rng m S).2 =
        (packetEvents (NetworkMonitorWindows.monitorConnectionActivity reverse rng m S).2).map
          Event.packet ∧
      (NetworkMonitorWindows.monitorConnectionActivity reverse rng
        { m with targetProcess := none } S).2 = [] ∧
      (packetEvents (NetworkMonitorWindows.monitorConnectionActivity reverse rng m S).2).map
          (fun e => e.connection) =
        ((NetworkMonitorWindows.gateDraws rng 0
          (S.filter (fun conn => conn.state == "ESTABLISHED" && some conn.pid == m.targetProcess))).filter
            (fun y => y.2.belowThreshold)).map (fun y => y.1) ∧
      (x.belowThreshold = true ↔ x.num * 2 ^ 54 < 5404319552844595 * 2 ^ x.exp) := by
  obtain ⟨h1, h2, h3⟩ := NetworkMonitorWindows.activityRows_events reverse rng
    (S.filter (fun conn => conn.state == "ESTABLISHED" && some conn.pid == m.targetProcess)) m 0
  refine ⟨?_, h3, ?_, h2, ?_⟩
  · intro e he
    obtain ⟨a, b, c, d⟩ := h1 e he
    have hm := List.mem_filter.1 a
    have hq := hm.2
    simp only [Bool.and_eq_true, beq_iff_eq] at hq
    exact ⟨hm.1, hq.1, hq.2, d, b, c⟩
  · unfold NetworkMonitorWindows.monitorConnectionActivity
    have hnil : S.filter (fun conn => conn.state == "ESTABLISHED" &&
        some conn.pid == (none : Option Nat)) = [] := by
      rw [List.filter_eq_nil_iff]
      intro a _
      simp
    simp only [hnil]
    rfl
  · unfold NetworkMonitorWindows.Draw.belowThreshold
    simp

/-- C22. Process correlator filtering: in global scope `monitorProcesses`
emits the process list as it is; with a target pid `t ≠ 0` it emits the list
made of the first process of pid `t`, or the empty list when no process has
pid `t`; one `processes` event is emitted in every case. -/
theorem process_filtering (m : NetworkMonitorWindows) (P : List ProcessInfo) (t : Nat) :
    (targetSet m.targetProcess = false →
        NetworkMonitorWindows.monitorProcesses m P = [Event.processes P]) ∧
      (m.targetProcess = some t → t ≠ 0 →
        (∀ p, P.find? (fun q => decide (q.pid = t)) = some p →
            NetworkMonitorWindows.monitorProcesses m P = [Event.processes [p]]) ∧
          ((∀ q ∈ P, q.pid ≠ t) →
            NetworkMonitorWindows.monitorProcesses m P = [Event.processes []])) ∧
      (processesEvents (NetworkMonitorWindows.monitorProcesses m P)).length = 1 := by
  refine ⟨?_, ?_, ?_⟩
  · intro h
    unfold NetworkMonitorWindows.monitorProcesses
    rw [h]
    rfl
  · intro ht ht0
    have hset : targetSet m.targetProcess = true := by
      rw [ht]
      cases t with
      | zero => exact absurd rfl ht0
      | succ n => rfl
    have hfun : (fun p : ProcessInfo => decide (some p.pid = m.targetProcess)) =
        (fun q => decide (q.pid = t)) := by
      funext p
      rw [ht]
      simp
    unfold NetworkMonitorWindows.monitorProcesses
    rw [hset, hfun]
    constructor
    · intro p hp
      simp only [hp, if_true]
    · intro hnone
      have : P.find? (fun q => decide (q.pid = t)) = none := by
        rw [List.find?_eq_none]
        intro q hq
        simpa using hnone q hq
      simp only [this, if_true]
  · unfold NetworkMonitorWindows.monitorProcesses
    split
    · split <;> rfl
    · rfl

/-- Witness for C22: target pid 7 and a list holding a process of pid 7. -/
theorem process_filtering_witness :
    NetworkMonitorWindows.monitorProcesses
        { NetworkMonitorWindows.new with targetProcess := some 7 }
        [{ sampleProcess 1 with pid := 3 }, sampleProcess 2] =
      [Event.processes [sampleProcess 2]] :=
  ((process_filtering { NetworkMonitorWindows.new with targetProcess := some 7 }
    [{ sampleProcess 1 with pid := 3 }, sampleProcess 2] 7).2.1 rfl (by decide)).1
      (sampleProcess 2) (by decide)

/-! ## Mode control of the web server -/

/-- C23. Mode switch clears the store but not the DNS cache: after
`startProcessMonitoring(pid)` the three store sequences and the domain map
are empty, the store counters are 0 and both histograms have no key, the
target pid of the monitor is `pid`, and the DNS cache of the monitor is the
one it had. -/
theorem mode_switch_clears_store (ws : WebServer) (pid : Nat) :
    (ws.startProcessMonitoring pid).database.packets = [] ∧
      (ws.startProcessMonitoring pid).database.connections = [] ∧
      (ws.startProcessMonitoring pid).database.processes = [] ∧
      (ws.startProcessMonitoring pid).database.domains = [] ∧
      (ws.startProcessMonitoring pid).database.statistics = Database.emptyStatistics ∧
      (ws.startProcessMonitoring pid).database.statistics.totalPackets = 0 ∧
      (ws.startProcessMonitoring pid).database.statistics.totalConnections = 0 ∧
      (ws.startProcessMonitoring pid).database.statistics.activeProcesses = 0 ∧
      (ws.startProcessMonitoring pid).database.statistics.uniqueDomains = 0 ∧
      (ws.startProcessMonitoring pid).database.statistics.protocols = [] ∧
      (ws.startProcessMonitoring pid).database.statistics.ports = [] ∧
      (ws.startProcessMonitoring pid).networkMonitor.targetProcess = some pid ∧
      (ws.startProcessMonitoring pid).targetProcess = some pid ∧
      (ws.startProcessMonitoring pid).networkMonitor.dnsCache = ws.networkMonitor.dnsCache :=
  ⟨rfl, rfl, rfl, rfl, rfl, rfl, rfl, rfl, rfl, rfl, rfl, rfl, rfl, rfl⟩

namespace NetworkMonitorWindows

/-- A row that carries its key in the snapshot, is not tracked, is not
skipped and passes the target filter is reported by the cycle. -/
theorem monitorConnections_reports (reverse : Resolver) (m : NetworkMonitorWindows)
    (S : List Conn) (r : Conn) (h1 : mapHas m.lastConnections (flowKey r) = false)
    (h2 : S.find? (fun x => flowKey x == flowKey r) = some r)
    (h3 : inactiveState r.state = false)
    (h4 : targetSet m.targetProcess = true → some r.pid = m.targetProcess) :
    ∃ e ∈ packetEvents (monitorConnections reverse m S).2, e.connection = r := by
  have hk := (detectRows_packet_keys reverse S m (flowKey r)).2 ⟨h1, r, h2, h3, h4⟩
  obtain ⟨e, he, hek⟩ := List.mem_map.1 hk
  refine ⟨e, by rw [monitorConnections_packets]; exact he, ?_⟩
  have hrow := (detectRows_packet_row reverse S m e he).2.1
  have hek2 : flowKey e.connection = flowKey r := hek
  rw [hek2, h2] at hrow
  exact (Option.some.inj hrow).symm

/-- A packet event of a cycle is for a key that was not tracked. -/
theorem monitorConnections_reported_untracked (reverse : Resolver) (m : NetworkMonitorWindows)
    (S : List Conn) (e : PacketInfo) (he : e ∈ packetEvents (monitorConnections reverse m S).2) :
    mapHas m.lastConnections (flowKey e.connection) = false := by
  rw [monitorConnections_packets] at he
  exact (detectRows_packet_row reverse S m e he).1

theorem monitorConnections_nil (reverse : Resolver) (m : NetworkMonitorWindows) :
    packetEvents (monitorConnections reverse m []).2 = [] ∧
      (monitorConnections reverse m []).1.lastConnections = [] := by
  constructor
  · rw [monitorConnections_packets]
    rfl
  · rw [monitorConnections_lastConnections]
    simp

end NetworkMonitorWindows

/-- C24 as stated fails: a monitor that has tracked the sample row (pid 10)
in global scope still tracks it after `startProcessMonitoring(10)`, and the
next cycle on the same snapshot reports no flow of the target process. -/
theorem diff_state_counterexample :
    (WebServer.startProcessMonitoring
        { WebServer.new with
          networkMonitor :=
            (NetworkMonitorWindows.monitorConnections failingResolver NetworkMonitorWindows.new
              [sampleRow]).1 } 10).networkMonitor.lastConnections.map Prod.fst =
        ["TCP-10.0.0.1:5000-93.1.1.1:443"] ∧
      packetEvents
        (NetworkMonitorWindows.monitorConnections failingResolver
          (WebServer.startProcessMonitoring
            { WebServer.new with
              networkMonitor :=
                (NetworkMonitorWindows.monitorConnections failingResolver
                  NetworkMonitorWindows.new [sampleRow]).1 } 10).networkMonitor
          [sampleRow]).2 = [] := by
  decide

/-- C24, amended. `startProcessMonitoring(pid)` leaves the `lastConnections`
map of the monitor as it was. Hence, for a target pid other than 0, a flow of
the target process in the next snapshot whose state is neither LISTENING nor
TIME_WAIT is reported as a new flow exactly when its key was not tracked
before the switch; in particular every such flow is reported when the map
was empty. -/
theorem diff_state_kept (reverse : Resolver) (ws : WebServer) (pid : Nat) (S : List Conn)
    (r : Conn) :
    (ws.startProcessMonitoring pid).networkMonitor.lastConnections =
        ws.networkMonitor.lastConnections ∧
      (pid ≠ 0 → S.find? (fun x => flowKey x == flowKey r) = some r →
        inactiveState r.state = false → r.pid = pid →
          ((∃ e ∈ packetEvents
                (NetworkMonitorWindows.monitorConnections reverse
                  (ws.startProcessMonitoring pid).networkMonitor S).2, e.connection = r) ↔
            mapHas ws.networkMonitor.lastConnections (flowKey r) = false)) := by
  refine ⟨rfl, ?_⟩
  intro _ h2 h3 h4
  constructor
  · rintro ⟨e, he, rfl⟩
    exact NetworkMonitorWindows.monitorConnections_reported_untracked reverse
      (ws.startProcessMonitoring pid).networkMonitor S e he
  · intro h1
    apply NetworkMonitorWindows.monitorConnections_reports reverse
      (ws.startProcessMonitoring pid).networkMonitor S r h1 h2 h3
    intro _
    show some r.pid = some pid
    rw [h4]

/-- Witness for C24, amended: a fresh server, target pid 10, and the sample
row in the next snapshot. -/
theorem diff_state_kept_witness :
    (∃ e ∈ packetEvents
        (NetworkMonitorWindows.monitorConnections failingResolver
          (WebServer.new.startProcessMonitoring 10).networkMonitor [sampleRow]).2,
        e.connection = sampleRow) ↔
      mapHas WebServer.new.networkMonitor.lastConnections (flowKey sampleRow) = false :=
  (diff_state_kept failingResolver WebServer.new 10 [sampleRow] sampleRow).2 (by decide)
    (by decide) (by decide) rfl

/-- C25, the code at the failing input. `startGlobalMonitoring` leaves the
target pid of the monitor as it was: after `startProcessMonitoring(pid)` and
then `startGlobalMonitoring()` the web server records no target and mode
`global` and the store is cleared, but the monitor still filters on `pid`.
With pid 10, a new ESTABLISHED flow owned by pid 20 yields no packet event
and `monitorProcesses` emits the process of pid 10 alone. -/
theorem global_monitoring_keeps_target (ws : WebServer) (pid : Nat) :
    ws.startGlobalMonitoring.networkMonitor.targetProcess = ws.networkMonitor.targetProcess ∧
      (ws.startProcessMonitoring pid).startGlobalMonitoring.networkMonitor.targetProcess =
        some pid ∧
      (ws.startProcessMonitoring pid).startGlobalMonitoring.targetProcess = none ∧
      (ws.startProcessMonitoring pid).startGlobalMonitoring.currentMode = "global" ∧
      (ws.startProcessMonitoring pid).startGlobalMonitoring.database = ws.database.clear ∧
      packetEvents
        (NetworkMonitorWindows.monitorConnections failingResolver
          (WebServer.new.startProcessMonitoring 10).startGlobalMonitoring.networkMonitor
          [otherRow]).2 = [] ∧
      NetworkMonitorWindows.monitorProcesses
        (WebServer.new.startProcessMonitoring 10).startGlobalMonitoring.networkMonitor
        [{ sampleProcess 1 with pid := 10 }, sampleProcess 2] =
          [Event.processes [{ sampleProcess 1 with pid := 10 }]] := by
  refine ⟨rfl, rfl, rfl, rfl, rfl, by decide, by decide⟩

/-- C26, the code at the failing input. In a started web server two
listeners of the `packet` event save the event: one `packet` event adds 2 to
`totalPackets` and the event is stored twice. -/
theorem packet_saved_twice (db : Database) (p : PacketInfo) :
    ((WebServer.start { WebServer.new with database := db }).emit
        (Event.packet p)).database.statistics.totalPackets = db.statistics.totalPackets + 2 ∧
      ((WebServer.new.start).emit (Event.packet p)).database.packets = [p, p] ∧
      (WebServer.new.start).listeners.filter
          (fun l => decide (l = Listener.setupPacket ∨ l = Listener.backgroundPacket)) =
        [Listener.setupPacket, Listener.backgroundPacket] := by
  refine ⟨rfl, ?_, by decide⟩
  show ((Database.new.savePacket p).savePacket p).packets = [p, p]
  rw [Database.savePacket_packets, Database.savePacket_packets]
  rfl

/-- C27, the code at the failing input. The TCP row of the claim yields its
record, but the UDP row without a state column has four columns, fails the
test `parts.length >= 5` and yields no record (and neither does it when the
PID column is followed by another one, since the port of `*:*` is not a
number). -/
theorem parser_drops_udp_rows :
    NetworkMonitorWindows.getNetworkConnections
        (some "TCP 10.0.0.1:5000 93.1.1.1:443 ESTABLISHED 10") = [sampleRow] ∧
      NetworkMonitorWindows.getNetworkConnections (some "UDP 0.0.0.0:123 *:* 1234") = [] ∧
      NetworkMonitorWindows.getNetworkConnections
        (some "  UDP    0.0.0.0:123    *:*    1234    x") = [] := by
  decide

/-! ## Histogram totals -/

theorem sumCounts_mapSet_incr {κ : Type} [DecidableEq κ] (l : List (κ × Nat)) (k : κ) :
    sumCounts (mapSet l k (dictGet l k + 1)) = sumCounts l + 1 := by
  induction l with
  | nil => simp [sumCounts, mapSet, dictGet]
  | cons e rest ih =>
    obtain ⟨a, b⟩ := e
    by_cases h : a = k
    · simp [sumCounts, mapSet, dictGet, h]
      omega
    · simp only [sumCounts, mapSet, dictGet, h, if_false, List.map_cons, List.sum_cons] at ih ⊢
      omega

theorem incremented_cons_other (a : String) (b : JsCount) (rest : List (String × JsCount))
    (k : String) (h : ¬ a = k) : incremented ((a, b) :: rest) k = incremented rest k := by
  unfold incremented
  simp only [mapGet, h, if_false]

/-- Counting an event under a key that names no property of
`Object.prototype`, in a histogram of numbers: the counts stay numbers and
their sum grows by 1. -/
theorem sumJsCounts_mapSet_incremented (l : List (String × JsCount)) (k : String)
    (hl : NumericCounts l) (hk : k ∉ objectPrototypeNames) (total : Nat)
    (hsum : sumJsCounts l = some total) :
    NumericCounts (mapSet l k (incremented l k)) ∧
      sumJsCounts (mapSet l k (incremented l k)) = some (total + 1) := by
  induction l generalizing total with
  | nil =>
    have h0 : total = 0 := by
      simp only [sumJsCounts, Option.some.injEq] at hsum
      exact hsum.symm
    subst h0
    constructor
    · intro e he
      simp only [mapSet, incremented, mapGet, hk, if_false, List.mem_singleton] at he
      exact ⟨1, by rw [he]⟩
    · simp [mapSet, incremented, mapGet, hk, sumJsCounts]
  | cons e rest ih =>
    obtain ⟨a, b⟩ := e
    obtain ⟨n, hn⟩ := hl (a, b) (List.mem_cons_self _ _)
    simp only at hn
    subst hn
    have hrest : NumericCounts rest := fun x hx => hl x (List.mem_cons_of_mem _ hx)
    simp only [sumJsCounts] at hsum
    cases hsr : sumJsCounts rest with
    | none => rw [hsr] at hsum; simp at hsum
    | some t =>
      rw [hsr] at hsum
      simp only [Option.map_some', Option.some.injEq] at hsum
      by_cases h : a = k
      · subst h
        have hinc : incremented ((a, JsCount.num n) :: rest) a = JsCount.num (n + 1) := by
          simp [incremented, mapGet]
        rw [hinc]
        simp only [mapSet, if_true]
        constructor
        · intro x hx
          rcases List.mem_cons.1 hx with hx | hx
          · exact ⟨n + 1, by rw [hx]⟩
          · exact hrest x hx
        · simp only [sumJsCounts, hsr, Option.map_some', Option.some.injEq]
          omega
      · rw [incremented_cons_other _ _ _ _ h]
        simp only [mapSet, h, if_false]
        obtain ⟨ih1, ih2⟩ := ih hrest t hsr
        constructor
        · intro x hx
          rcases List.mem_cons.1 hx with hx | hx
          · exact ⟨n, by rw [hx]⟩
          · exact ih1 x hx
        · simp only [sumJsCounts, ih2, Option.map_some', Option.some.injEq]
          omega

namespace Database

theorem totals_step (db : Database) (op : Op)
    (h : sumCounts db.statistics.ports = db.statistics.totalConnections ∧
      db.statistics.activeProcesses = db.processes.length) :
    sumCounts (db.step op).statistics.ports = (db.step op).statistics.totalConnections ∧
      (db.step op).statistics.activeProcesses = (db.step op).processes.length := by
  obtain ⟨h2, h3⟩ := h
  cases op with
  | savePacket p => exact ⟨h2, h3⟩
  | saveConnection c =>
    refine ⟨?_, h3⟩
    show sumCounts (mapSet _ _ _) = db.statistics.totalConnections + 1
    rw [sumCounts_mapSet_incr, h2]
  | saveProcess p => exact ⟨h2, rfl⟩
  | updateDomainStats d n => exact ⟨h2, h3⟩
  | clear => exact ⟨rfl, rfl⟩

theorem totals_foldl (ops : List Op) (db : Database)
    (h : sumCounts db.statistics.ports = db.statistics.totalConnections ∧
      db.statistics.activeProcesses = db.processes.length) :
    sumCounts (ops.foldl step db).statistics.ports =
        (ops.foldl step db).statistics.totalConnections ∧
      (ops.foldl step db).statistics.activeProcesses = (ops.foldl step db).processes.length := by
  induction ops generalizing db with
  | nil => exact h
  | cons op rest ih => exact ih _ (totals_step db op h)

theorem protocolTotals_step (db : Database) (op : Op)
    (hop : ∀ p, op = Op.savePacket p → p.protocol ∉ objectPrototypeNames)
    (h : NumericCounts db.statistics.protocols ∧
      sumJsCounts db.statistics.protocols = some db.statistics.totalPackets) :
    NumericCounts (db.step op).statistics.protocols ∧
      sumJsCounts (db.step op).statistics.protocols =
        some (db.step op).statistics.totalPackets := by
  obtain ⟨h1, h2⟩ := h
  cases op with
  | savePacket p =>
    have hk := hop p rfl
    show NumericCounts (objectSet _ _ _) ∧ sumJsCounts (objectSet _ _ _) = some (_ + 1)
    rw [objectSet_of_plain _ _ _ hk]
    exact sumJsCounts_mapSet_incremented _ _ h1 hk _ h2
  | saveConnection c => exact ⟨h1, h2⟩
  | saveProcess p => exact ⟨h1, h2⟩
  | updateDomainStats d n => exact ⟨h1, h2⟩
  | clear => exact ⟨fun e he => absurd he (List.not_mem_nil e), rfl⟩

theorem protocolTotals_foldl (ops : List Op) (db : Database)
    (hops : ∀ p, Op.savePacket p ∈ ops → p.protocol ∉ objectPrototypeNames)
    (h : NumericCounts db.statistics.protocols ∧
      sumJsCounts db.statistics.protocols = some db.statistics.totalPackets) :
    NumericCounts (ops.foldl step db).statistics.protocols ∧
      sumJsCounts (ops.foldl step db).statistics.protocols =
        some (ops.foldl step db).statistics.totalPackets := by
  induction ops generalizing db with
  | nil => exact h
  | cons op rest ih =>
    apply ih
    · intro p hp
      exact hops p (List.mem_cons_of_mem _ hp)
    · apply protocolTotals_step db op _ h
      intro p hp
      exact hops p (hp ▸ List.mem_cons_self _ _)

end Database

/-- C29. The code at the failing input: after `savePacket` of one event whose
protocol is `__proto__` onto a fresh store the protocol histogram holds no
key, so its counts sum to 0, while `totalPackets` is 1; after one event whose
protocol is `constructor` the one count is a string, so the counts have no
numeric sum, while `totalPackets` is 1. After one event of protocol `TCP`
both are 1. -/
theorem histogram_totals_inherited_name :
    (Database.run [Database.Op.savePacket
        { samplePacket 1 with protocol := "__proto__" }]).statistics.protocols = [] ∧
      sumJsCounts (Database.run [Database.Op.savePacket
        { samplePacket 1 with protocol := "__proto__" }]).statistics.protocols = some 0 ∧
      (Database.run [Database.Op.savePacket
        { samplePacket 1 with protocol := "__proto__" }]).statistics.totalPackets = 1 ∧
      sumJsCounts (Database.run [Database.Op.savePacket
        { samplePacket 1 with protocol := "constructor" }]).statistics.protocols = none ∧
      (Database.run [Database.Op.savePacket
        { samplePacket 1 with protocol := "constructor" }]).statistics.totalPackets = 1 ∧
      sumJsCounts (Database.run [Database.Op.savePacket
        { samplePacket 1 with protocol := "TCP" }]).statistics.protocols = some 1 ∧
      (Database.run [Database.Op.savePacket
        { samplePacket 1 with protocol := "TCP" }]).statistics.totalPackets = 1 := by
  decide

/-- Histogram totals, away from the property names of `Object.prototype`. In
every state reached from a fresh store by `savePacket`, `saveConnection`,
`saveProcess`, `updateDomainStats` and `clear`, the counts of the port
histogram sum to `totalConnections`, `activeProcesses` is the length of the
processes sequence and `uniqueDomains` is the size of the domain map; when no
packet saved has a protocol that names a property of `Object.prototype`, the
counts of the protocol histogram are numbers and sum to `totalPackets`; and
in any state at all `activeProcesses` is the length of the processes sequence
right after `saveProcess` and right after `clear`. -/
theorem histogram_totals_plain (ops : List Database.Op) (db : Database) (p : ProcessInfo) :
    (PlainProtocols ops →
        NumericCounts (Database.run ops).statistics.protocols ∧
          sumJsCounts (Database.run ops).statistics.protocols =
            some (Database.run ops).statistics.totalPackets) ∧
      sumCounts (Database.run ops).statistics.ports =
        (Database.run ops).statistics.totalConnections ∧
      (Database.run ops).statistics.activeProcesses = (Database.run ops).processes.length ∧
      (Database.run ops).statistics.uniqueDomains = (Database.run ops).domains.length ∧
      (db.saveProcess p).statistics.activeProcesses = (db.saveProcess p).processes.length ∧
      db.clear.statistics.activeProcesses = db.clear.processes.length := by
  obtain ⟨h2, h3⟩ := Database.totals_foldl ops Database.new ⟨rfl, rfl⟩
  refine ⟨?_, h2, h3, Database.uniqueDomains_foldl ops Database.new rfl, rfl, rfl⟩
  intro hplain
  exact Database.protocolTotals_foldl ops Database.new hplain
    ⟨fun e he => absurd he (List.not_mem_nil e), rfl⟩

/-! ## Snapshot failure -/

/-- C30. A transient snapshot failure wipes the diff state: when the netstat
command fails `getNetworkConnections` returns the empty list, the cycle emits
no packet event and leaves `lastConnections` empty whatever it held; so in
global scope, when a snapshot `S` is polled, then the command fails once,
then `S` is polled again, every row of `S` in a state other than LISTENING
and TIME_WAIT (the row that carries its key) is reported again as a new flow
by the cycle after the failure. -/
theorem snapshot_failure_wipes (reverse : Resolver) (m : NetworkMonitorWindows) (S : List Conn)
    (r : Conn) :
    NetworkMonitorWindows.getNetworkConnections none = [] ∧
      packetEvents
        (NetworkMonitorWindows.monitorConnections reverse m
          (NetworkMonitorWindows.getNetworkConnections none)).2 = [] ∧
      (NetworkMonitorWindows.monitorConnections reverse m
        (NetworkMonitorWindows.getNetworkConnections none)).1.lastConnections = [] ∧
      (targetSet m.targetProcess = false →
        S.find? (fun x => flowKey x == flowKey r) = some r → inactiveState r.state = false →
          ∃ e ∈ packetEvents
              (NetworkMonitorWindows.monitorConnections reverse
                (NetworkMonitorWindows.monitorConnections reverse
                  (NetworkMonitorWindows.monitorConnections reverse m S).1
                  (NetworkMonitorWindows.getNetworkConnections none)).1 S).2,
            e.connection = r) := by
  refine ⟨rfl, (NetworkMonitorWindows.monitorConnections_nil reverse m).1,
    (NetworkMonitorWindows.monitorConnections_nil reverse m).2, ?_⟩
  intro hg h2 h3
  apply NetworkMonitorWindows.monitorConnections_reports reverse
    (NetworkMonitorWindows.monitorConnections reverse
      (NetworkMonitorWindows.monitorConnections reverse m S).1
      (NetworkMonitorWindows.getNetworkConnections none)).1 S r ?_ h2 h3
  · intro ht
    rw [NetworkMonitorWindows.monitorConnections_target,
      NetworkMonitorWindows.monitorConnections_target, hg] at ht
    exact absurd ht (by decide)
  · have := (NetworkMonitorWindows.monitorConnections_nil reverse
      (NetworkMonitorWindows.monitorConnections reverse m S).1).2
    show mapHas (NetworkMonitorWindows.monitorConnections reverse
      (NetworkMonitorWindows.monitorConnections reverse m S).1 []).1.lastConnections
      (flowKey r) = false
    rw [this]
    rfl

/-- Witness for C30: global scope, the sample row polled, a failure, and the
sample row polled again. -/
theorem snapshot_failure_wipes_witness :
    ∃ e ∈ packetEvents
        (NetworkMonitorWindows.monitorConnections failingResolver
          (NetworkMonitorWindows.monitorConnections failingResolver
            (NetworkMonitorWindows.monitorConnections failingResolver NetworkMonitorWindows.new
              [sampleRow]).1
            (NetworkMonitorWindows.getNetworkConnections none)).1 [sampleRow]).2,
      e.connection = sampleRow :=
  (snapshot_failure_wipes failingResolver NetworkMonitorWindows.new [sampleRow] sampleRow).2.2.2
    rfl (by decide) (by decide)

/-! ## The flow key -/

theorem digitChar_spec : ∀ k, k < 10 →
    (Nat.digitChar k).toNat - 48 = k ∧ (Nat.digitChar k).isDigit = true := by
  decide

theorem toDigitsCore_spec (fuel n : Nat) (ds : List Char) (h : n < fuel) :
    ∃ pre, Nat.toDigitsCore 10 fuel n ds = pre ++ ds ∧ digitsValue pre = n ∧
      ∀ c ∈ pre, c.isDigit = true := by
  induction fuel generalizing n ds with
  | zero => exact absurd h (Nat.not_lt_zero _)
  | succ fuel ih =>
    have hd := digitChar_spec (n % 10) (Nat.mod_lt _ (by decide))
    rw [Nat.toDigitsCore]
    by_cases h0 : n / 10 = 0
    · simp only [h0, if_true]
      refine ⟨[Nat.digitChar (n % 10)], rfl, ?_, ?_⟩
      · have hn : n % 10 = n := Nat.mod_eq_of_lt (by omega)
        simp only [digitsValue, List.foldl_cons, List.foldl_nil, Nat.zero_mul, Nat.zero_add]
        rw [hd.1, hn]
      · intro c hc
        rw [List.mem_singleton] at hc
        rw [hc]
        exact hd.2
    · simp only [h0, if_false]
      obtain ⟨pre, h1, h2, h3⟩ := ih (n / 10) (Nat.digitChar (n % 10) :: ds) (by omega)
      refine ⟨pre ++ [Nat.digitChar (n % 10)], ?_, ?_, ?_⟩
      · rw [h1, List.append_assoc]
        rfl
      · unfold digitsValue at h2 ⊢
        rw [List.foldl_append, h2]
        simp only [List.foldl_cons, List.foldl_nil]
        rw [hd.1]
        omega
      · intro c hc
        rcases List.mem_append.1 hc with hc | hc
        · exact h3 c hc
        · rw [List.mem_singleton] at hc
          rw [hc]
          exact hd.2

theorem toString_data_spec (n : Nat) :
    digitsValue (toString n).data = n ∧ ∀ c ∈ (toString n).data, c.isDigit = true := by
  obtain ⟨pre, h1, h2, h3⟩ := toDigitsCore_spec (n + 1) n [] (Nat.lt_succ_self n)
  have hdata : (toString n).data = Nat.toDigitsCore 10 (n + 1) n [] := rfl
  rw [hdata, h1, List.append_nil]
  exact ⟨h2, h3⟩

theorem toString_nat_injective (a b : Nat) (h : (toString a).data = (toString b).data) :
    a = b := by
  rw [← (toString_data_spec a).1, ← (toString_data_spec b).1, h]

theorem split_at_separator {α : Type} (c : α) (x1 x2 y1 y2 : List α)
    (h1 : c ∉ x1) (h2 : c ∉ x2) (h : x1 ++ c :: y1 = x2 ++ c :: y2) : x1 = x2 ∧ y1 = y2 := by
  induction x1 generalizing x2 with
  | nil =>
    cases x2 with
    | nil => exact ⟨rfl, by simpa using h⟩
    | cons b rest =>
      simp only [List.nil_append, List.cons_append, List.cons.injEq] at h
      exact absurd (h.1 ▸ List.mem_cons_self _ _) h2
  | cons a rest ih =>
    cases x2 with
    | nil =>
      simp only [List.nil_append, List.cons_append, List.cons.injEq] at h
      exact absurd (h.1 ▸ List.mem_cons_self _ _) h1
    | cons b rest2 =>
      simp only [List.cons_append, List.cons.injEq] at h
      obtain ⟨hab, hrest⟩ := h
      obtain ⟨e1, e2⟩ := ih rest2 (fun hm => h1 (List.mem_cons_of_mem _ hm))
        (fun hm => h2 (List.mem_cons_of_mem _ hm)) hrest
      exact ⟨by rw [hab, e1], e2⟩

theorem flowKey_data (conn : Conn) :
    (flowKey conn).data =
      conn.protocol.data ++ '-' :: (conn.localAddress.data ++ ':' ::
        ((toString conn.localPort).data ++ '-' :: (conn.remoteAddress.data ++ ':' ::
          (toString conn.remotePort).data))) := by
  simp [flowKey, String.data_append]

theorem digits_no_separator (n : Nat) : '-' ∉ (toString n).data := by
  intro h
  have := (toString_data_spec n).2 _ h
  exact absurd this (by decide)

/-- C28. Flow-key injectivity: for two rows whose protocol and address
strings hold neither `-` nor `:` (ports being natural numbers written in
decimal), the flow keys are equal if and only if the rows agree on protocol,
local address, local port, remote address and remote port. -/
theorem flow_key_injective (a b : Conn)
    (ha : plainField a.protocol ∧ plainField a.localAddress ∧ plainField a.remoteAddress)
    (hb : plainField b.protocol ∧ plainField b.localAddress ∧ plainField b.remoteAddress) :
    flowKey a = flowKey b ↔
      (a.protocol = b.protocol ∧ a.localAddress = b.localAddress ∧ a.localPort = b.localPort ∧
        a.remoteAddress = b.remoteAddress ∧ a.remotePort = b.remotePort) := by
  constructor
  · intro h
    have hdata : (flowKey a).data = (flowKey b).data := by rw [h]
    rw [flowKey_data, flowKey_data] at hdata
    obtain ⟨e1, r1⟩ := split_at_separator _ _ _ _ _ ha.1.1 hb.1.1 hdata
    obtain ⟨e2, r2⟩ := split_at_separator _ _ _ _ _ ha.2.1.2 hb.2.1.2 r1
    obtain ⟨e3, r3⟩ := split_at_separator _ _ _ _ _ (digits_no_separator _)
      (digits_no_separator _) r2
    obtain ⟨e4, e5⟩ := split_at_separator _ _ _ _ _ ha.2.2.2 hb.2.2.2 r3
    exact ⟨String.ext e1, String.ext e2, toString_nat_injective _ _ e3, String.ext e4,
      toString_nat_injective _ _ e5⟩
  · rintro ⟨h1, h2, h3, h4, h5⟩
    unfold flowKey
    rw [h1, h2, h3, h4, h5]

/-- Witness for C28: the sample row and the row of pid 20, which differ in
their local port. -/
theorem flow_key_injective_witness :
    flowKey sampleRow = flowKey otherRow ↔
      (sampleRow.protocol = otherRow.protocol ∧ sampleRow.localAddress = otherRow.localAddress ∧
        sampleRow.localPort = otherRow.localPort ∧
        sampleRow.remoteAddress = otherRow.remoteAddress ∧
        sampleRow.remotePort = otherRow.remotePort) :=
  flow_key_injective sampleRow otherRow
    ⟨⟨by decide, by decide⟩, ⟨by decide, by decide⟩, ⟨by decide, by decide⟩⟩
    ⟨⟨by decide, by decide⟩, ⟨by decide, by decide⟩, ⟨by decide, by decide⟩⟩

end SilverMonitor
